import Mathlib

/-!
# Per-vertex lighting of `render_opengl.c` (ProjectX / Forsaken)

A shallow embedding of the CPU lighting kernel of
`src/ProjectX/trunk/src/render_opengl.c`:
`GetRealLightAmbientWorldSpace`, `do_water_effect`, `do_whiteout_effect`,
`light_vert` and the helpers they use.

Conventions of the embedding.

* A C `float` is an exact rational number.  A float division whose divisor is
  zero has no rational value (the machine produces an infinity or a NaN); the
  embedding makes every division explicit (`fdiv`) and a function that executes
  such a division yields `none` / `Falloff.undef`.
* Rounding is left out of the definitions that carry the plain source names.
  Where a property turns on it, the definitions named `...Rounded` embed the
  same lines with every float operation followed by a rounding function `rnd`:
  `round32` is IEEE 754 binary32, and with the identity for `rnd` they are the
  exact definitions again.
* A C `int` is an integer (`ℤ`); the conversion `(int) f` is truncation toward
  zero (`f2i`).  Values are taken to stay inside the 32-bit range.
* The visible-light list (`FirstLightVisible`, `NextVisible`) is a finite
  `List XLIGHT`, walked from its head.
* The global `render_*` variables are the record `Globals`; what comes from
  headers that are not part of the sources at hand (`lights.h`, `new3d.h`, libm,
  SDL) is the record `Env`.
* A `COLOR` is a 32-bit word, a natural number below `2^32`; the byte view
  `u_int8_t *color` of `light_vert` is little-endian (`byteOf`, `packBytes`).
-/

namespace Forsaken

/-! ## Numbers -/

/-- C float division `a / b`; `none` when the divisor is zero. -/
def fdiv (a b : ℚ) : Option ℚ :=
  if b = 0 then none else some (a / b)

/-- C conversion `(int) q` of a float: truncation toward zero. -/
def f2i (q : ℚ) : ℤ :=
  if 0 ≤ q then ⌊q⌋ else ⌈q⌉

/-! ## Data model -/

/-- The `VECTOR` of `new3d.h`: three floats. -/
structure VECTOR where
  x : ℚ
  y : ℚ
  z : ℚ
deriving DecidableEq

/-- The fields of `XLIGHT` (`lights.h`) that the kernel reads.  The link
`NextVisible` is the tail of the list the light sits in. -/
structure XLIGHT where
  Pos : VECTOR
  Dir : VECTOR
  Size : ℚ
  CosArc : ℚ
  Type_ : ℤ
  r : ℚ
  g : ℚ
  b : ℚ
deriving DecidableEq

/-- The global lighting variables of `render_opengl.c` (lines 628-646). -/
structure Globals where
  render_color_blend_red : ℤ
  render_color_blend_green : ℤ
  render_color_blend_blue : ℤ
  render_lighting_enabled : ℤ
  render_lighting_point_lights_only : ℤ
  render_lighting_use_only_light_color : ℤ
  render_lighting_use_only_light_color_and_blend : ℤ
  render_light_ambience : ℤ
  render_light_ambience_alpha : ℤ
  render_lighting_env_water : ℤ
  render_lighting_env_water_level : ℤ
  render_lighting_env_water_red : ℚ
  render_lighting_env_water_green : ℚ
  render_lighting_env_water_blue : ℚ
  render_lighting_env_whiteout : ℤ

/-- What the kernel takes from outside `render_opengl.c`: the constants of
`lights.h`, the square root and sine of libm (the sine composed with the
degree-to-radian macro `D2R`), the millisecond clock `SDL_GetTicks`, the
product `MxV` with the current `world_matrix`, and whether the build defines
`LIGHT_EVERYTHING`. -/
structure Env where
  POINT_LIGHT : ℤ
  SPOT_LIGHT : ℤ
  MIN_LIGHT_SIZE : ℚ
  sqrt : ℚ → ℚ
  sinD2R : ℚ → ℚ
  SDL_GetTicks : ℕ
  MxV_world : VECTOR → VECTOR
  LIGHT_EVERYTHING : Bool

/-- The four float accumulators `*R`, `*G`, `*B`, `*A`. -/
structure RGBA where
  R : ℚ
  G : ℚ
  B : ℚ
  A : ℚ
deriving DecidableEq

/-! ## `GetRealLightAmbientWorldSpace` (lines 723-818) -/

/-- Outcome of the body of `if( rlen2 < lsize2 )` for one light: control reaches
`NEXT_LIGHT` without touching the accumulators (`next`), or an intensity is
accumulated (`lit`), or a division by zero was executed (`undef`). -/
inductive Falloff where
  | next : Falloff
  | lit : ℚ → Falloff
  | undef : Falloff
deriving DecidableEq

/-- Lines 734-736: `ray = Pos - LightPnt->Pos`. -/
def rayTo (Pos : VECTOR) (L : XLIGHT) : VECTOR :=
  ⟨Pos.x - L.Pos.x, Pos.y - L.Pos.y, Pos.z - L.Pos.z⟩

/-- Lines 738-742: `rlen2 = ray.x*ray.x + ray.y*ray.y + ray.z*ray.z`. -/
def rlen2Of (ray : VECTOR) : ℚ :=
  ray.x * ray.x + ray.y * ray.y + ray.z * ray.z

/-- Line 744: `lsize2 = LightPnt->Size * LightPnt->Size`. -/
def lsize2Of (L : XLIGHT) : ℚ :=
  L.Size * L.Size

/-- Line 750: `intensity = 1.0F - rlen2 / (int) lsize2`. -/
def pointIntensity (rlen2 lsize2 : ℚ) : Falloff :=
  match fdiv rlen2 ((f2i lsize2 : ℤ) : ℚ) with
  | some q => Falloff.lit (1 - q)
  | none => Falloff.undef

/-- Lines 754-760: the ray is divided by its length when `rlen2 > 0`. -/
def normalizeRay (env : Env) (ray : VECTOR) (rlen2 : ℚ) : Option VECTOR :=
  if rlen2 > 0 then
    match fdiv ray.x (env.sqrt rlen2), fdiv ray.y (env.sqrt rlen2),
        fdiv ray.z (env.sqrt rlen2) with
    | some x, some y, some z => some ⟨x, y, z⟩
    | _, _, _ => none
  else some ray

/-- Lines 762-766: `cosa`, the dot product of the ray with the light direction. -/
def cosaOf (ray : VECTOR) (L : XLIGHT) : ℚ :=
  ray.x * L.Dir.x + ray.y * L.Dir.y + ray.z * L.Dir.z

/-- Lines 770-775: the regime `rlen2 > lsize2 * 0.5F`. -/
def spotFar (L : XLIGHT) (rlen2 lsize2 cosa : ℚ) : Falloff :=
  if cosa > L.CosArc then
    match fdiv (lsize2 - rlen2) (3 / 4 * lsize2),
        fdiv (cosa - L.CosArc) (1 - L.CosArc) with
    | some d, some c => Falloff.lit (d * c)
    | _, _ => Falloff.undef
  else Falloff.next

/-- Lines 779-789: the regime `MIN_LIGHT_SIZE < rlen2 <= lsize2 * 0.5F`. -/
def spotMid (env : Env) (L : XLIGHT) (rlen2 lsize2 cosa : ℚ) : Falloff :=
  match fdiv (lsize2 * (1 / 2) - rlen2) (lsize2 * (1 / 2) - env.MIN_LIGHT_SIZE) with
  | none => Falloff.undef
  | some q =>
    let cosarc2 := L.CosArc * (1 - q)
    if cosa > cosarc2 then
      match fdiv (lsize2 - rlen2) (lsize2 - env.MIN_LIGHT_SIZE),
          fdiv (cosa - cosarc2) (1 - cosarc2) with
      | some d, some c => Falloff.lit (d * c)
      | _, _ => Falloff.undef
    else Falloff.next

/-- Lines 752-795: the branch `LightPnt->Type == SPOT_LIGHT`. -/
def spotIntensity (env : Env) (L : XLIGHT) (ray : VECTOR) (rlen2 lsize2 : ℚ) : Falloff :=
  match normalizeRay env ray rlen2 with
  | none => Falloff.undef
  | some ray1 =>
    let cosa := cosaOf ray1 L
    if rlen2 > lsize2 * (1 / 2) then spotFar L rlen2 lsize2 cosa
    else if rlen2 > env.MIN_LIGHT_SIZE then spotMid env L rlen2 lsize2 cosa
    else Falloff.lit (if cosa > 0 then 1 else 1 + cosa)

/-- Lines 734-801: what one light of the list does at `Pos`. -/
def lightIntensity (gl : Globals) (env : Env) (Pos : VECTOR) (L : XLIGHT) : Falloff :=
  let ray := rayTo Pos L
  let rlen2 := rlen2Of ray
  let lsize2 := lsize2Of L
  if rlen2 < lsize2 then
    if gl.render_lighting_point_lights_only ≠ 0 ∨ L.Type_ = env.POINT_LIGHT then
      pointIntensity rlen2 lsize2
    else if L.Type_ = env.SPOT_LIGHT then
      spotIntensity env L ray rlen2 lsize2
    else Falloff.next
  else Falloff.next

/-- Lines 803-806: `*R += r * intensity` and so on. -/
def accumulate (acc : RGBA) (L : XLIGHT) (intensity : ℚ) : RGBA :=
  ⟨acc.R + L.r * intensity, acc.G + L.g * intensity, acc.B + L.b * intensity,
    acc.A + 255 * intensity⟩

/-- One turn of the `while( LightPnt )` loop. -/
def lightStep (gl : Globals) (env : Env) (Pos : VECTOR) (acc : RGBA) (L : XLIGHT) :
    Option RGBA :=
  match lightIntensity gl env Pos L with
  | Falloff.next => some acc
  | Falloff.lit i => some (accumulate acc L i)
  | Falloff.undef => none

/-- The `while( LightPnt )` loop over the visible list. -/
def walkLights (gl : Globals) (env : Env) (Pos : VECTOR) : RGBA → List XLIGHT → Option RGBA
  | acc, [] => some acc
  | acc, L :: rest =>
    match lightStep gl env Pos acc L with
    | some acc1 => walkLights gl env Pos acc1 rest
    | none => none

/-- Lines 814-817: `if( *R > 255.0F ) *R = 255.0F`. -/
def clamp255 (q : ℚ) : ℚ :=
  if q > 255 then 255 else q

/-- Lines 729-730: the accumulators start at the ambient level and alpha. -/
def ambientStart (gl : Globals) : RGBA :=
  ⟨gl.render_light_ambience, gl.render_light_ambience, gl.render_light_ambience,
    gl.render_light_ambience_alpha⟩

/-- The call `GetRealLightAmbientWorldSpace( Pos, R, G, B, A )` with `FirstLightVisible`
the head of `lights`: the values left in `*R`, `*G`, `*B`, `*A`. -/
def GetRealLightAmbientWorldSpace (gl : Globals) (env : Env) (Pos : VECTOR)
    (lights : List XLIGHT) : Option RGBA :=
  match walkLights gl env Pos (ambientStart gl) lights with
  | some acc => some ⟨clamp255 acc.R, clamp255 acc.G, clamp255 acc.B, clamp255 acc.A⟩
  | none => none

/-! ## Environmental effects (lines 667-720) -/

/-- Lines 678-680 and 705-707: `(int)(pos->x * 0.35f) % 360`, the C remainder. -/
def axisTerm (p : ℚ) : ℤ :=
  Int.tmod (f2i (p * (35 / 100))) 360

/-- Lines 681 and 708: `seconds = SDL_GetTicks() / 1000.0f`. -/
def secondsOf (env : Env) : ℚ :=
  (env.SDL_GetTicks : ℚ) / 1000

/-- Lines 682-688 and 709-715: the sum of three sines, scaled by
`127.0F * 0.3333333F` and shifted by `128.0F`; `speed` is `71.0f`. -/
def noiseValue (env : Env) (pos : VECTOR) : ℚ :=
  (env.sinD2R ((axisTerm pos.x : ℚ) + secondsOf env * 71)
      + env.sinD2R ((axisTerm pos.y : ℚ) + secondsOf env * 71)
      + env.sinD2R ((axisTerm pos.z : ℚ) + secondsOf env * 71))
    * 127 * (3333333 / 10000000) + 128

/-- Conversion of a float to `u_int32_t`: truncation, reduced modulo `2^32`. -/
def f2u32 (q : ℚ) : ℕ :=
  Int.toNat (f2i q % 4294967296)

/-- Conversion of a float to `u_int8_t`: truncation, reduced modulo `2^8`. -/
def f2u8 (q : ℚ) : ℕ :=
  Int.toNat (f2i q % 256)

/-- Lines 689-694: `r += coefficient * intensity; if(r > 255) r = 255;`. -/
def waterChannel (c : ℕ) (coefficient intensity : ℚ) : ℕ :=
  let r := f2u32 ((c : ℚ) + coefficient * intensity)
  if r > 255 then 255 else r

/-- The call `do_water_effect( pos, color )`, lines 667-698.  The parameter is a
`COLOR *`, so `color[0]`, `color[1]`, `color[2]` are three consecutive 32-bit
words; the triple holds them in that order, before and after the call. -/
def do_water_effect (gl : Globals) (env : Env) (pos : VECTOR) (color : ℕ × ℕ × ℕ) :
    ℕ × ℕ × ℕ :=
  if gl.render_lighting_env_water = 2 ∧ pos.y ≥ (gl.render_lighting_env_water_level : ℚ) then
    color
  else
    let r := color.2.2 >>> 2
    let g := color.2.1 >>> 2
    let b := color.1 >>> 2
    let intensity := noiseValue env pos
    (waterChannel b gl.render_lighting_env_water_blue intensity % 256,
      waterChannel g gl.render_lighting_env_water_green intensity % 256,
      waterChannel r gl.render_lighting_env_water_red intensity % 256)

/-- Lines 709-717: the `int intensity` of the whiteout, after the boost and the
upper clamp. -/
def whiteoutIntensity (gl : Globals) (env : Env) (pos : VECTOR) : ℤ :=
  let intensity := f2i (noiseValue env pos) + gl.render_lighting_env_whiteout
  if intensity > 255 then 255 else intensity

/-- The call `do_whiteout_effect( pos, color )`, lines 700-720:
`*color &= 0xffff; *color |= ( intensity << 24 ) + ( intensity << 16 );`
with the shifted sum reduced to 32 bits. -/
def do_whiteout_effect (gl : Globals) (env : Env) (pos : VECTOR) (color : ℕ) : ℕ :=
  let intensity := whiteoutIntensity gl env pos
  (color &&& 0xffff) |||
    Int.toNat ((intensity * 16777216 + intensity * 65536) % 4294967296)

/-! ## `light_vert` (lines 820-874) -/

/-- Byte `i` of a colour word, `((u_int8_t *) &c)[i]` on a little-endian machine. -/
def byteOf (c : ℕ) (i : ℕ) : ℕ :=
  c / 256 ^ i % 256

/-- The colour word whose bytes `[0]`, `[1]`, `[2]`, `[3]` are given. -/
def packBytes (b0 b1 b2 b3 : ℕ) : ℕ :=
  b0 % 256 + 256 * (b1 % 256) + 65536 * (b2 % 256) + 16777216 * (b3 % 256)

/-- The tail of `MINUS`: `(tmp < 0) ? 0 : (tmp > 255) ? 255 : tmp`. -/
def clampByte (tmp : ℤ) : ℕ :=
  if tmp < 0 then 0 else if tmp > 255 then 255 else tmp.toNat

/-- The statement `MINUS( X, Y )` with an `int` operand `Y` (lines 820-824). -/
def MINUS (X : ℕ) (Y : ℤ) : ℕ :=
  clampByte ((X : ℤ) - Y)

/-- The statement `MINUS( X, Y )` with a `float` operand `Y`: `tmp -= Y` is computed in
floating point and converted back to `int`. -/
def MINUSf (X : ℕ) (Y : ℚ) : ℕ :=
  clampByte (f2i ((X : ℚ) - Y))

/-- The statement `ADD( X, Y )` is `MINUS( X, -Y )` (lines 826-827), `int` operand. -/
def ADD (X : ℕ) (Y : ℤ) : ℕ :=
  MINUS X (-Y)

/-- The statement `ADD( X, Y )` with a `float` operand. -/
def ADDf (X : ℕ) (Y : ℚ) : ℕ :=
  MINUSf X (-Y)

/-- The statement `MIX_COLOR_BLEND_LIGHT( COLOR, BLEND, LIGHT )` (lines 831-833):
`ADD( COLOR, LIGHT ); MINUS( COLOR, BLEND )`. -/
def MIX_COLOR_BLEND_LIGHT (COLOR : ℕ) (BLEND : ℤ) (LIGHT : ℚ) : ℕ :=
  MINUS (ADDf COLOR LIGHT) BLEND

/-- The fields of `LVERTEX` used by the drawing path. -/
structure LVERTEX where
  x : ℚ
  y : ℚ
  z : ℚ
  color : ℕ
  tu : ℚ
  tv : ℚ

/-- Lines 843-846: the colour word after the whiteout or the water effect.
`adj` holds the two words that follow the colour in memory, which
`do_water_effect` reads as `color[1]` and `color[2]`. -/
def envStage (gl : Globals) (env : Env) (world : VECTOR) (adj : ℕ × ℕ) (color : ℕ) : ℕ :=
  if gl.render_lighting_env_whiteout ≠ 0 then do_whiteout_effect gl env world color
  else if gl.render_lighting_env_water ≠ 0 then
    (do_water_effect gl env world (color, adj.1, adj.2)).1
  else color

/-- Lines 840 and 847-850: `r`, `g`, `b`, `a` start at `0.0f` and are filled by
`GetRealLightAmbientWorldSpace` when lighting is enabled (always, when
`LIGHT_EVERYTHING` is defined). -/
def lightAt (gl : Globals) (env : Env) (lights : List XLIGHT) (world : VECTOR) :
    Option RGBA :=
  if env.LIGHT_EVERYTHING = true ∨ gl.render_lighting_enabled ≠ 0 then
    GetRealLightAmbientWorldSpace gl env world lights
  else some ⟨0, 0, 0, 0⟩

/-- Lines 851-873: the three colour policies, on the bytes of the colour. -/
def applyPolicy (gl : Globals) (c : ℕ) (l : RGBA) : ℕ :=
  if gl.render_lighting_use_only_light_color ≠ 0 then
    packBytes (f2u8 l.B) (f2u8 l.G) (f2u8 l.R) (f2u8 l.A)
  else if gl.render_lighting_use_only_light_color_and_blend ≠ 0 then
    packBytes (ADD (f2u8 l.B) gl.render_color_blend_blue)
      (ADD (f2u8 l.G) gl.render_color_blend_green)
      (ADD (f2u8 l.R) gl.render_color_blend_red)
      (f2u8 l.A)
  else
    packBytes (MIX_COLOR_BLEND_LIGHT (byteOf c 0) gl.render_color_blend_blue l.B)
      (MIX_COLOR_BLEND_LIGHT (byteOf c 1) gl.render_color_blend_green l.G)
      (MIX_COLOR_BLEND_LIGHT (byteOf c 2) gl.render_color_blend_red l.R)
      (byteOf c 3)

/-- The call `light_vert( vert, _color )`: the colour word left in `*_color`; `lights` is
the visible-light list and `adj` the two words after the colour in memory. -/
def light_vert (gl : Globals) (env : Env) (lights : List XLIGHT) (vert : LVERTEX)
    (adj : ℕ × ℕ) (color : ℕ) : Option ℕ :=
  let world := env.MxV_world ⟨vert.x, vert.y, vert.z⟩
  let c1 := envStage gl env world adj color
  match lightAt gl env lights world with
  | some l => some (applyPolicy gl c1 l)
  | none => none

/-! ## `set_color`, the reset and `draw_vert` (lines 619-665 and 876-898) -/

/-- Line 624 of `set_color`: the red and blue bytes of the word change places,
`(c & 0xff00ff00) | ((c & 0x00ff0000) >> 16) | ((c & 0x000000ff) << 16)`. -/
def swapRedBlue (c : ℕ) : ℕ :=
  ((c &&& 0xff00ff00) ||| ((c &&& 0x00ff0000) >>> 16)) ||| ((c &&& 0x000000ff) <<< 16)

/-- The OpenGL calls that the drawing path issues for one vertex. -/
inductive GLCall where
  | glColor4ubv : ℕ → GLCall
  | glTexCoord2f : ℚ → ℚ → GLCall
  | glVertex2f : ℚ → ℚ → GLCall
  | glVertex3f : ℚ → ℚ → ℚ → GLCall
deriving DecidableEq

/-- The call `set_color( c )`, lines 619-626: `glColor4ubv` on the swapped word. -/
def set_color (c : ℕ) : List GLCall :=
  [GLCall.glColor4ubv (swapRedBlue c)]

/-- The values the global lighting variables are initialised with at program
start (lines 628-646). -/
def programStartGlobals : Globals :=
  { render_color_blend_red := 0
    render_color_blend_green := 0
    render_color_blend_blue := 0
    render_lighting_enabled := 0
    render_lighting_point_lights_only := 1
    render_lighting_use_only_light_color := 0
    render_lighting_use_only_light_color_and_blend := 0
    render_light_ambience := 0
    render_light_ambience_alpha := 255
    render_lighting_env_water := 0
    render_lighting_env_water_level := 0
    render_lighting_env_water_red := 0
    render_lighting_env_water_green := 0
    render_lighting_env_water_blue := 0
    render_lighting_env_whiteout := 0 }

/-- The call `render_reset_lighting_variables()`, lines 648-665: fifteen
assignments to the global variables, as a map from the state before to the
state after. -/
def render_reset_lighting_variables (gl : Globals) : Globals :=
  { gl with
    render_color_blend_red := 0
    render_color_blend_green := 0
    render_color_blend_blue := 0
    render_lighting_enabled := 0
    render_lighting_point_lights_only := 1
    render_lighting_use_only_light_color := 0
    render_lighting_use_only_light_color_and_blend := 0
    render_light_ambience := 0
    render_light_ambience_alpha := 255
    render_lighting_env_water := 0
    render_lighting_env_water_level := 0
    render_lighting_env_water_red := 0
    render_lighting_env_water_green := 0
    render_lighting_env_water_blue := 0
    render_lighting_env_whiteout := 0 }

/-- The fields of `TLVERTEX` used by the drawing path. -/
structure TLVERTEX where
  x : ℚ
  y : ℚ
  color : ℕ
  tu : ℚ
  tv : ℚ

/-- The call `draw_vert( _vert, orthographic )`, lines 876-898.  `vert` and
`tlvert` are the two views of the record at `_vert`, as in the source;
`NEW_LIGHTING` tells whether the build defines that symbol.  The result is the
record at `_vert` after the call, in its `LVERTEX` view, and the OpenGL calls
issued. -/
def draw_vert (gl : Globals) (env : Env) (lights : List XLIGHT) (NEW_LIGHTING : Bool)
    (adj : ℕ × ℕ) (vert : LVERTEX) (tlvert : TLVERTEX) (orthographic : Bool) :
    Option (LVERTEX × List GLCall) :=
  if orthographic = true then
    some (vert, set_color tlvert.color ++
      [GLCall.glTexCoord2f tlvert.tu tlvert.tv, GLCall.glVertex2f tlvert.x tlvert.y])
  else if NEW_LIGHTING = true then
    match light_vert gl env lights vert adj vert.color with
    | some c =>
      some (vert, set_color c ++
        [GLCall.glTexCoord2f vert.tu vert.tv, GLCall.glVertex3f vert.x vert.y vert.z])
    | none => none
  else
    some (vert, set_color vert.color ++
      [GLCall.glTexCoord2f vert.tu vert.tv, GLCall.glVertex3f vert.x vert.y vert.z])

/-! ## `draw_render_object` (lines 900-965) -/

/-- The fields of one entry of `textureGroups` that select the vertices drawn. -/
structure TextureGroup where
  startVert : ℤ
  numVerts : ℤ
  startIndex : ℤ
  numTriangles : ℤ

/-- The fields of `RENDEROBJECT` read by the vertex loops: the index buffer
(`none` for a null `lpIndexBuffer`, else its `WORD` entries) and the texture
groups, `numTextureGroups` of them. -/
structure RENDEROBJECT where
  lpIndexBuffer : Option (List ℕ)
  textureGroups : List TextureGroup

/-- Lines 958-964, `for( i = startVert; i < numVerts; i++ ) draw_vert( &verts[i] )`:
the indices of the vertices passed to `draw_vert`, from the loop variable `i` on. -/
def vertexLoop (numVerts : ℤ) (i : ℤ) : List ℤ :=
  if h : i < numVerts then i :: vertexLoop numVerts (i + 1) else []
termination_by (numVerts - i).toNat
decreasing_by omega

/-- The read `indices[ k ]`; `none` outside the buffer. -/
def indexAt (indices : List ℕ) (k : ℤ) : Option ℕ :=
  if 0 ≤ k then indices[k.toNat]? else none

/-- Lines 943-954, `for( i = 0; i < numIndices; i++ )` with
`indice = indices[ startIndex + i ]` and `vert = startVert + indice`: the indices
of the vertices passed to `draw_vert`, from the loop variable `i` on. -/
def indexLoop (indices : List ℕ) (startVert startIndex numIndices : ℤ) (i : ℤ) :
    Option (List ℤ) :=
  if _h : i < numIndices then
    match indexAt indices (startIndex + i) with
    | some indice =>
      match indexLoop indices startVert startIndex numIndices (i + 1) with
      | some rest => some ((startVert + (indice : ℤ)) :: rest)
      | none => none
    | none => none
  else some []
termination_by (numIndices - i).toNat
decreasing_by omega

/-- The body of the loop over the texture groups, lines 924-974: the indices of
the vertices passed to `draw_vert` for one group, in order. -/
def drawGroup (renderObject : RENDEROBJECT) (g : TextureGroup) : Option (List ℤ) :=
  match renderObject.lpIndexBuffer with
  | some indices => indexLoop indices g.startVert g.startIndex (g.numTriangles * 3) 0
  | none => some (vertexLoop g.numVerts g.startVert)

/-- The loop `for (group = 0; group < renderObject->numTextureGroups; group++)`. -/
def drawGroups (renderObject : RENDEROBJECT) : List TextureGroup → Option (List (List ℤ))
  | [] => some []
  | g :: rest =>
    match drawGroup renderObject g with
    | some vs =>
      match drawGroups renderObject rest with
      | some vss => some (vs :: vss)
      | none => none
    | none => none

/-- The call `draw_render_object( renderObject, primitive_type, orthographic )`:
for each texture group, the indices of the vertices submitted through
`draw_vert`.  The OpenGL state calls around them are not part of the result. -/
def draw_render_object (renderObject : RENDEROBJECT) : Option (List (List ℤ)) :=
  drawGroups renderObject renderObject.textureGroups

/-! ## Binary32 rounding -/

/-- Rounding of a rational to the nearest integer, a tie going to the even one. -/
def roundEven (q : ℚ) : ℤ :=
  if q - (⌊q⌋ : ℚ) < 1 / 2 then ⌊q⌋
  else if 1 / 2 < q - (⌊q⌋ : ℚ) then ⌊q⌋ + 1
  else if ⌊q⌋ % 2 = 0 then ⌊q⌋
  else ⌊q⌋ + 1

/-- Number of binary digits of `n`; the first argument bounds the recursion. -/
def bitLength : ℕ → ℕ → ℕ
  | 0, _ => 0
  | fuel + 1, n => if n = 0 then 0 else bitLength fuel (n / 2) + 1

/-- The binary exponent of a non-zero rational: the `e` with
`2^e <= |q| < 2^(e+1)`.  The difference of the digit counts of numerator and
denominator is `e` or `e + 1`. -/
def floorLog2 (q : ℚ) : ℤ :=
  if (2 : ℚ) ^ ((bitLength q.num.natAbs q.num.natAbs : ℤ) - (bitLength q.den q.den : ℤ)) ≤ |q| then
    (bitLength q.num.natAbs q.num.natAbs : ℤ) - (bitLength q.den q.den : ℤ)
  else (bitLength q.num.natAbs q.num.natAbs : ℤ) - (bitLength q.den q.den : ℤ) - 1

/-- Rounding to IEEE 754 binary32, the C `float`: round to nearest, ties to even,
24 significant bits, least exponent -126 (so a subnormal result is a multiple of
`2^-149`).  Values are taken to stay below the overflow threshold. -/
def round32 (q : ℚ) : ℚ :=
  if q = 0 then 0
  else (roundEven (q / (2 : ℚ) ^ (max (floorLog2 q) (-126) - 23)) : ℚ) *
    (2 : ℚ) ^ (max (floorLog2 q) (-126) - 23)

/-! ## `GetRealLightAmbientWorldSpace` with rounded float operations -/

/-- C float division `a / b` with the quotient rounded; `none` when the divisor
is zero. -/
def fdivRounded (rnd : ℚ → ℚ) (a b : ℚ) : Option ℚ :=
  if b = 0 then none else some (rnd (a / b))

/-- Lines 734-736, each difference rounded. -/
def rayToRounded (rnd : ℚ → ℚ) (Pos : VECTOR) (L : XLIGHT) : VECTOR :=
  ⟨rnd (Pos.x - L.Pos.x), rnd (Pos.y - L.Pos.y), rnd (Pos.z - L.Pos.z)⟩

/-- Lines 738-742, each product and each sum rounded, from left to right. -/
def rlen2OfRounded (rnd : ℚ → ℚ) (ray : VECTOR) : ℚ :=
  rnd (rnd (rnd (ray.x * ray.x) + rnd (ray.y * ray.y)) + rnd (ray.z * ray.z))

/-- Line 744, the product rounded. -/
def lsize2OfRounded (rnd : ℚ → ℚ) (L : XLIGHT) : ℚ :=
  rnd (L.Size * L.Size)

/-- Line 750: the `int` divisor is converted to `float`, then the quotient and
the difference are rounded. -/
def pointIntensityRounded (rnd : ℚ → ℚ) (rlen2 lsize2 : ℚ) : Falloff :=
  match fdivRounded rnd rlen2 (rnd ((f2i lsize2 : ℤ) : ℚ)) with
  | some q => Falloff.lit (rnd (1 - q))
  | none => Falloff.undef

/-- Lines 754-760: `rlen = (float) sqrt( rlen2 )` and the three quotients. -/
def normalizeRayRounded (rnd : ℚ → ℚ) (env : Env) (ray : VECTOR) (rlen2 : ℚ) :
    Option VECTOR :=
  if rlen2 > 0 then
    match fdivRounded rnd ray.x (rnd (env.sqrt rlen2)),
        fdivRounded rnd ray.y (rnd (env.sqrt rlen2)),
        fdivRounded rnd ray.z (rnd (env.sqrt rlen2)) with
    | some x, some y, some z => some ⟨x, y, z⟩
    | _, _, _ => none
  else some ray

/-- Lines 762-766, each product and each sum rounded, from left to right. -/
def cosaOfRounded (rnd : ℚ → ℚ) (ray : VECTOR) (L : XLIGHT) : ℚ :=
  rnd (rnd (rnd (ray.x * L.Dir.x) + rnd (ray.y * L.Dir.y)) + rnd (ray.z * L.Dir.z))

/-- Lines 770-775 with rounded operations. -/
def spotFarRounded (rnd : ℚ → ℚ) (L : XLIGHT) (rlen2 lsize2 cosa : ℚ) : Falloff :=
  if cosa > L.CosArc then
    match fdivRounded rnd (rnd (lsize2 - rlen2)) (rnd (3 / 4 * lsize2)),
        fdivRounded rnd (rnd (cosa - L.CosArc)) (rnd (1 - L.CosArc)) with
    | some d, some c => Falloff.lit (rnd (d * c))
    | _, _ => Falloff.undef
  else Falloff.next

/-- Lines 779-789 with rounded operations. -/
def spotMidRounded (rnd : ℚ → ℚ) (env : Env) (L : XLIGHT) (rlen2 lsize2 cosa : ℚ) :
    Falloff :=
  match fdivRounded rnd (rnd (rnd (lsize2 * (1 / 2)) - rlen2))
      (rnd (rnd (lsize2 * (1 / 2)) - env.MIN_LIGHT_SIZE)) with
  | none => Falloff.undef
  | some q =>
    let cosarc2 := rnd (L.CosArc * rnd (1 - q))
    if cosa > cosarc2 then
      match fdivRounded rnd (rnd (lsize2 - rlen2)) (rnd (lsize2 - env.MIN_LIGHT_SIZE)),
          fdivRounded rnd (rnd (cosa - cosarc2)) (rnd (1 - cosarc2)) with
      | some d, some c => Falloff.lit (rnd (d * c))
      | _, _ => Falloff.undef
    else Falloff.next

/-- Lines 752-795 with rounded operations. -/
def spotIntensityRounded (rnd : ℚ → ℚ) (env : Env) (L : XLIGHT) (ray : VECTOR)
    (rlen2 lsize2 : ℚ) : Falloff :=
  match normalizeRayRounded rnd env ray rlen2 with
  | none => Falloff.undef
  | some ray1 =>
    let cosa := cosaOfRounded rnd ray1 L
    if rlen2 > rnd (lsize2 * (1 / 2)) then spotFarRounded rnd L rlen2 lsize2 cosa
    else if rlen2 > env.MIN_LIGHT_SIZE then spotMidRounded rnd env L rlen2 lsize2 cosa
    else Falloff.lit (if cosa > 0 then 1 else rnd (1 + cosa))

/-- Lines 734-801 with rounded operations. -/
def lightIntensityRounded (rnd : ℚ → ℚ) (gl : Globals) (env : Env) (Pos : VECTOR)
    (L : XLIGHT) : Falloff :=
  let ray := rayToRounded rnd Pos L
  let rlen2 := rlen2OfRounded rnd ray
  let lsize2 := lsize2OfRounded rnd L
  if rlen2 < lsize2 then
    if gl.render_lighting_point_lights_only ≠ 0 ∨ L.Type_ = env.POINT_LIGHT then
      pointIntensityRounded rnd rlen2 lsize2
    else if L.Type_ = env.SPOT_LIGHT then
      spotIntensityRounded rnd env L ray rlen2 lsize2
    else Falloff.next
  else Falloff.next

/-- Lines 803-806: each product and each sum rounded. -/
def accumulateRounded (rnd : ℚ → ℚ) (acc : RGBA) (L : XLIGHT) (intensity : ℚ) : RGBA :=
  ⟨rnd (acc.R + rnd (L.r * intensity)), rnd (acc.G + rnd (L.g * intensity)),
    rnd (acc.B + rnd (L.b * intensity)), rnd (acc.A + rnd (255 * intensity))⟩

/-- One turn of the `while( LightPnt )` loop with rounded operations. -/
def lightStepRounded (rnd : ℚ → ℚ) (gl : Globals) (env : Env) (Pos : VECTOR) (acc : RGBA)
    (L : XLIGHT) : Option RGBA :=
  match lightIntensityRounded rnd gl env Pos L with
  | Falloff.next => some acc
  | Falloff.lit i => some (accumulateRounded rnd acc L i)
  | Falloff.undef => none

/-- The `while( LightPnt )` loop over the visible list with rounded operations. -/
def walkLightsRounded (rnd : ℚ → ℚ) (gl : Globals) (env : Env) (Pos : VECTOR) :
    RGBA → List XLIGHT → Option RGBA
  | acc, [] => some acc
  | acc, L :: rest =>
    match lightStepRounded rnd gl env Pos acc L with
    | some acc1 => walkLightsRounded rnd gl env Pos acc1 rest
    | none => none

/-- Lines 729-730: the `int` globals are converted to `float`. -/
def ambientStartRounded (rnd : ℚ → ℚ) (gl : Globals) : RGBA :=
  ⟨rnd (gl.render_light_ambience : ℚ), rnd (gl.render_light_ambience : ℚ),
    rnd (gl.render_light_ambience : ℚ), rnd (gl.render_light_ambience_alpha : ℚ)⟩

/-- The call `GetRealLightAmbientWorldSpace( Pos, R, G, B, A )` with every float
operation rounded by `rnd`. -/
def GetRealLightAmbientWorldSpaceRounded (rnd : ℚ → ℚ) (gl : Globals) (env : Env)
    (Pos : VECTOR) (lights : List XLIGHT) : Option RGBA :=
  match walkLightsRounded rnd gl env Pos (ambientStartRounded rnd gl) lights with
  | some acc => some ⟨clamp255 acc.R, clamp255 acc.G, clamp255 acc.B, clamp255 acc.A⟩
  | none => none

/-! ## The noise with rounded float operations (lines 678-688 and 705-715) -/

/-- Lines 678-680 and 705-707: `(int)(pos->x * 0.35f)`, the constant and the
product rounded. -/
def axisIntRounded (rnd : ℚ → ℚ) (p : ℚ) : ℤ :=
  f2i (rnd (p * rnd (35 / 100)))

/-- Lines 678-680 and 705-707: `(int)(pos->x * 0.35f) % 360`, the C remainder. -/
def axisTermRounded (rnd : ℚ → ℚ) (p : ℚ) : ℤ :=
  Int.tmod (axisIntRounded rnd p) 360

/-- Lines 681 and 708: the tick count is converted to `float` and the quotient
by `1000.0f` is rounded. -/
def secondsOfRounded (rnd : ℚ → ℚ) (env : Env) : ℚ :=
  rnd (rnd (env.SDL_GetTicks : ℚ) / 1000)

/-- Lines 684-686 and 711-713: the float `x + seconds * speed` handed to `D2R`,
for the `int` axis term `x`; `speed` is `71.0f`. -/
def sineArgRounded (rnd : ℚ → ℚ) (env : Env) (x : ℤ) : ℚ :=
  rnd (rnd (x : ℚ) + rnd (secondsOfRounded rnd env * 71))

/-- Lines 682-688 and 709-715 with rounded float operations; the sines, their
sum and its scaling are computed in `double` and taken as exact, the constant
`0.3333333F` is a `float`. -/
def noiseValueRounded (rnd : ℚ → ℚ) (env : Env) (pos : VECTOR) : ℚ :=
  (env.sinD2R (sineArgRounded rnd env (axisTermRounded rnd pos.x))
      + env.sinD2R (sineArgRounded rnd env (axisTermRounded rnd pos.y))
      + env.sinD2R (sineArgRounded rnd env (axisTermRounded rnd pos.z)))
    * 127 * rnd (3333333 / 10000000) + 128

/-! ## Closed form of the accumulator, after the specification -/

/-- The term one light adds to an accumulator whose colour weight is `f`:
`f L * intensity` for a light that is in range and not skipped, else nothing. -/
def litTerm (gl : Globals) (env : Env) (Pos : VECTOR) (f : XLIGHT → ℚ) (L : XLIGHT) : ℚ :=
  match lightIntensity gl env Pos L with
  | Falloff.lit i => f L * i
  | _ => 0

/-- The sum of the terms of all lights of the list. -/
def litSum (gl : Globals) (env : Env) (Pos : VECTOR) (f : XLIGHT → ℚ)
    (lights : List XLIGHT) : ℚ :=
  (lights.map (litTerm gl env Pos f)).sum

/-- No light of the list executes a division by zero at `Pos`. -/
def NoDivByZero (gl : Globals) (env : Env) (Pos : VECTOR) (lights : List XLIGHT) : Prop :=
  ∀ L ∈ lights, lightIntensity gl env Pos L ≠ Falloff.undef

instance (gl : Globals) (env : Env) (Pos : VECTOR) (lights : List XLIGHT) :
    Decidable (NoDivByZero gl env Pos lights) := by
  unfold NoDivByZero; infer_instance

/-- The accumulator as the specification words it: ambient base plus the sum of
`colour * intensity` over the contributing lights, clamped once to 255. -/
def closedForm (gl : Globals) (env : Env) (Pos : VECTOR) (lights : List XLIGHT) :
    Option RGBA :=
  if NoDivByZero gl env Pos lights then
    some ⟨min 255 ((gl.render_light_ambience : ℚ) + litSum gl env Pos (fun L => L.r) lights),
      min 255 ((gl.render_light_ambience : ℚ) + litSum gl env Pos (fun L => L.g) lights),
      min 255 ((gl.render_light_ambience : ℚ) + litSum gl env Pos (fun L => L.b) lights),
      min 255 ((gl.render_light_ambience_alpha : ℚ) + litSum gl env Pos (fun _ => 255) lights)⟩
  else none

/-- The intensity a light contributes at `Pos`, taken as 0 when the light is
skipped. -/
def intensityOrZero (gl : Globals) (env : Env) (Pos : VECTOR) (L : XLIGHT) : ℚ :=
  match lightIntensity gl env Pos L with
  | Falloff.lit i => i
  | _ => 0

/-- The contributing lights of the list, in list order, each with the intensity
it is accumulated with. -/
def litLights (rnd : ℚ → ℚ) (gl : Globals) (env : Env) (Pos : VECTOR)
    (lights : List XLIGHT) : List (XLIGHT × ℚ) :=
  lights.filterMap (fun L =>
    match lightIntensityRounded rnd gl env Pos L with
    | Falloff.lit i => some (L, i)
    | _ => none)

/-- The accumulator as the specification words it, with the additions made in
list order: from the ambient values, `colour * intensity` (and `255 * intensity`)
is added for each contributing light, and the four sums are clamped once. -/
def orderedForm (rnd : ℚ → ℚ) (gl : Globals) (env : Env) (Pos : VECTOR)
    (lights : List XLIGHT) : Option RGBA :=
  if ∀ L ∈ lights, lightIntensityRounded rnd gl env Pos L ≠ Falloff.undef then
    some ⟨clamp255 (((litLights rnd gl env Pos lights).foldl
        (fun acc p => accumulateRounded rnd acc p.1 p.2) (ambientStartRounded rnd gl)).R),
      clamp255 (((litLights rnd gl env Pos lights).foldl
        (fun acc p => accumulateRounded rnd acc p.1 p.2) (ambientStartRounded rnd gl)).G),
      clamp255 (((litLights rnd gl env Pos lights).foldl
        (fun acc p => accumulateRounded rnd acc p.1 p.2) (ambientStartRounded rnd gl)).B),
      clamp255 (((litLights rnd gl env Pos lights).foldl
        (fun acc p => accumulateRounded rnd acc p.1 p.2) (ambientStartRounded rnd gl)).A)⟩
  else none

/-- An axis term `n2` that is `n`, `n + 360` or `n - 360`. -/
def shifted360 (n n2 : ℤ) : Prop :=
  n2 = n ∨ n2 = n + 360 ∨ n2 = n - 360

/-- Two axis terms on the same side of zero. -/
def sameSide (n n2 : ℤ) : Prop :=
  (0 ≤ n ∧ 0 ≤ n2) ∨ (n ≤ 0 ∧ n2 ≤ 0)

/-- The `cosa` of lines 762-766 as a number: the dot product of the light
direction with the ray, divided by its length when `rlen2 > 0`. -/
def spotCosa (env : Env) (Pos : VECTOR) (L : XLIGHT) : ℚ :=
  if rlen2Of (rayTo Pos L) > 0 then
    cosaOf ⟨(rayTo Pos L).x / env.sqrt (rlen2Of (rayTo Pos L)),
      (rayTo Pos L).y / env.sqrt (rlen2Of (rayTo Pos L)),
      (rayTo Pos L).z / env.sqrt (rlen2Of (rayTo Pos L))⟩ L
  else cosaOf (rayTo Pos L) L

/-- The far-regime formula of the specification, as a function of `rlen2`. -/
def farFormula (lsize2 CosArc cosa rlen2 : ℚ) : ℚ :=
  ((lsize2 - rlen2) / (3 / 4 * lsize2)) * ((cosa - CosArc) / (1 - CosArc))

/-- The narrowed cone threshold `cosarc2` of the middle regime. -/
def midCosarc2 (minSize lsize2 CosArc rlen2 : ℚ) : ℚ :=
  CosArc * (1 - (lsize2 * (1 / 2) - rlen2) / (lsize2 * (1 / 2) - minSize))

/-- The middle-regime formula of the specification, as a function of `rlen2`. -/
def midFormula (minSize lsize2 CosArc cosa rlen2 : ℚ) : ℚ :=
  ((lsize2 - rlen2) / (lsize2 - minSize)) *
    ((cosa - midCosarc2 minSize lsize2 CosArc rlen2) /
      (1 - midCosarc2 minSize lsize2 CosArc rlen2))

/-- The near-regime formula of the specification. -/
def nearFormula (cosa : ℚ) : ℚ :=
  if cosa > 0 then 1 else 1 + cosa

/-- The two-step saturation of the default policy as the specification words
it: `clamp(clamp(original + light, 0, 255) - blendTint, 0, 255)`. -/
def clampQ (q : ℚ) : ℚ :=
  max 0 (min 255 q)

/-- The default-policy formula of the specification, before conversion to a byte. -/
def mixTwoStep (original : ℕ) (light : ℚ) (blendTint : ℤ) : ℚ :=
  clampQ (clampQ ((original : ℚ) + light) - (blendTint : ℚ))

/-- The globals with the three blend tints replaced. -/
def withBlend (gl : Globals) (tr tg tb : ℤ) : Globals :=
  { gl with
    render_color_blend_red := tr
    render_color_blend_green := tg
    render_color_blend_blue := tb }

/-! ## Sample data for concrete evaluation -/

/-- The state written by `render_reset_lighting_variables` (lines 648-665). -/
def resetGlobals : Globals :=
  { render_color_blend_red := 0
    render_color_blend_green := 0
    render_color_blend_blue := 0
    render_lighting_enabled := 0
    render_lighting_point_lights_only := 1
    render_lighting_use_only_light_color := 0
    render_lighting_use_only_light_color_and_blend := 0
    render_light_ambience := 0
    render_light_ambience_alpha := 255
    render_lighting_env_water := 0
    render_lighting_env_water_level := 0
    render_lighting_env_water_red := 0
    render_lighting_env_water_green := 0
    render_lighting_env_water_blue := 0
    render_lighting_env_whiteout := 0 }

/-- An environment for concrete evaluation: light types 0 and 1, a minimum
light size of 384, the integer square root, a flat sine, time zero and the
identity world matrix. -/
def sampleEnv : Env :=
  { POINT_LIGHT := 0
    SPOT_LIGHT := 1
    MIN_LIGHT_SIZE := 384
    sqrt := fun q => (Nat.sqrt (Int.toNat ⌊q⌋) : ℚ)
    sinD2R := fun _ => 0
    SDL_GetTicks := 0
    MxV_world := fun v => v
    LIGHT_EVERYTHING := false }

/-- A white point light at the origin with the given size. -/
def sampleLight (size : ℚ) : XLIGHT :=
  { Pos := ⟨0, 0, 0⟩
    Dir := ⟨0, 0, 1⟩
    Size := size
    CosArc := 0
    Type_ := 0
    r := 100
    g := 100
    b := 100 }

/-- The reset state with the ambient level raised to 300. -/
def brightGlobals : Globals :=
  { resetGlobals with render_light_ambience := 300 }

/-- The reset state with the point-lights-only flag cleared. -/
def spotGlobals : Globals :=
  { resetGlobals with render_lighting_point_lights_only := 0 }

/-- A light like `sampleLight` whose type is neither of the two known ones. -/
def oddLight (size : ℚ) : XLIGHT :=
  { sampleLight size with Type_ := 7 }

/-- A light like `sampleLight`, moved to `(1, 0, 0)` and coloured red. -/
def redLight (size : ℚ) : XLIGHT :=
  { sampleLight size with Pos := ⟨1, 0, 0⟩, g := 0, b := 0 }

/-- The state of the default-policy example: lighting enabled, ambient level
100, red blend tint 250. -/
def exampleGlobals : Globals :=
  { resetGlobals with
    render_lighting_enabled := 1
    render_light_ambience := 100
    render_color_blend_red := 250 }

/-- A colour word whose red byte (byte 2) is 200 and whose other bytes are 0. -/
def exampleColor : ℕ :=
  packBytes 0 0 200 0

/-- A vertex at the origin carrying `exampleColor`. -/
def exampleVertex : LVERTEX :=
  { x := 0, y := 0, z := 0, color := exampleColor, tu := 0, tv := 0 }

/-- The reset state with lighting enabled and the light-colour-only policy. -/
def lightOnlyGlobals : Globals :=
  { resetGlobals with
    render_lighting_enabled := 1
    render_lighting_use_only_light_color := 1
    render_light_ambience := 40 }

/-- The reset state with the water effect switched on: flag and level as
given, coefficients 1/4 (red), 1/2 (green) and 1 (blue). -/
def waterGlobals (flag level : ℤ) : Globals :=
  { resetGlobals with
    render_lighting_env_water := flag
    render_lighting_env_water_level := level
    render_lighting_env_water_red := 1 / 4
    render_lighting_env_water_green := 1 / 2
    render_lighting_env_water_blue := 1 }

/-- The reset state with the water effect switched on and only the blue
coefficient set, to 1. -/
def blueWaterGlobals (flag level : ℤ) : Globals :=
  { resetGlobals with
    render_lighting_env_water := flag
    render_lighting_env_water_level := level
    render_lighting_env_water_blue := 1 }

/-- The reset state with the whiteout boost set to 10. -/
def whiteoutGlobals : Globals :=
  { resetGlobals with render_lighting_env_whiteout := 10 }

/-- The globals with the water flag replaced. -/
def withWater (gl : Globals) (flag : ℤ) : Globals :=
  { gl with render_lighting_env_water := flag }

/-- An environment like `sampleEnv` whose sine is a sawtooth of period 360 with
values in `[-1, 1)`. -/
def waveEnv : Env :=
  { sampleEnv with sinD2R := fun a => (((⌊a⌋ % 360 : ℤ) : ℚ) - 180) / 180 }

/-- A pre-transformed vertex at the origin carrying `exampleColor`. -/
def exampleTLVertex : TLVERTEX :=
  { x := 0, y := 0, color := exampleColor, tu := 0, tv := 0 }

/-- The reset state with lighting enabled, ambient level 40, the
light-colour-and-blend policy and the tints 10 (red), 20 (green), 250 (blue). -/
def blendGlobals : Globals :=
  { resetGlobals with
    render_lighting_enabled := 1
    render_lighting_use_only_light_color_and_blend := 1
    render_light_ambience := 40
    render_color_blend_red := 10
    render_color_blend_green := 20
    render_color_blend_blue := 250 }

/-- The reset state with lighting enabled, ambient level 40, both colour-policy
flags set and the tints 10 (red), 20 (green), 250 (blue). -/
def bothFlagsGlobals : Globals :=
  { resetGlobals with
    render_lighting_enabled := 1
    render_lighting_use_only_light_color := 1
    render_lighting_use_only_light_color_and_blend := 1
    render_light_ambience := 40
    render_color_blend_red := 10
    render_color_blend_green := 20
    render_color_blend_blue := 250 }

/-- A spot light at the origin pointing along z, with half-angle cosine 1/2. -/
def spotLight (size : ℚ) : XLIGHT :=
  { sampleLight size with Type_ := 1, CosArc := 1 / 2 }

/-- A render object without index buffer and with two texture groups: vertices
2, 3, 4 and an empty group whose `startVert` is not below `numVerts`. -/
def plainObject : RENDEROBJECT :=
  { lpIndexBuffer := none
    textureGroups :=
      [{ startVert := 2, numVerts := 5, startIndex := 0, numTriangles := 0 },
        { startVert := 7, numVerts := 4, startIndex := 0, numTriangles := 0 }] }

/-- A render object with an index buffer of six entries and one texture group
of one triangle that starts at index 3 and at vertex 10. -/
def indexedObject : RENDEROBJECT :=
  { lpIndexBuffer := some [0, 1, 2, 2, 1, 3]
    textureGroups := [{ startVert := 10, numVerts := 4, startIndex := 3, numTriangles := 1 }] }

/-- A grey point light of size 5 on the x axis at `(x, 0, 0)`, each colour
component being `c`. -/
def greyLight (x c : ℚ) : XLIGHT :=
  { Pos := ⟨x, 0, 0⟩
    Dir := ⟨0, 0, 1⟩
    Size := 5
    CosArc := 0
    Type_ := 0
    r := c
    g := c
    b := c }

/-- An angle in degrees reduced to `[0, 360)`. -/
def degreesMod360 (a : ℚ) : ℚ :=
  a - 360 * (⌊a / 360⌋ : ℚ)

/-- Bhaskara's rational approximation of the sine of an angle in degrees,
`4 x (180 - x) / (40500 - x (180 - x))` on `[0, 180]`, continued with period 360. -/
def sineDegrees (a : ℚ) : ℚ :=
  if degreesMod360 a ≤ 180 then
    4 * degreesMod360 a * (180 - degreesMod360 a) /
      (40500 - degreesMod360 a * (180 - degreesMod360 a))
  else
    -(4 * (degreesMod360 a - 180) * (360 - degreesMod360 a) /
      (40500 - (degreesMod360 a - 180) * (360 - degreesMod360 a)))

/-- An environment like `sampleEnv` with the sine `sineDegrees` and the clock at
100 milliseconds. -/
def tickEnv : Env :=
  { sampleEnv with
    sinD2R := sineDegrees
    SDL_GetTicks := 100 }

/-- The reset state with lighting enabled, ambient level 0, the
light-colour-and-blend policy and the three tints at 9. -/
def dimBlendGlobals : Globals :=
  { resetGlobals with
    render_lighting_enabled := 1
    render_lighting_use_only_light_color_and_blend := 1
    render_color_blend_red := 9
    render_color_blend_green := 9
    render_color_blend_blue := 9 }

/-- The state `dimBlendGlobals` with the ambient level lowered to -5. -/
def darkBlendGlobals : Globals :=
  { dimBlendGlobals with render_light_ambience := -5 }

/-- A vertex at `(29/20, 0, 0)` carrying `exampleColor`. -/
def edgeVertex : LVERTEX :=
  { x := 29 / 20, y := 0, z := 0, color := exampleColor, tu := 0, tv := 0 }

theorem clamp255_eq_min (q : ℚ) : clamp255 q = min 255 q := by
  unfold clamp255
  split_ifs with h
  · exact (min_eq_left (le_of_lt h)).symm
  · exact (min_eq_right (not_lt.mp h)).symm

theorem clamp255_le (q : ℚ) : clamp255 q ≤ 255 := by
  rw [clamp255_eq_min]; exact min_le_left _ _

theorem f2i_of_nonneg {q : ℚ} (h : 0 ≤ q) : f2i q = ⌊q⌋ := by
  unfold f2i; rw [if_pos h]

theorem f2i_pos_of_one_le {q : ℚ} (h : 1 ≤ q) : 1 ≤ f2i q := by
  rw [f2i_of_nonneg (le_trans zero_le_one h)]
  exact Int.le_floor.mpr (by simpa using h)

theorem f2i_eq_of_bounds {q : ℚ} {n : ℤ} (h0 : 0 ≤ q) (h1 : (n : ℚ) ≤ q)
    (h2 : q < (n : ℚ) + 1) : f2i q = n := by
  rw [f2i_of_nonneg h0]
  exact Int.floor_eq_iff.mpr ⟨h1, h2⟩

/-! ## Lemmas on the loop -/

theorem litSum_nil (gl : Globals) (env : Env) (Pos : VECTOR) (f : XLIGHT → ℚ) :
    litSum gl env Pos f [] = 0 := by
  simp [litSum]

theorem litSum_cons (gl : Globals) (env : Env) (Pos : VECTOR) (f : XLIGHT → ℚ)
    (L : XLIGHT) (rest : List XLIGHT) :
    litSum gl env Pos f (L :: rest) = litTerm gl env Pos f L + litSum gl env Pos f rest := by
  simp [litSum]

/-- The loop leaves in each accumulator its start value plus the sum of the
terms of the lights, and is undefined exactly when some light divides by zero. -/
theorem walkLights_eq (gl : Globals) (env : Env) (Pos : VECTOR) (lights : List XLIGHT) :
    ∀ acc : RGBA, walkLights gl env Pos acc lights =
      if NoDivByZero gl env Pos lights then
        some ⟨acc.R + litSum gl env Pos (fun L => L.r) lights,
          acc.G + litSum gl env Pos (fun L => L.g) lights,
          acc.B + litSum gl env Pos (fun L => L.b) lights,
          acc.A + litSum gl env Pos (fun _ => 255) lights⟩
      else none := by
  induction lights with
  | nil =>
    intro acc
    simp [walkLights, NoDivByZero, litSum_nil]
  | cons L rest ih =>
    intro acc
    unfold walkLights lightStep
    cases hL : lightIntensity gl env Pos L with
    | next =>
      simp only [ih, litSum_cons, litTerm, hL, NoDivByZero, List.mem_cons, forall_eq_or_imp,
        ne_eq, not_false_eq_true, true_and, zero_add, reduceCtorEq]
    | lit i =>
      simp only [ih, litSum_cons, litTerm, hL, NoDivByZero, List.mem_cons, forall_eq_or_imp,
        ne_eq, not_false_eq_true, true_and, accumulate, add_assoc, reduceCtorEq]
    | undef =>
      simp [NoDivByZero, hL]

theorem GetReal_eq_closedForm (gl : Globals) (env : Env) (Pos : VECTOR)
    (lights : List XLIGHT) :
    GetRealLightAmbientWorldSpace gl env Pos lights = closedForm gl env Pos lights := by
  unfold GetRealLightAmbientWorldSpace closedForm
  rw [walkLights_eq]
  by_cases h : NoDivByZero gl env Pos lights
  · simp only [if_pos h, ambientStart, clamp255_eq_min]
  · simp only [if_neg h]

theorem litSum_append (gl : Globals) (env : Env) (Pos : VECTOR) (f : XLIGHT → ℚ)
    (l1 l2 : List XLIGHT) :
    litSum gl env Pos f (l1 ++ l2) = litSum gl env Pos f l1 + litSum gl env Pos f l2 := by
  simp [litSum]

theorem litSum_perm (gl : Globals) (env : Env) (Pos : VECTOR) (f : XLIGHT → ℚ)
    {l1 l2 : List XLIGHT} (h : l1.Perm l2) :
    litSum gl env Pos f l1 = litSum gl env Pos f l2 := by
  unfold litSum
  exact (h.map _).sum_eq

theorem litSum_eq_zero (gl : Globals) (env : Env) (Pos : VECTOR) (f : XLIGHT → ℚ)
    (lights : List XLIGHT) (h : ∀ L ∈ lights, litTerm gl env Pos f L = 0) :
    litSum gl env Pos f lights = 0 := by
  induction lights with
  | nil => exact litSum_nil gl env Pos f
  | cons L rest ih =>
    rw [litSum_cons, h L (List.mem_cons_self _ _),
      ih (fun M hM => h M (List.mem_cons_of_mem _ hM)), add_zero]

theorem litSum_nonneg (gl : Globals) (env : Env) (Pos : VECTOR) (f : XLIGHT → ℚ)
    (lights : List XLIGHT) (h : ∀ L ∈ lights, 0 ≤ litTerm gl env Pos f L) :
    0 ≤ litSum gl env Pos f lights := by
  induction lights with
  | nil => rw [litSum_nil]
  | cons L rest ih =>
    rw [litSum_cons]
    exact add_nonneg (h L (List.mem_cons_self _ _))
      (ih (fun M hM => h M (List.mem_cons_of_mem _ hM)))

theorem NoDivByZero_perm (gl : Globals) (env : Env) (Pos : VECTOR)
    {l1 l2 : List XLIGHT} (h : l1.Perm l2) :
    NoDivByZero gl env Pos l1 ↔ NoDivByZero gl env Pos l2 := by
  unfold NoDivByZero
  constructor
  · intro h1 L hL
    exact h1 L (h.mem_iff.mpr hL)
  · intro h2 L hL
    exact h2 L (h.mem_iff.mp hL)

/-- A light whose sphere does not contain `Pos` goes straight to `NEXT_LIGHT`. -/
theorem lightIntensity_out_of_range (gl : Globals) (env : Env) (Pos : VECTOR) (L : XLIGHT)
    (h : lsize2Of L ≤ rlen2Of (rayTo Pos L)) :
    lightIntensity gl env Pos L = Falloff.next := by
  unfold lightIntensity
  simp only [if_neg (not_lt.mpr h)]

/-- A light of unknown type goes to `NEXT_LIGHT` when the point-lights-only flag
is clear. -/
theorem lightIntensity_unknown_type (gl : Globals) (env : Env) (Pos : VECTOR) (L : XLIGHT)
    (hflag : gl.render_lighting_point_lights_only = 0)
    (hp : L.Type_ ≠ env.POINT_LIGHT) (hs : L.Type_ ≠ env.SPOT_LIGHT) :
    lightIntensity gl env Pos L = Falloff.next := by
  unfold lightIntensity
  simp [hflag, hp, hs]

theorem litTerm_of_next (gl : Globals) (env : Env) (Pos : VECTOR) (f : XLIGHT → ℚ)
    (L : XLIGHT) (h : lightIntensity gl env Pos L = Falloff.next) :
    litTerm gl env Pos f L = 0 := by
  unfold litTerm; rw [h]

/-- A light that goes to `NEXT_LIGHT` can be dropped from the list. -/
theorem closedForm_drop (gl : Globals) (env : Env) (Pos : VECTOR) (l1 l2 : List XLIGHT)
    (L : XLIGHT) (h : lightIntensity gl env Pos L = Falloff.next) :
    closedForm gl env Pos (l1 ++ L :: l2) = closedForm gl env Pos (l1 ++ l2) := by
  have hnd : NoDivByZero gl env Pos (l1 ++ L :: l2) ↔ NoDivByZero gl env Pos (l1 ++ l2) := by
    unfold NoDivByZero
    simp only [List.mem_append, List.mem_cons]
    constructor
    · intro h1 M hM
      rcases hM with hM | hM
      · exact h1 M (Or.inl hM)
      · exact h1 M (Or.inr (Or.inr hM))
    · intro h1 M hM
      rcases hM with hM | hM | hM
      · exact h1 M (Or.inl hM)
      · rw [hM, h]; exact fun hne => Falloff.noConfusion hne
      · exact h1 M (Or.inr hM)
  have hsum : ∀ f : XLIGHT → ℚ,
      litSum gl env Pos f (l1 ++ L :: l2) = litSum gl env Pos f (l1 ++ l2) := by
    intro f
    rw [litSum_append, litSum_cons, litSum_append, litTerm_of_next gl env Pos f L h, zero_add]
  unfold closedForm
  simp only [hsum]
  by_cases hd : NoDivByZero gl env Pos (l1 ++ l2)
  · rw [if_pos hd, if_pos (hnd.mpr hd)]
  · rw [if_neg hd, if_neg (fun hx => hd (hnd.mp hx))]

/-! ## The accumulator: claims C1, C2, C3, C9, C10 -/

/-- C1 (counterexample): with the ambient level at 300 and no visible light, the
position is outside every sphere, yet the result is not the ambient values. -/
theorem C1_counterexample :
    ¬ (GetRealLightAmbientWorldSpace brightGlobals sampleEnv ⟨0, 0, 0⟩ [] =
      some ⟨(brightGlobals.render_light_ambience : ℚ),
        (brightGlobals.render_light_ambience : ℚ),
        (brightGlobals.render_light_ambience : ℚ),
        (brightGlobals.render_light_ambience_alpha : ℚ)⟩) := by
  rw [GetReal_eq_closedForm]
  simp only [closedForm, NoDivByZero, List.not_mem_nil, false_imp_iff, implies_true, if_true,
    litSum_nil, brightGlobals, resetGlobals]
  intro h
  have hR := congrArg RGBA.R (Option.some.inj h)
  norm_num at hR

/-- C1 (amended): when the position lies outside every light's influence sphere
(`rlen2 >= Size * Size` for each light of the list, the empty list included),
`GetRealLightAmbientWorldSpace` returns `R = G = B = min(255, render_light_ambience)`
and `A = min(255, render_light_ambience_alpha)`. -/
theorem C1_outside_every_sphere (gl : Globals) (env : Env) (Pos : VECTOR)
    (lights : List XLIGHT)
    (h : ∀ L ∈ lights, lsize2Of L ≤ rlen2Of (rayTo Pos L)) :
    GetRealLightAmbientWorldSpace gl env Pos lights =
      some ⟨min 255 (gl.render_light_ambience : ℚ), min 255 (gl.render_light_ambience : ℚ),
        min 255 (gl.render_light_ambience : ℚ), min 255 (gl.render_light_ambience_alpha : ℚ)⟩ := by
  have hnext : ∀ L ∈ lights, lightIntensity gl env Pos L = Falloff.next :=
    fun L hL => lightIntensity_out_of_range gl env Pos L (h L hL)
  have hnd : NoDivByZero gl env Pos lights := by
    intro L hL
    rw [hnext L hL]
    exact fun hne => Falloff.noConfusion hne
  have hsum : ∀ f : XLIGHT → ℚ, litSum gl env Pos f lights = 0 :=
    fun f => litSum_eq_zero gl env Pos f lights
      (fun L hL => litTerm_of_next gl env Pos f L (hnext L hL))
  rw [GetReal_eq_closedForm]
  unfold closedForm
  rw [if_pos hnd]
  simp only [hsum, add_zero]

/-- C1 (witness): a light of size 2 at the origin, seen from distance 3. -/
theorem C1_outside_every_sphere_witness :
    (∀ L ∈ [sampleLight 2], lsize2Of L ≤ rlen2Of (rayTo ⟨3, 0, 0⟩ L)) ∧
    GetRealLightAmbientWorldSpace resetGlobals sampleEnv ⟨3, 0, 0⟩ [sampleLight 2] =
      some ⟨min 255 (resetGlobals.render_light_ambience : ℚ),
        min 255 (resetGlobals.render_light_ambience : ℚ),
        min 255 (resetGlobals.render_light_ambience : ℚ),
        min 255 (resetGlobals.render_light_ambience_alpha : ℚ)⟩ :=
  have hyp : ∀ L ∈ [sampleLight 2], lsize2Of L ≤ rlen2Of (rayTo ⟨3, 0, 0⟩ L) := by
    intro L hL
    rw [List.mem_singleton] at hL
    subst hL
    norm_num [lsize2Of, rlen2Of, rayTo, sampleLight]
  ⟨hyp, C1_outside_every_sphere resetGlobals sampleEnv ⟨3, 0, 0⟩ [sampleLight 2] hyp⟩

/-- C2 (counterexample): with the ambient level at 300 and no visible light the
red output is 255, below the ambient base, so the outputs are not all within
`[ambient base, 255]`. -/
theorem C2_counterexample :
    ¬ ∃ out : RGBA,
      GetRealLightAmbientWorldSpace brightGlobals sampleEnv ⟨0, 0, 0⟩ [] = some out ∧
      (brightGlobals.render_light_ambience : ℚ) ≤ out.R ∧
      (brightGlobals.render_light_ambience : ℚ) ≤ out.G ∧
      (brightGlobals.render_light_ambience : ℚ) ≤ out.B ∧
      (brightGlobals.render_light_ambience_alpha : ℚ) ≤ out.A ∧
      out.R ≤ 255 ∧ out.G ≤ 255 ∧ out.B ≤ 255 ∧ out.A ≤ 255 := by
  rintro ⟨out, hout, hR, -, -, -, hR255, -⟩
  have hamb : (brightGlobals.render_light_ambience : ℚ) = 300 := by
    norm_num [brightGlobals, resetGlobals]
  rw [hamb] at hR
  linarith

/-- C2 (amended): when no light divides by zero, every light colour is
non-negative and every accumulated intensity is non-negative, each of the four
outputs lies between `min(255, ambient base)` and 255. -/
theorem C2_outputs_in_range (gl : Globals) (env : Env) (Pos : VECTOR)
    (lights : List XLIGHT)
    (hdef : NoDivByZero gl env Pos lights)
    (hcol : ∀ L ∈ lights, 0 ≤ L.r ∧ 0 ≤ L.g ∧ 0 ≤ L.b)
    (hint : ∀ L ∈ lights, ∀ i : ℚ, lightIntensity gl env Pos L = Falloff.lit i → 0 ≤ i) :
    ∃ out : RGBA, GetRealLightAmbientWorldSpace gl env Pos lights = some out ∧
      min 255 (gl.render_light_ambience : ℚ) ≤ out.R ∧ out.R ≤ 255 ∧
      min 255 (gl.render_light_ambience : ℚ) ≤ out.G ∧ out.G ≤ 255 ∧
      min 255 (gl.render_light_ambience : ℚ) ≤ out.B ∧ out.B ≤ 255 ∧
      min 255 (gl.render_light_ambience_alpha : ℚ) ≤ out.A ∧ out.A ≤ 255 := by
  have hterm : ∀ f : XLIGHT → ℚ, (∀ L ∈ lights, 0 ≤ f L) →
      ∀ L ∈ lights, 0 ≤ litTerm gl env Pos f L := by
    intro f hf L hL
    unfold litTerm
    cases hi : lightIntensity gl env Pos L with
    | next => exact le_refl _
    | lit i => exact mul_nonneg (hf L hL) (hint L hL i hi)
    | undef => exact le_refl _
  have hr := litSum_nonneg gl env Pos (fun L => L.r) lights
    (hterm _ (fun L hL => (hcol L hL).1))
  have hg := litSum_nonneg gl env Pos (fun L => L.g) lights
    (hterm _ (fun L hL => (hcol L hL).2.1))
  have hb := litSum_nonneg gl env Pos (fun L => L.b) lights
    (hterm _ (fun L hL => (hcol L hL).2.2))
  have ha := litSum_nonneg gl env Pos (fun _ => 255) lights
    (hterm _ (fun _ _ => by norm_num))
  have hmono : ∀ a s : ℚ, 0 ≤ s → min 255 a ≤ min 255 (a + s) :=
    fun a s hs => min_le_min (le_refl _) (by linarith)
  rw [GetReal_eq_closedForm]
  unfold closedForm
  rw [if_pos hdef]
  exact ⟨_, rfl, hmono _ _ hr, min_le_left _ _, hmono _ _ hg, min_le_left _ _,
    hmono _ _ hb, min_le_left _ _, hmono _ _ ha, min_le_left _ _⟩

/-- When no light divides by zero the function returns four values and each of
them is at most 255. -/
theorem GetReal_le_255 (gl : Globals) (env : Env) (Pos : VECTOR)
    (lights : List XLIGHT) (hdef : NoDivByZero gl env Pos lights) :
    ∃ out : RGBA, GetRealLightAmbientWorldSpace gl env Pos lights = some out ∧
      out.R ≤ 255 ∧ out.G ≤ 255 ∧ out.B ≤ 255 ∧ out.A ≤ 255 := by
  rw [GetReal_eq_closedForm]
  unfold closedForm
  rw [if_pos hdef]
  exact ⟨_, rfl, min_le_left _ _, min_le_left _ _, min_le_left _ _, min_le_left _ _⟩

/-- C9 (counterexample): under the reset state, where the point-lights-only flag
is 1, a light of type 7 at the origin changes the result at the origin. -/
theorem C9_counterexample :
    (oddLight 2).Type_ ≠ sampleEnv.POINT_LIGHT ∧ (oddLight 2).Type_ ≠ sampleEnv.SPOT_LIGHT ∧
    GetRealLightAmbientWorldSpace resetGlobals sampleEnv ⟨0, 0, 0⟩ [oddLight 2] ≠
      GetRealLightAmbientWorldSpace resetGlobals sampleEnv ⟨0, 0, 0⟩ [] := by
  refine ⟨by decide, by decide, ?_⟩
  have h4 : f2i (2 * 2 : ℚ) = 4 := f2i_eq_of_bounds (by norm_num) (by norm_num) (by norm_num)
  have hi : lightIntensity resetGlobals sampleEnv ⟨0, 0, 0⟩ (oddLight 2) = Falloff.lit 1 := by
    simp only [lightIntensity, rayTo, rlen2Of, lsize2Of, oddLight, sampleLight, resetGlobals,
      pointIntensity, fdiv, h4]
    norm_num
  intro h
  rw [GetReal_eq_closedForm, GetReal_eq_closedForm] at h
  have hnd : NoDivByZero resetGlobals sampleEnv ⟨0, 0, 0⟩ [oddLight 2] := by
    intro L hL
    rw [List.mem_singleton] at hL
    subst hL
    rw [hi]
    exact fun hne => Falloff.noConfusion hne
  have hnd0 : NoDivByZero resetGlobals sampleEnv ⟨0, 0, 0⟩ [] := by
    intro L hL
    cases hL
  unfold closedForm at h
  rw [if_pos hnd, if_pos hnd0] at h
  have hR := congrArg RGBA.R (Option.some.inj h)
  simp only [litSum_cons, litSum_nil, litTerm, hi] at hR
  norm_num [resetGlobals, oddLight, sampleLight] at hR

/-- C9 (amended): while `render_lighting_point_lights_only` is zero, a light
whose type is neither `POINT_LIGHT` nor `SPOT_LIGHT` contributes nothing: the
result is the one obtained with that light removed from the list. -/
theorem C9_unknown_type_ignored (gl : Globals) (env : Env) (Pos : VECTOR)
    (l1 l2 : List XLIGHT) (L : XLIGHT)
    (hflag : gl.render_lighting_point_lights_only = 0)
    (hp : L.Type_ ≠ env.POINT_LIGHT) (hs : L.Type_ ≠ env.SPOT_LIGHT) :
    GetRealLightAmbientWorldSpace gl env Pos (l1 ++ L :: l2) =
      GetRealLightAmbientWorldSpace gl env Pos (l1 ++ l2) := by
  rw [GetReal_eq_closedForm, GetReal_eq_closedForm]
  exact closedForm_drop gl env Pos l1 l2 L
    (lightIntensity_unknown_type gl env Pos L hflag hp hs)

/-- C9 (witness): a light of type 7 between two point lights, flag cleared. -/
theorem C9_unknown_type_ignored_witness :
    spotGlobals.render_lighting_point_lights_only = 0 ∧
    (oddLight 2).Type_ ≠ sampleEnv.POINT_LIGHT ∧ (oddLight 2).Type_ ≠ sampleEnv.SPOT_LIGHT ∧
    GetRealLightAmbientWorldSpace spotGlobals sampleEnv ⟨0, 0, 0⟩
        ([sampleLight 3] ++ oddLight 2 :: [redLight 5]) =
      GetRealLightAmbientWorldSpace spotGlobals sampleEnv ⟨0, 0, 0⟩
        ([sampleLight 3] ++ [redLight 5]) :=
  ⟨rfl, by decide, by decide,
    C9_unknown_type_ignored spotGlobals sampleEnv ⟨0, 0, 0⟩ [sampleLight 3] [redLight 5]
      (oddLight 2) rfl (by decide) (by decide)⟩

/-- Known binary32 values: `0.1f`, `0.35f`, `0.3333333F`, the float nearest to
1/3, two ties above `2^24` (both go to the even significand), the least
subnormal, and half of it (a tie that goes to zero). -/
theorem round32_samples :
    round32 (1 / 10) = 13421773 / 134217728 ∧
    round32 (35 / 100) = 11744051 / 33554432 ∧
    round32 (3333333 / 10000000) = 11184810 / 33554432 ∧
    round32 (1 / 3) = 11184811 / 33554432 ∧
    round32 16777217 = 16777216 ∧ round32 16777219 = 16777220 ∧
    round32 (-5 / 2) = -5 / 2 ∧
    round32 (1 / 2 ^ 149) = 1 / 2 ^ 149 ∧ round32 (1 / 2 ^ 150) = 0 := by
  refine ⟨by decide!, by decide!, by decide!, by decide!, by decide!, by decide!, by decide!,
    by decide!, by decide!⟩

theorem lightIntensityRounded_id (gl : Globals) (env : Env) (Pos : VECTOR) (L : XLIGHT) :
    lightIntensityRounded (fun q => q) gl env Pos L = lightIntensity gl env Pos L := rfl

theorem walkLightsRounded_id (gl : Globals) (env : Env) (Pos : VECTOR)
    (lights : List XLIGHT) :
    ∀ acc : RGBA, walkLightsRounded (fun q => q) gl env Pos acc lights =
      walkLights gl env Pos acc lights := by
  induction lights with
  | nil => intro acc; rfl
  | cons L rest ih =>
    intro acc
    unfold walkLightsRounded walkLights
    have h : lightStepRounded (fun q => q) gl env Pos acc L = lightStep gl env Pos acc L := rfl
    rw [h]
    cases lightStep gl env Pos acc L with
    | none => rfl
    | some a => exact ih a

/-- With the identity for the rounding the rounded embedding is the exact one. -/
theorem GetRealRounded_id (gl : Globals) (env : Env) (Pos : VECTOR) (lights : List XLIGHT) :
    GetRealLightAmbientWorldSpaceRounded (fun q => q) gl env Pos lights =
      GetRealLightAmbientWorldSpace gl env Pos lights := by
  unfold GetRealLightAmbientWorldSpaceRounded GetRealLightAmbientWorldSpace
  have h : ambientStartRounded (fun q => q) gl = ambientStart gl := rfl
  rw [h, walkLightsRounded_id]

/-- The loop adds the terms of the contributing lights in list order and is
undefined exactly when some light divides by zero. -/
theorem walkLightsRounded_eq (rnd : ℚ → ℚ) (gl : Globals) (env : Env) (Pos : VECTOR)
    (lights : List XLIGHT) :
    ∀ acc : RGBA, walkLightsRounded rnd gl env Pos acc lights =
      if ∀ L ∈ lights, lightIntensityRounded rnd gl env Pos L ≠ Falloff.undef then
        some ((litLights rnd gl env Pos lights).foldl
          (fun acc p => accumulateRounded rnd acc p.1 p.2) acc)
      else none := by
  induction lights with
  | nil =>
    intro acc
    simp [walkLightsRounded, litLights]
  | cons L rest ih =>
    intro acc
    unfold walkLightsRounded lightStepRounded
    cases hL : lightIntensityRounded rnd gl env Pos L with
    | next =>
      simp only [ih, litLights, List.filterMap_cons, hL, List.mem_cons, forall_eq_or_imp,
        ne_eq, not_false_eq_true, true_and, reduceCtorEq]
    | lit i =>
      simp only [ih, litLights, List.filterMap_cons, hL, List.mem_cons, forall_eq_or_imp,
        ne_eq, not_false_eq_true, true_and, List.foldl_cons, reduceCtorEq]
    | undef =>
      simp [hL]

theorem GetRealRounded_eq_orderedForm (rnd : ℚ → ℚ) (gl : Globals) (env : Env) (Pos : VECTOR)
    (lights : List XLIGHT) :
    GetRealLightAmbientWorldSpaceRounded rnd gl env Pos lights =
      orderedForm rnd gl env Pos lights := by
  unfold GetRealLightAmbientWorldSpaceRounded orderedForm
  rw [walkLightsRounded_eq]
  by_cases h : ∀ L ∈ lights, lightIntensityRounded rnd gl env Pos L ≠ Falloff.undef
  · simp only [if_pos h]
  · simp only [if_neg h]

theorem GetReal_perm (gl : Globals) (env : Env) (Pos : VECTOR)
    (lights lights2 : List XLIGHT) (hperm : lights.Perm lights2) :
    GetRealLightAmbientWorldSpace gl env Pos lights2 =
      GetRealLightAmbientWorldSpace gl env Pos lights := by
  rw [GetReal_eq_closedForm, GetReal_eq_closedForm]
  unfold closedForm
  simp only [litSum_perm gl env Pos _ hperm]
  by_cases hd : NoDivByZero gl env Pos lights2
  · rw [if_pos hd, if_pos ((NoDivByZero_perm gl env Pos hperm).mpr hd)]
  · rw [if_neg hd, if_neg (fun hx => hd ((NoDivByZero_perm gl env Pos hperm).mp hx))]

/-- C10 (counterexample): three grey point lights of size 5 at distances 1, 3
and 4 with colours 40, 40 and 100, the ambient level 0 and the position at the
origin.  In exact arithmetic the closed form gives `R = 38.4 + 25.6 + 36 = 100`.
With binary32 operations the list order `1, 3, 4` gives `R = 100`, but the order
`1, 4, 3` gives `R = 13107199 / 131072`, just below 100 (byte 99, not 100): the
result depends on the order of the lights and is not the closed form. -/
theorem C10_counterexample :
    [greyLight 1 40, greyLight 3 40, greyLight 4 100].Perm
      [greyLight 1 40, greyLight 4 100, greyLight 3 40] ∧
    closedForm resetGlobals sampleEnv ⟨0, 0, 0⟩
        [greyLight 1 40, greyLight 4 100, greyLight 3 40] =
      some ⟨100, 100, 100, 255⟩ ∧
    GetRealLightAmbientWorldSpaceRounded round32 resetGlobals sampleEnv ⟨0, 0, 0⟩
        [greyLight 1 40, greyLight 3 40, greyLight 4 100] =
      some ⟨100, 100, 100, 255⟩ ∧
    GetRealLightAmbientWorldSpaceRounded round32 resetGlobals sampleEnv ⟨0, 0, 0⟩
        [greyLight 1 40, greyLight 4 100, greyLight 3 40] =
      some ⟨13107199 / 131072, 13107199 / 131072, 13107199 / 131072, 255⟩ ∧
    GetRealLightAmbientWorldSpaceRounded round32 resetGlobals sampleEnv ⟨0, 0, 0⟩
        [greyLight 1 40, greyLight 4 100, greyLight 3 40] ≠
      GetRealLightAmbientWorldSpaceRounded round32 resetGlobals sampleEnv ⟨0, 0, 0⟩
        [greyLight 1 40, greyLight 3 40, greyLight 4 100] ∧
    f2u8 (13107199 / 131072) = 99 ∧ f2u8 100 = 100 := by
  refine ⟨(List.Perm.swap _ _ _).cons _, by decide!, by decide!, by decide!, by decide!,
    by decide!, by decide!⟩

/-- C10 (amended): with every float operation rounded (by any rounding `rnd`,
binary32 included) `GetRealLightAmbientWorldSpace` equals the closed form whose
sum is taken in list order: from the ambient values, `colour * intensity` (and
`255 * intensity` for A) is added for each light that is in range and not
skipped, and the clamp to 255 is applied once to the final sums.  In exact
arithmetic (the identity for `rnd`) this is `min(255, ambient + sum)` and any
reordering of the visible list gives the same result. -/
theorem C10_closed_form_in_list_order :
    (∀ (rnd : ℚ → ℚ) (gl : Globals) (env : Env) (Pos : VECTOR) (lights : List XLIGHT),
      GetRealLightAmbientWorldSpaceRounded rnd gl env Pos lights =
        orderedForm rnd gl env Pos lights) ∧
    (∀ (gl : Globals) (env : Env) (Pos : VECTOR) (lights : List XLIGHT),
      GetRealLightAmbientWorldSpaceRounded (fun q => q) gl env Pos lights =
        GetRealLightAmbientWorldSpace gl env Pos lights ∧
      GetRealLightAmbientWorldSpace gl env Pos lights = closedForm gl env Pos lights ∧
      ∀ lights2 : List XLIGHT, lights.Perm lights2 →
        GetRealLightAmbientWorldSpace gl env Pos lights2 =
          GetRealLightAmbientWorldSpace gl env Pos lights) :=
  ⟨GetRealRounded_eq_orderedForm,
    fun gl env Pos lights => ⟨GetRealRounded_id gl env Pos lights,
      GetReal_eq_closedForm gl env Pos lights,
      fun lights2 hperm => GetReal_perm gl env Pos lights lights2 hperm⟩⟩

/-- C10 (witness): the three grey lights in binary32, and two lights in either
order in exact arithmetic. -/
theorem C10_closed_form_in_list_order_witness :
    GetRealLightAmbientWorldSpaceRounded round32 resetGlobals sampleEnv ⟨0, 0, 0⟩
        [greyLight 1 40, greyLight 4 100, greyLight 3 40] =
      orderedForm round32 resetGlobals sampleEnv ⟨0, 0, 0⟩
        [greyLight 1 40, greyLight 4 100, greyLight 3 40] ∧
    GetRealLightAmbientWorldSpace resetGlobals sampleEnv ⟨0, 0, 0⟩ [redLight 5, sampleLight 3] =
      GetRealLightAmbientWorldSpace resetGlobals sampleEnv ⟨0, 0, 0⟩
        [sampleLight 3, redLight 5] :=
  ⟨C10_closed_form_in_list_order.1 round32 resetGlobals sampleEnv ⟨0, 0, 0⟩
      [greyLight 1 40, greyLight 4 100, greyLight 3 40],
    (C10_closed_form_in_list_order.2 resetGlobals sampleEnv ⟨0, 0, 0⟩
      [sampleLight 3, redLight 5]).2.2 [redLight 5, sampleLight 3] (List.Perm.swap _ _ _)⟩

/-! ## The point-light falloff: claims C6, C7, C8 -/

/-- What line 750 computes for a light treated as a point light, in range. -/
theorem lightIntensity_point (gl : Globals) (env : Env) (Pos : VECTOR) (L : XLIGHT)
    (hpt : gl.render_lighting_point_lights_only ≠ 0 ∨ L.Type_ = env.POINT_LIGHT)
    (hin : rlen2Of (rayTo Pos L) < lsize2Of L) :
    lightIntensity gl env Pos L = pointIntensity (rlen2Of (rayTo Pos L)) (lsize2Of L) := by
  unfold lightIntensity
  simp only [if_pos hin, if_pos hpt]

theorem pointIntensity_of_ne_zero (rlen2 lsize2 : ℚ) (h : f2i lsize2 ≠ 0) :
    pointIntensity rlen2 lsize2 = Falloff.lit (1 - rlen2 / (f2i lsize2 : ℚ)) := by
  have h0 : ((f2i lsize2 : ℤ) : ℚ) ≠ 0 := by exact_mod_cast h
  unfold pointIntensity fdiv
  rw [if_neg h0]

theorem pointIntensity_of_zero (rlen2 lsize2 : ℚ) (h : f2i lsize2 = 0) :
    pointIntensity rlen2 lsize2 = Falloff.undef := by
  unfold pointIntensity fdiv
  rw [h]
  simp

theorem sample_intensity :
    lightIntensity resetGlobals sampleEnv ⟨1, 0, 0⟩ (sampleLight 3) = Falloff.lit (8 / 9) := by
  have h9 : f2i (3 * 3 : ℚ) = 9 := f2i_eq_of_bounds (by norm_num) (by norm_num) (by norm_num)
  rw [lightIntensity_point _ _ _ _ (Or.inl (by decide))
    (by norm_num [rlen2Of, rayTo, lsize2Of, sampleLight])]
  have hl : lsize2Of (sampleLight 3) = 3 * 3 := rfl
  rw [hl, pointIntensity_of_ne_zero _ _ (by rw [h9]; decide), h9]
  norm_num [rlen2Of, rayTo, sampleLight]

theorem sample_noDivByZero :
    NoDivByZero resetGlobals sampleEnv ⟨1, 0, 0⟩ [sampleLight 3] := by
  intro L hL
  rw [List.mem_singleton] at hL
  subst hL
  rw [sample_intensity]
  exact fun hne => Falloff.noConfusion hne

/-- C2 (witness): one white light of size 3 at the origin, seen from distance 1. -/
theorem C2_outputs_in_range_witness :
    NoDivByZero resetGlobals sampleEnv ⟨1, 0, 0⟩ [sampleLight 3] ∧
    (∀ L ∈ [sampleLight 3], 0 ≤ L.r ∧ 0 ≤ L.g ∧ 0 ≤ L.b) ∧
    (∀ L ∈ [sampleLight 3], ∀ i : ℚ,
      lightIntensity resetGlobals sampleEnv ⟨1, 0, 0⟩ L = Falloff.lit i → 0 ≤ i) ∧
    ∃ out : RGBA,
      GetRealLightAmbientWorldSpace resetGlobals sampleEnv ⟨1, 0, 0⟩ [sampleLight 3] = some out ∧
      min 255 (resetGlobals.render_light_ambience : ℚ) ≤ out.R ∧ out.R ≤ 255 ∧
      min 255 (resetGlobals.render_light_ambience : ℚ) ≤ out.G ∧ out.G ≤ 255 ∧
      min 255 (resetGlobals.render_light_ambience : ℚ) ≤ out.B ∧ out.B ≤ 255 ∧
      min 255 (resetGlobals.render_light_ambience_alpha : ℚ) ≤ out.A ∧ out.A ≤ 255 :=
  have hcol : ∀ L ∈ [sampleLight 3], 0 ≤ L.r ∧ 0 ≤ L.g ∧ 0 ≤ L.b := by
    intro L hL
    rw [List.mem_singleton] at hL
    subst hL
    norm_num [sampleLight]
  have hint : ∀ L ∈ [sampleLight 3], ∀ i : ℚ,
      lightIntensity resetGlobals sampleEnv ⟨1, 0, 0⟩ L = Falloff.lit i → 0 ≤ i := by
    intro L hL i hi
    rw [List.mem_singleton] at hL
    subst hL
    rw [sample_intensity] at hi
    rw [← Falloff.lit.inj hi]
    norm_num
  ⟨sample_noDivByZero, hcol, hint,
    C2_outputs_in_range resetGlobals sampleEnv ⟨1, 0, 0⟩ [sampleLight 3]
      sample_noDivByZero hcol hint⟩

/-- C3 (code defect): for a point light of size 1/2 and the position at its
centre, line 750 divides `rlen2 = 0` by `(int) 0.25 = 0`; the quotient `0 / 0`
has no value (a NaN on the machine, for which the tests `*R > 255.0F` of lines
814-817 are false), so the function does not return four values that are at
most 255.  Whenever no light of the list divides by zero the claim holds, and
under the point-lights-only flag that is the case as soon as `(int) lsize2` is
not zero for every light in range: the failure is confined to the cast. -/
theorem C3_undefined_sum_escapes_clamp :
    (rlen2Of (rayTo ⟨0, 0, 0⟩ (sampleLight (1 / 2))) = 0 ∧
      rlen2Of (rayTo ⟨0, 0, 0⟩ (sampleLight (1 / 2))) < lsize2Of (sampleLight (1 / 2)) ∧
      f2i (lsize2Of (sampleLight (1 / 2))) = 0 ∧
      lightIntensity resetGlobals sampleEnv ⟨0, 0, 0⟩ (sampleLight (1 / 2)) = Falloff.undef ∧
      ¬ ∃ out : RGBA,
        GetRealLightAmbientWorldSpace resetGlobals sampleEnv ⟨0, 0, 0⟩ [sampleLight (1 / 2)] =
          some out ∧
        out.R ≤ 255 ∧ out.G ≤ 255 ∧ out.B ≤ 255 ∧ out.A ≤ 255) ∧
    (∀ (gl : Globals) (env : Env) (Pos : VECTOR) (lights : List XLIGHT),
      NoDivByZero gl env Pos lights →
      ∃ out : RGBA, GetRealLightAmbientWorldSpace gl env Pos lights = some out ∧
        out.R ≤ 255 ∧ out.G ≤ 255 ∧ out.B ≤ 255 ∧ out.A ≤ 255) ∧
    (∀ (gl : Globals) (env : Env) (Pos : VECTOR) (lights : List XLIGHT),
      gl.render_lighting_point_lights_only ≠ 0 →
      (∀ L ∈ lights, rlen2Of (rayTo Pos L) < lsize2Of L → f2i (lsize2Of L) ≠ 0) →
      ∃ out : RGBA, GetRealLightAmbientWorldSpace gl env Pos lights = some out ∧
        out.R ≤ 255 ∧ out.G ≤ 255 ∧ out.B ≤ 255 ∧ out.A ≤ 255) := by
  have hi : lightIntensity resetGlobals sampleEnv ⟨0, 0, 0⟩ (sampleLight (1 / 2)) =
      Falloff.undef := by decide!
  refine ⟨⟨by decide!, by decide!, by decide!, hi, ?_⟩, GetReal_le_255, ?_⟩
  · rintro ⟨out, hout, -⟩
    simp only [GetRealLightAmbientWorldSpace, walkLights, lightStep, hi] at hout
    exact Option.noConfusion hout
  · intro gl env Pos lights hflag hcast
    apply GetReal_le_255
    intro L hL
    by_cases hin : rlen2Of (rayTo Pos L) < lsize2Of L
    · rw [lightIntensity_point gl env Pos L (Or.inl hflag) hin,
        pointIntensity_of_ne_zero _ _ (hcast L hL hin)]
      exact fun hne => Falloff.noConfusion hne
    · rw [lightIntensity_out_of_range gl env Pos L (not_lt.mp hin)]
      exact fun hne => Falloff.noConfusion hne

/-- C6 (code defect): line 750 divides by `(int) lsize2`, not by `lsize2`.  For
every light treated as a point light, in range, with `(int) lsize2` non-zero the
intensity is `1 - rlen2 / (int) lsize2`; for a light of size 3/2 seen from
distance 1 this is 1/2, while `1 - rlen2 / (Size * Size)` is 5/9. -/
theorem C6_point_falloff_divides_by_truncated_size :
    (∀ (gl : Globals) (env : Env) (Pos : VECTOR) (L : XLIGHT),
      (gl.render_lighting_point_lights_only ≠ 0 ∨ L.Type_ = env.POINT_LIGHT) →
      rlen2Of (rayTo Pos L) < lsize2Of L → f2i (lsize2Of L) ≠ 0 →
      lightIntensity gl env Pos L =
        Falloff.lit (1 - rlen2Of (rayTo Pos L) / (f2i (lsize2Of L) : ℚ))) ∧
    rlen2Of (rayTo ⟨1, 0, 0⟩ (sampleLight (3 / 2))) < lsize2Of (sampleLight (3 / 2)) ∧
    lightIntensity resetGlobals sampleEnv ⟨1, 0, 0⟩ (sampleLight (3 / 2)) = Falloff.lit (1 / 2) ∧
    1 - rlen2Of (rayTo ⟨1, 0, 0⟩ (sampleLight (3 / 2))) / lsize2Of (sampleLight (3 / 2)) = 5 / 9 := by
  have hgen : ∀ (gl : Globals) (env : Env) (Pos : VECTOR) (L : XLIGHT),
      (gl.render_lighting_point_lights_only ≠ 0 ∨ L.Type_ = env.POINT_LIGHT) →
      rlen2Of (rayTo Pos L) < lsize2Of L → f2i (lsize2Of L) ≠ 0 →
      lightIntensity gl env Pos L =
        Falloff.lit (1 - rlen2Of (rayTo Pos L) / (f2i (lsize2Of L) : ℚ)) := by
    intro gl env Pos L hpt hin hz
    rw [lightIntensity_point gl env Pos L hpt hin, pointIntensity_of_ne_zero _ _ hz]
  have hin : rlen2Of (rayTo ⟨1, 0, 0⟩ (sampleLight (3 / 2))) < lsize2Of (sampleLight (3 / 2)) := by
    norm_num [rlen2Of, rayTo, lsize2Of, sampleLight]
  have h2 : f2i (lsize2Of (sampleLight (3 / 2))) = 2 :=
    f2i_eq_of_bounds (by norm_num [lsize2Of, sampleLight])
      (by norm_num [lsize2Of, sampleLight]) (by norm_num [lsize2Of, sampleLight])
  refine ⟨hgen, hin, ?_, by norm_num [rlen2Of, rayTo, lsize2Of, sampleLight]⟩
  rw [hgen resetGlobals sampleEnv _ _ (Or.inl (by decide)) hin (by rw [h2]; decide), h2]
  norm_num [rlen2Of, rayTo, sampleLight]

/-- C7 (code defect): for a point light of size 1/2 and the position at its
centre, line 750 divides 0 by `(int) 0.25 = 0`: no intensity 1 and no finite
output.  For every light treated as a point light with `Size * Size >= 1` the
claim holds: intensity 1 at the centre, outputs `min(255, ambient + colour)` and
`min(255, ambientAlpha + 255)`; and at squared distance `Size * Size` a light of
any size is skipped. -/
theorem C7_small_light_divides_by_zero :
    (lightIntensity resetGlobals sampleEnv ⟨0, 0, 0⟩ (sampleLight (1 / 2)) = Falloff.undef ∧
      GetRealLightAmbientWorldSpace resetGlobals sampleEnv ⟨0, 0, 0⟩ [sampleLight (1 / 2)] =
        none) ∧
    (∀ (gl : Globals) (env : Env) (L : XLIGHT),
      (gl.render_lighting_point_lights_only ≠ 0 ∨ L.Type_ = env.POINT_LIGHT) →
      1 ≤ lsize2Of L →
      lightIntensity gl env L.Pos L = Falloff.lit 1 ∧
      GetRealLightAmbientWorldSpace gl env L.Pos [L] =
        some ⟨min 255 ((gl.render_light_ambience : ℚ) + L.r),
          min 255 ((gl.render_light_ambience : ℚ) + L.g),
          min 255 ((gl.render_light_ambience : ℚ) + L.b),
          min 255 ((gl.render_light_ambience_alpha : ℚ) + 255)⟩) ∧
    (∀ (gl : Globals) (env : Env) (Pos : VECTOR) (L : XLIGHT),
      rlen2Of (rayTo Pos L) = lsize2Of L →
      lightIntensity gl env Pos L = Falloff.next ∧
      GetRealLightAmbientWorldSpace gl env Pos [L] =
        GetRealLightAmbientWorldSpace gl env Pos []) := by
  have hcentre : ∀ L : XLIGHT, rlen2Of (rayTo L.Pos L) = 0 := by
    intro L
    simp [rlen2Of, rayTo]
  refine ⟨⟨?_, ?_⟩, ?_, ?_⟩
  · have h0 : f2i (lsize2Of (sampleLight (1 / 2))) = 0 :=
      f2i_eq_of_bounds (by norm_num [lsize2Of, sampleLight])
        (by norm_num [lsize2Of, sampleLight]) (by norm_num [lsize2Of, sampleLight])
    rw [lightIntensity_point _ _ _ _ (Or.inl (by decide))
      (by norm_num [rlen2Of, rayTo, lsize2Of, sampleLight]), pointIntensity_of_zero _ _ h0]
  · have h0 : f2i (lsize2Of (sampleLight (1 / 2))) = 0 :=
      f2i_eq_of_bounds (by norm_num [lsize2Of, sampleLight])
        (by norm_num [lsize2Of, sampleLight]) (by norm_num [lsize2Of, sampleLight])
    have hi : lightIntensity resetGlobals sampleEnv ⟨0, 0, 0⟩ (sampleLight (1 / 2)) =
        Falloff.undef := by
      rw [lightIntensity_point _ _ _ _ (Or.inl (by decide))
        (by norm_num [rlen2Of, rayTo, lsize2Of, sampleLight]), pointIntensity_of_zero _ _ h0]
    simp only [GetRealLightAmbientWorldSpace, walkLights, lightStep, hi]
  · intro gl env L hpt hS
    have hi : lightIntensity gl env L.Pos L = Falloff.lit 1 := by
      rw [lightIntensity_point gl env L.Pos L hpt (by rw [hcentre]; linarith),
        pointIntensity_of_ne_zero _ _ (by have := f2i_pos_of_one_le hS; omega), hcentre]
      simp
    refine ⟨hi, ?_⟩
    simp only [GetRealLightAmbientWorldSpace, walkLights, lightStep, hi, accumulate,
      ambientStart, clamp255_eq_min, mul_one]
  · intro gl env Pos L hd
    have hi := lightIntensity_out_of_range gl env Pos L (le_of_eq hd.symm)
    refine ⟨hi, ?_⟩
    simp only [GetRealLightAmbientWorldSpace, walkLights, lightStep, hi]

/-- C8 (code defect): for a point light of size 3/2 (`S > 0`) the intensity at
distance 29/20 is -41/800, below the 0 it has at distance 2 where the light is
skipped: the intensity is not non-increasing in the distance.  When `Size * Size`
is a whole number `n >= 1` it is: a larger squared distance never gives a larger
intensity. -/
theorem C8_falloff_not_monotone :
    (intensityOrZero resetGlobals sampleEnv ⟨29 / 20, 0, 0⟩ (sampleLight (3 / 2)) = -41 / 800 ∧
      intensityOrZero resetGlobals sampleEnv ⟨2, 0, 0⟩ (sampleLight (3 / 2)) = 0 ∧
      rlen2Of (rayTo ⟨29 / 20, 0, 0⟩ (sampleLight (3 / 2))) ≤
        rlen2Of (rayTo ⟨2, 0, 0⟩ (sampleLight (3 / 2))) ∧
      intensityOrZero resetGlobals sampleEnv ⟨29 / 20, 0, 0⟩ (sampleLight (3 / 2)) <
        intensityOrZero resetGlobals sampleEnv ⟨2, 0, 0⟩ (sampleLight (3 / 2))) ∧
    (∀ (gl : Globals) (env : Env) (L : XLIGHT) (n : ℤ) (P1 P2 : VECTOR),
      (gl.render_lighting_point_lights_only ≠ 0 ∨ L.Type_ = env.POINT_LIGHT) →
      1 ≤ n → lsize2Of L = (n : ℚ) →
      rlen2Of (rayTo P1 L) ≤ rlen2Of (rayTo P2 L) →
      intensityOrZero gl env P2 L ≤ intensityOrZero gl env P1 L) := by
  have hin : rlen2Of (rayTo ⟨29 / 20, 0, 0⟩ (sampleLight (3 / 2))) <
      lsize2Of (sampleLight (3 / 2)) := by
    norm_num [rlen2Of, rayTo, lsize2Of, sampleLight]
  have h2 : f2i (lsize2Of (sampleLight (3 / 2))) = 2 :=
    f2i_eq_of_bounds (by norm_num [lsize2Of, sampleLight])
      (by norm_num [lsize2Of, sampleLight]) (by norm_num [lsize2Of, sampleLight])
  have hnear : intensityOrZero resetGlobals sampleEnv ⟨29 / 20, 0, 0⟩ (sampleLight (3 / 2)) =
      -41 / 800 := by
    unfold intensityOrZero
    rw [lightIntensity_point _ _ _ _ (Or.inl (by decide)) hin,
      pointIntensity_of_ne_zero _ _ (by rw [h2]; decide), h2]
    norm_num [rlen2Of, rayTo, sampleLight]
  have hfar : intensityOrZero resetGlobals sampleEnv ⟨2, 0, 0⟩ (sampleLight (3 / 2)) = 0 := by
    unfold intensityOrZero
    rw [lightIntensity_out_of_range _ _ _ _
      (by norm_num [rlen2Of, rayTo, lsize2Of, sampleLight])]
  refine ⟨⟨hnear, hfar, by norm_num [rlen2Of, rayTo, sampleLight], ?_⟩, ?_⟩
  · rw [hnear, hfar]; norm_num
  · intro gl env L n P1 P2 hpt hn hL hle
    have hnq : (1 : ℚ) ≤ (n : ℚ) := by exact_mod_cast hn
    have hnpos : (0 : ℚ) < (n : ℚ) := lt_of_lt_of_le zero_lt_one hnq
    have hf : f2i (lsize2Of L) = n := by
      rw [hL]
      exact f2i_eq_of_bounds (le_of_lt hnpos) (le_refl _) (by linarith)
    have hval : ∀ P : VECTOR, rlen2Of (rayTo P L) < lsize2Of L →
        intensityOrZero gl env P L = 1 - rlen2Of (rayTo P L) / (n : ℚ) := by
      intro P hP
      unfold intensityOrZero
      rw [lightIntensity_point gl env P L hpt hP,
        pointIntensity_of_ne_zero _ _ (by rw [hf]; omega), hf]
    have hout : ∀ P : VECTOR, lsize2Of L ≤ rlen2Of (rayTo P L) →
        intensityOrZero gl env P L = 0 := by
      intro P hP
      unfold intensityOrZero
      rw [lightIntensity_out_of_range gl env P L hP]
    by_cases h2in : rlen2Of (rayTo P2 L) < lsize2Of L
    · have h1in : rlen2Of (rayTo P1 L) < lsize2Of L := lt_of_le_of_lt hle h2in
      rw [hval P1 h1in, hval P2 h2in]
      have := div_le_div_of_nonneg_right hle (le_of_lt hnpos)
      linarith
    · rw [hout P2 (not_lt.mp h2in)]
      by_cases h1in : rlen2Of (rayTo P1 L) < lsize2Of L
      · rw [hval P1 h1in]
        have : rlen2Of (rayTo P1 L) / (n : ℚ) < 1 := by
          rw [div_lt_one hnpos]
          rw [hL] at h1in
          exact h1in
        linarith
      · rw [hout P1 (not_lt.mp h1in)]

/-! ## The colour policies of `light_vert`: claims C4, C5 -/

theorem byteOf_packBytes_0 (b0 b1 b2 b3 : ℕ) :
    byteOf (packBytes b0 b1 b2 b3) 0 = b0 % 256 := by
  unfold byteOf packBytes
  norm_num
  omega

theorem byteOf_packBytes_1 (b0 b1 b2 b3 : ℕ) :
    byteOf (packBytes b0 b1 b2 b3) 1 = b1 % 256 := by
  unfold byteOf packBytes
  norm_num
  omega

theorem byteOf_packBytes_2 (b0 b1 b2 b3 : ℕ) :
    byteOf (packBytes b0 b1 b2 b3) 2 = b2 % 256 := by
  unfold byteOf packBytes
  norm_num
  omega

theorem byteOf_packBytes_3 (b0 b1 b2 b3 : ℕ) :
    byteOf (packBytes b0 b1 b2 b3) 3 = b3 % 256 := by
  unfold byteOf packBytes
  norm_num
  omega

theorem clampByte_cast (z : ℤ) : ((clampByte z : ℕ) : ℤ) = max 0 (min 255 z) := by
  unfold clampByte
  split_ifs with h1 h2
  · simp only [Nat.cast_zero]; omega
  · simp only [Nat.cast_ofNat]; omega
  · rw [Int.toNat_of_nonneg (by omega)]; omega

theorem clampByte_lt (z : ℤ) : clampByte z < 256 := by
  have h := clampByte_cast z
  omega

theorem f2u8_lt (q : ℚ) : f2u8 q < 256 := by
  unfold f2u8
  have h1 := Int.emod_nonneg (f2i q) (by decide : (256 : ℤ) ≠ 0)
  have h2 := Int.emod_lt_of_pos (f2i q) (by decide : (0 : ℤ) < 256)
  omega

/-- Truncation toward zero and the floor agree after saturation to `[0, 255]`. -/
theorem clamp_f2i_eq_clamp_floor (q : ℚ) :
    max 0 (min 255 (f2i q)) = max 0 (min 255 ⌊q⌋) := by
  by_cases h : 0 ≤ q
  · rw [f2i_of_nonneg h]
  · have hq : q < 0 := not_le.mp h
    have hc : ⌈q⌉ ≤ 0 := Int.ceil_le.mpr (by simpa using le_of_lt hq)
    have hf : ⌊q⌋ < 0 := Int.floor_lt.mpr (by simpa using hq)
    unfold f2i
    rw [if_neg h]
    omega

theorem floor_clampQ (q : ℚ) : ⌊clampQ q⌋ = max 0 (min 255 ⌊q⌋) := by
  unfold clampQ
  have hmono : Monotone (Int.floor : ℚ → ℤ) := Int.floor_mono
  rw [hmono.map_max, hmono.map_min]
  have h0 : ⌊(0 : ℚ)⌋ = 0 := Int.floor_zero
  have h255 : ⌊(255 : ℚ)⌋ = 255 := by
    exact_mod_cast Int.floor_intCast (255 : ℤ)
  rw [h0, h255]

theorem clampQ_nonneg (q : ℚ) : 0 ≤ clampQ q := le_max_left _ _

/-- The macro `MIX_COLOR_BLEND_LIGHT` yields the truncation of the two-step
formula of the specification. -/
theorem MIX_eq_mixTwoStep (x : ℕ) (t : ℤ) (l : ℚ) :
    ((MIX_COLOR_BLEND_LIGHT x t l : ℕ) : ℤ) = f2i (mixTwoStep x l t) := by
  unfold MIX_COLOR_BLEND_LIGHT MINUS ADDf MINUSf mixTwoStep
  rw [f2i_of_nonneg (clampQ_nonneg _), floor_clampQ, Int.floor_sub_int, floor_clampQ,
    clampByte_cast, clampByte_cast, clamp_f2i_eq_clamp_floor, sub_neg_eq_add]

theorem MIX_lt (x : ℕ) (t : ℤ) (l : ℚ) : MIX_COLOR_BLEND_LIGHT x t l < 256 :=
  clampByte_lt _

/-- The accumulator does not read the blend tints. -/
theorem walkLights_blend (gl : Globals) (env : Env) (Pos : VECTOR) (tr tg tb : ℤ)
    (lights : List XLIGHT) : ∀ acc : RGBA,
    walkLights (withBlend gl tr tg tb) env Pos acc lights =
      walkLights gl env Pos acc lights := by
  induction lights with
  | nil => intro acc; rfl
  | cons L rest ih =>
    intro acc
    have hstep : lightStep (withBlend gl tr tg tb) env Pos acc L =
        lightStep gl env Pos acc L := rfl
    unfold walkLights
    rw [hstep]
    cases lightStep gl env Pos acc L with
    | none => rfl
    | some acc1 => exact ih acc1

theorem lightAt_blend (gl : Globals) (env : Env) (lights : List XLIGHT) (world : VECTOR)
    (tr tg tb : ℤ) :
    lightAt (withBlend gl tr tg tb) env lights world = lightAt gl env lights world := by
  unfold lightAt GetRealLightAmbientWorldSpace
  rw [walkLights_blend]
  rfl

/-- C4: under the default (mixed) policy each of the blue, green and red bytes
of the result is the two-step saturation
`clamp(clamp(original + light, 0, 255) - blendTint, 0, 255)` (converted to a
byte), where `original` is the byte that enters the policy stage. -/
theorem C4_default_policy_two_step (gl : Globals) (env : Env) (lights : List XLIGHT)
    (vert : LVERTEX) (adj : ℕ × ℕ) (color : ℕ) (l : RGBA)
    (h1 : gl.render_lighting_use_only_light_color = 0)
    (h2 : gl.render_lighting_use_only_light_color_and_blend = 0)
    (hl : lightAt gl env lights (env.MxV_world ⟨vert.x, vert.y, vert.z⟩) = some l) :
    ∃ out : ℕ, light_vert gl env lights vert adj color = some out ∧
      ((byteOf out 0 : ℕ) : ℤ) = f2i (mixTwoStep
        (byteOf (envStage gl env (env.MxV_world ⟨vert.x, vert.y, vert.z⟩) adj color) 0)
        l.B gl.render_color_blend_blue) ∧
      ((byteOf out 1 : ℕ) : ℤ) = f2i (mixTwoStep
        (byteOf (envStage gl env (env.MxV_world ⟨vert.x, vert.y, vert.z⟩) adj color) 1)
        l.G gl.render_color_blend_green) ∧
      ((byteOf out 2 : ℕ) : ℤ) = f2i (mixTwoStep
        (byteOf (envStage gl env (env.MxV_world ⟨vert.x, vert.y, vert.z⟩) adj color) 2)
        l.R gl.render_color_blend_red) := by
  refine ⟨applyPolicy gl
    (envStage gl env (env.MxV_world ⟨vert.x, vert.y, vert.z⟩) adj color) l, ?_, ?_, ?_, ?_⟩
  · simp only [light_vert, hl]
  · unfold applyPolicy
    simp only [h1, h2, ne_eq, not_true_eq_false, if_false]
    rw [byteOf_packBytes_0, Nat.mod_eq_of_lt (MIX_lt _ _ _), MIX_eq_mixTwoStep]
  · unfold applyPolicy
    simp only [h1, h2, ne_eq, not_true_eq_false, if_false]
    rw [byteOf_packBytes_1, Nat.mod_eq_of_lt (MIX_lt _ _ _), MIX_eq_mixTwoStep]
  · unfold applyPolicy
    simp only [h1, h2, ne_eq, not_true_eq_false, if_false]
    rw [byteOf_packBytes_2, Nat.mod_eq_of_lt (MIX_lt _ _ _), MIX_eq_mixTwoStep]

/-- C5: under the light-colour-only policy the bytes of the result are light B,
light G, light R, light A, each converted to 8 bits, and the same result is
obtained from any other input colour and any other blend tint. -/
theorem C5_light_colour_only (gl : Globals) (env : Env) (lights : List XLIGHT)
    (vert : LVERTEX) (adj : ℕ × ℕ) (color : ℕ) (l : RGBA)
    (h1 : gl.render_lighting_use_only_light_color ≠ 0)
    (hl : lightAt gl env lights (env.MxV_world ⟨vert.x, vert.y, vert.z⟩) = some l) :
    ∃ out : ℕ, light_vert gl env lights vert adj color = some out ∧
      byteOf out 0 = f2u8 l.B ∧ byteOf out 1 = f2u8 l.G ∧
      byteOf out 2 = f2u8 l.R ∧ byteOf out 3 = f2u8 l.A ∧
      ∀ (color2 : ℕ) (adj2 : ℕ × ℕ) (tr tg tb : ℤ),
        light_vert (withBlend gl tr tg tb) env lights vert adj2 color2 = some out := by
  refine ⟨packBytes (f2u8 l.B) (f2u8 l.G) (f2u8 l.R) (f2u8 l.A), ?_, ?_, ?_, ?_, ?_, ?_⟩
  · simp only [light_vert, hl, applyPolicy, if_pos h1]
  · rw [byteOf_packBytes_0, Nat.mod_eq_of_lt (f2u8_lt _)]
  · rw [byteOf_packBytes_1, Nat.mod_eq_of_lt (f2u8_lt _)]
  · rw [byteOf_packBytes_2, Nat.mod_eq_of_lt (f2u8_lt _)]
  · rw [byteOf_packBytes_3, Nat.mod_eq_of_lt (f2u8_lt _)]
  · intro color2 adj2 tr tg tb
    have hl2 := lightAt_blend gl env lights (env.MxV_world ⟨vert.x, vert.y, vert.z⟩) tr tg tb
    rw [hl] at hl2
    have h1b : (withBlend gl tr tg tb).render_lighting_use_only_light_color ≠ 0 := h1
    simp only [light_vert, hl2, applyPolicy, if_pos h1b]

theorem lightAt_nil_enabled (gl : Globals) (env : Env) (world : VECTOR)
    (hen : gl.render_lighting_enabled ≠ 0) :
    lightAt gl env [] world =
      some ⟨min 255 (gl.render_light_ambience : ℚ), min 255 (gl.render_light_ambience : ℚ),
        min 255 (gl.render_light_ambience : ℚ), min 255 (gl.render_light_ambience_alpha : ℚ)⟩ := by
  unfold lightAt
  rw [if_pos (Or.inr hen)]
  simp only [GetRealLightAmbientWorldSpace, walkLights, ambientStart, clamp255_eq_min]

theorem envStage_off (gl : Globals) (env : Env) (world : VECTOR) (adj : ℕ × ℕ) (color : ℕ)
    (hw : gl.render_lighting_env_whiteout = 0) (hwa : gl.render_lighting_env_water = 0) :
    envStage gl env world adj color = color := by
  unfold envStage
  simp [hw, hwa]

/-- C4 (witness): the example of the specification.  Original red 200, light
red 100 (ambient level 100, no light in the list), red blend tint 250: the red
byte of the result is 5, whereas one clamp of `200 + 100 - 250` is 50. -/
theorem C4_default_policy_two_step_witness :
    byteOf exampleColor 2 = 200 ∧
    exampleGlobals.render_color_blend_red = 250 ∧
    exampleGlobals.render_lighting_use_only_light_color = 0 ∧
    exampleGlobals.render_lighting_use_only_light_color_and_blend = 0 ∧
    lightAt exampleGlobals sampleEnv []
        (sampleEnv.MxV_world ⟨exampleVertex.x, exampleVertex.y, exampleVertex.z⟩) =
      some ⟨100, 100, 100, 255⟩ ∧
    (∃ out : ℕ,
      light_vert exampleGlobals sampleEnv [] exampleVertex (0, 0) exampleColor = some out ∧
      byteOf out 2 = 5) ∧
    clampQ (200 + 100 - 250) = 50 := by
  have hb : byteOf exampleColor 2 = 200 := by
    unfold exampleColor
    rw [byteOf_packBytes_2]
  have hl : lightAt exampleGlobals sampleEnv []
      (sampleEnv.MxV_world ⟨exampleVertex.x, exampleVertex.y, exampleVertex.z⟩) =
      some ⟨100, 100, 100, 255⟩ := by
    rw [lightAt_nil_enabled _ _ _ (by decide)]
    norm_num [exampleGlobals, resetGlobals]
  obtain ⟨out, hout, -, -, hred⟩ :=
    C4_default_policy_two_step exampleGlobals sampleEnv [] exampleVertex (0, 0) exampleColor
      ⟨100, 100, 100, 255⟩ rfl rfl hl
  refine ⟨hb, rfl, rfl, rfl, hl, ⟨out, hout, ?_⟩, by norm_num [clampQ]⟩
  rw [envStage_off _ _ _ _ _ rfl rfl, hb] at hred
  have h5 : f2i (mixTwoStep 200 (100 : ℚ) exampleGlobals.render_color_blend_red) = 5 := by
    apply f2i_eq_of_bounds <;> norm_num [mixTwoStep, clampQ, exampleGlobals, resetGlobals]
  rw [h5] at hred
  exact_mod_cast hred

/-- C5 (witness): ambient level 40, no light in the list, light-colour-only
policy. -/
theorem C5_light_colour_only_witness :
    lightOnlyGlobals.render_lighting_use_only_light_color ≠ 0 ∧
    lightAt lightOnlyGlobals sampleEnv []
        (sampleEnv.MxV_world ⟨exampleVertex.x, exampleVertex.y, exampleVertex.z⟩) =
      some ⟨40, 40, 40, 255⟩ ∧
    ∃ out : ℕ,
      light_vert lightOnlyGlobals sampleEnv [] exampleVertex (0, 0) exampleColor = some out ∧
      byteOf out 0 = f2u8 40 ∧ byteOf out 1 = f2u8 40 ∧
      byteOf out 2 = f2u8 40 ∧ byteOf out 3 = f2u8 255 ∧
      ∀ (color2 : ℕ) (adj2 : ℕ × ℕ) (tr tg tb : ℤ),
        light_vert (withBlend lightOnlyGlobals tr tg tb) sampleEnv [] exampleVertex adj2 color2 =
          some out := by
  have hl : lightAt lightOnlyGlobals sampleEnv []
      (sampleEnv.MxV_world ⟨exampleVertex.x, exampleVertex.y, exampleVertex.z⟩) =
      some ⟨40, 40, 40, 255⟩ := by
    rw [lightAt_nil_enabled _ _ _ (by decide)]
    norm_num [lightOnlyGlobals, resetGlobals]
  exact ⟨by decide, hl,
    C5_light_colour_only lightOnlyGlobals sampleEnv [] exampleVertex (0, 0) exampleColor
      ⟨40, 40, 40, 255⟩ (by decide) hl⟩

/-! ## The divisor of the point-light falloff: claim C11 -/

/-- C11 (code defect): the divisor of line 750 is `(int) lsize2`.  For a light of
size 1/2 (`Size > 0`) and a position at distance 1/4, strictly inside the sphere,
the divisor is 0 and the intensity is undefined.  For every light treated as a
point light with `Size * Size >= 1` the divisor is non-zero and the intensity is
a number at every position inside the sphere. -/
theorem C11_small_light_zero_divisor :
    (0 < (sampleLight (1 / 2)).Size ∧
      rlen2Of (rayTo ⟨1 / 4, 0, 0⟩ (sampleLight (1 / 2))) < lsize2Of (sampleLight (1 / 2)) ∧
      ((f2i (lsize2Of (sampleLight (1 / 2))) : ℤ) : ℚ) = 0 ∧
      lightIntensity resetGlobals sampleEnv ⟨1 / 4, 0, 0⟩ (sampleLight (1 / 2)) =
        Falloff.undef) ∧
    (∀ (gl : Globals) (env : Env) (Pos : VECTOR) (L : XLIGHT),
      (gl.render_lighting_point_lights_only ≠ 0 ∨ L.Type_ = env.POINT_LIGHT) →
      rlen2Of (rayTo Pos L) < lsize2Of L → 1 ≤ lsize2Of L →
      ((f2i (lsize2Of L) : ℤ) : ℚ) ≠ 0 ∧
      lightIntensity gl env Pos L =
        Falloff.lit (1 - rlen2Of (rayTo Pos L) / ((f2i (lsize2Of L) : ℤ) : ℚ))) := by
  have hin : rlen2Of (rayTo ⟨1 / 4, 0, 0⟩ (sampleLight (1 / 2))) <
      lsize2Of (sampleLight (1 / 2)) := by
    norm_num [rlen2Of, rayTo, lsize2Of, sampleLight]
  have h0 : f2i (lsize2Of (sampleLight (1 / 2))) = 0 :=
    f2i_eq_of_bounds (by norm_num [lsize2Of, sampleLight])
      (by norm_num [lsize2Of, sampleLight]) (by norm_num [lsize2Of, sampleLight])
  refine ⟨⟨by norm_num [sampleLight], hin, by rw [h0]; norm_num, ?_⟩, ?_⟩
  · rw [lightIntensity_point _ _ _ _ (Or.inl (by decide)) hin, pointIntensity_of_zero _ _ h0]
  · intro gl env Pos L hpt hin2 hS
    have hne : f2i (lsize2Of L) ≠ 0 := by
      have := f2i_pos_of_one_le hS
      omega
    refine ⟨by exact_mod_cast hne, ?_⟩
    rw [lightIntensity_point gl env Pos L hpt hin2, pointIntensity_of_ne_zero _ _ hne]

/-! ## The water effect: claims C12, C13, C14 -/

theorem sample_noise (pos : VECTOR) : noiseValue sampleEnv pos = 128 := by
  simp [noiseValue, sampleEnv]

theorem waterChannel_eq_min (c : ℕ) (k n : ℚ) :
    waterChannel c k n = min 255 (f2u32 ((c : ℚ) + k * n)) := by
  unfold waterChannel
  simp only []
  split_ifs with h
  · exact (Nat.min_eq_left (Nat.le_of_lt h)).symm
  · exact (Nat.min_eq_right (Nat.le_of_not_lt h)).symm

theorem waterChannel_lt (c : ℕ) (k n : ℚ) : waterChannel c k n < 256 := by
  rw [waterChannel_eq_min]
  exact lt_of_le_of_lt (Nat.min_le_left _ _) (by decide)

/-- In range, the conversion to `u_int32_t` is the floor. -/
theorem f2u32_of_range (q : ℚ) (h0 : 0 ≤ q) (h1 : q < 4294967296) :
    ((f2u32 q : ℕ) : ℤ) = ⌊q⌋ := by
  unfold f2u32
  rw [f2i_of_nonneg h0]
  have hf0 : 0 ≤ ⌊q⌋ := Int.floor_nonneg.mpr h0
  have hf1 : ⌊q⌋ < 4294967296 := Int.floor_lt.mpr (by exact_mod_cast h1)
  rw [Int.emod_eq_of_lt hf0 hf1, Int.toNat_of_nonneg hf0]

/-- What `do_water_effect` leaves in `color[0]`, `color[1]`, `color[2]` when it
does not return early. -/
theorem do_water_effect_applied (gl : Globals) (env : Env) (pos : VECTOR) (color : ℕ × ℕ × ℕ)
    (h : ¬ (gl.render_lighting_env_water = 2 ∧
      pos.y ≥ (gl.render_lighting_env_water_level : ℚ))) :
    do_water_effect gl env pos color =
      (min 255 (f2u32 (((color.1 >>> 2 : ℕ) : ℚ) +
          gl.render_lighting_env_water_blue * noiseValue env pos)),
        min 255 (f2u32 (((color.2.1 >>> 2 : ℕ) : ℚ) +
          gl.render_lighting_env_water_green * noiseValue env pos)),
        min 255 (f2u32 (((color.2.2 >>> 2 : ℕ) : ℚ) +
          gl.render_lighting_env_water_red * noiseValue env pos))) := by
  have hm : ∀ x : ℕ, (min 255 x) % 256 = min 255 x :=
    fun x => Nat.mod_eq_of_lt (lt_of_le_of_lt (Nat.min_le_left _ _) (by decide))
  unfold do_water_effect
  rw [if_neg h]
  simp only [waterChannel_eq_min, hm]

theorem do_water_effect_gated (gl : Globals) (env : Env) (pos : VECTOR) (color : ℕ × ℕ × ℕ)
    (h : gl.render_lighting_env_water = 2 ∧
      pos.y ≥ (gl.render_lighting_env_water_level : ℚ)) :
    do_water_effect gl env pos color = color := by
  unfold do_water_effect
  rw [if_pos h]

theorem sample_water_applied (flag level : ℤ) (pos : VECTOR)
    (h : ¬ (flag = 2 ∧ pos.y ≥ (level : ℚ))) :
    do_water_effect (waterGlobals flag level) sampleEnv pos (200, 200, 200) = (178, 114, 82) := by
  have h50 : (200 >>> 2 : ℕ) = 50 := by decide
  have hval : ∀ (k : ℚ) (n : ℤ), (n : ℚ) ≤ 50 + k * 128 → 50 + k * 128 < (n : ℚ) + 1 →
      0 ≤ n → n < 4294967296 → ((f2u32 (((50 : ℕ) : ℚ) + k * 128) : ℕ) : ℤ) = n := by
    intro k n h1 h2 h3 h4
    have hq0 : (0 : ℚ) ≤ ((50 : ℕ) : ℚ) + k * 128 := by
      have : (0 : ℚ) ≤ (n : ℚ) := by exact_mod_cast h3
      push_cast
      linarith
    have hq1 : ((50 : ℕ) : ℚ) + k * 128 < 4294967296 := by
      have : (n : ℚ) + 1 ≤ 4294967296 := by exact_mod_cast h4
      push_cast
      linarith
    rw [f2u32_of_range _ hq0 hq1]
    exact Int.floor_eq_iff.mpr ⟨by push_cast; linarith, by push_cast; linarith⟩
  have hb := hval 1 178 (by norm_num) (by norm_num) (by norm_num) (by norm_num)
  have hg := hval (1 / 2) 114 (by norm_num) (by norm_num) (by norm_num) (by norm_num)
  have hr := hval (1 / 4) 82 (by norm_num) (by norm_num) (by norm_num) (by norm_num)
  rw [do_water_effect_applied _ _ _ _ h, sample_noise]
  simp only [waterGlobals, h50]
  have hb2 : f2u32 (((50 : ℕ) : ℚ) + 1 * 128) = 178 := by omega
  have hg2 : f2u32 (((50 : ℕ) : ℚ) + 1 / 2 * 128) = 114 := by omega
  have hr2 : f2u32 (((50 : ℕ) : ℚ) + 1 / 4 * 128) = 82 := by omega
  rw [hb2, hg2, hr2]
  rfl

theorem sample_blue_water_applied (flag level : ℤ) (pos : VECTOR)
    (h : ¬ (flag = 2 ∧ pos.y ≥ (level : ℚ))) :
    do_water_effect (blueWaterGlobals flag level) sampleEnv pos (200, 0, 0) = (178, 0, 0) := by
  have h50 : (200 >>> 2 : ℕ) = 50 := by decide
  have h00 : (0 >>> 2 : ℕ) = 0 := by decide
  have hb : ((f2u32 (((50 : ℕ) : ℚ) + 1 * 128) : ℕ) : ℤ) = 178 := by
    rw [f2u32_of_range _ (by norm_num) (by norm_num)]
    exact Int.floor_eq_iff.mpr ⟨by norm_num, by norm_num⟩
  have hz : ((f2u32 (((0 : ℕ) : ℚ) + 0 * 128) : ℕ) : ℤ) = 0 := by
    rw [f2u32_of_range _ (by norm_num) (by norm_num)]
    exact Int.floor_eq_iff.mpr ⟨by norm_num, by norm_num⟩
  rw [do_water_effect_applied _ _ _ _ h, sample_noise]
  simp only [blueWaterGlobals, resetGlobals, h50, h00]
  have hb2 : f2u32 (((50 : ℕ) : ℚ) + 1 * 128) = 178 := by omega
  have hz2 : f2u32 (((0 : ℕ) : ℚ) + 0 * 128) = 0 := by omega
  rw [hb2, hz2]
  rfl

/-- C12 (counterexample): whiteout off, water flag 2, water level 10, blue
coefficient 1 and a vertex at world Y = 0, below the level.  The flag is not 1
and Y is not at or above the level, yet the effect changes the colour word 200
(blue 200, the other bytes 0) into 178. -/
theorem C12_counterexample :
    (blueWaterGlobals 2 10).render_lighting_env_whiteout = 0 ∧
    envStage (blueWaterGlobals 2 10) sampleEnv ⟨0, 0, 0⟩ (0, 0) 200 = 178 ∧
    ¬ ((blueWaterGlobals 2 10).render_lighting_env_water = 1 ∨
      ((blueWaterGlobals 2 10).render_lighting_env_water = 2 ∧
        (⟨0, 0, 0⟩ : VECTOR).y ≥
          ((blueWaterGlobals 2 10).render_lighting_env_water_level : ℚ))) := by
  refine ⟨rfl, ?_, ?_⟩
  · have hw : (blueWaterGlobals 2 10).render_lighting_env_whiteout = 0 := rfl
    have hwa : (blueWaterGlobals 2 10).render_lighting_env_water ≠ 0 := by decide
    unfold envStage
    rw [if_neg (by simp [hw]), if_pos hwa,
      sample_blue_water_applied 2 10 ⟨0, 0, 0⟩ (by norm_num)]
  · norm_num [blueWaterGlobals, resetGlobals]

/-- C12 (amended): with the whiteout off, the colour is left unmodified by the
water effect when the water flag is 0, or when it is 2 and the vertex's world Y
is at or above the water level; for every other flag value and position the
effect is applied: the colour word becomes
`min(255, (colour >> 2) + blue coefficient * noise)`. -/
theorem C12_water_gating (gl : Globals) (env : Env) (world : VECTOR) (adj : ℕ × ℕ)
    (color : ℕ) (hw : gl.render_lighting_env_whiteout = 0) :
    ((gl.render_lighting_env_water = 0 ∨ (gl.render_lighting_env_water = 2 ∧
        world.y ≥ (gl.render_lighting_env_water_level : ℚ))) →
      envStage gl env world adj color = color) ∧
    (gl.render_lighting_env_water ≠ 0 →
      ¬ (gl.render_lighting_env_water = 2 ∧
        world.y ≥ (gl.render_lighting_env_water_level : ℚ)) →
      envStage gl env world adj color =
        min 255 (f2u32 (((color >>> 2 : ℕ) : ℚ) +
          gl.render_lighting_env_water_blue * noiseValue env world))) := by
  constructor
  · rintro (h0 | h2)
    · exact envStage_off gl env world adj color hw h0
    · unfold envStage
      rw [if_neg (by simp [hw]), do_water_effect_gated gl env world _ h2]
      simp
  · intro hne hgate
    unfold envStage
    rw [if_neg (by simp [hw]), if_pos hne, do_water_effect_applied gl env world _ hgate]

/-- C12 (witness): flag 2, level 10, a vertex at world Y = 20; and flag 1 at the
same vertex. -/
theorem C12_water_gating_witness :
    (waterGlobals 2 10).render_lighting_env_whiteout = 0 ∧
    envStage (waterGlobals 2 10) sampleEnv ⟨0, 20, 0⟩ (200, 200) 200 = 200 ∧
    envStage (waterGlobals 1 10) sampleEnv ⟨0, 20, 0⟩ (200, 200) 200 =
      min 255 (f2u32 (((200 >>> 2 : ℕ) : ℚ) +
        (waterGlobals 1 10).render_lighting_env_water_blue *
          noiseValue sampleEnv ⟨0, 20, 0⟩)) :=
  ⟨rfl,
    (C12_water_gating (waterGlobals 2 10) sampleEnv ⟨0, 20, 0⟩ (200, 200) 200 rfl).1
      (Or.inr ⟨rfl, by norm_num [waterGlobals, resetGlobals]⟩),
    (C12_water_gating (waterGlobals 1 10) sampleEnv ⟨0, 20, 0⟩ (200, 200) 200 rfl).2
      (by decide) (fun h => absurd h.1 (by decide))⟩

/-- C13: when `render_lighting_env_water` is 2, `do_water_effect` returns with
the colour unchanged for every vertex whose world Y is at or above the water
level, so it changes the colour only for vertices below the level. -/
theorem C13_water_level_gate (gl : Globals) (env : Env) (pos : VECTOR) (color : ℕ × ℕ × ℕ)
    (h2 : gl.render_lighting_env_water = 2) :
    (pos.y ≥ (gl.render_lighting_env_water_level : ℚ) →
      do_water_effect gl env pos color = color) ∧
    (do_water_effect gl env pos color ≠ color →
      pos.y < (gl.render_lighting_env_water_level : ℚ)) := by
  have hgate : pos.y ≥ (gl.render_lighting_env_water_level : ℚ) →
      do_water_effect gl env pos color = color :=
    fun hy => do_water_effect_gated gl env pos color ⟨h2, hy⟩
  refine ⟨hgate, fun hne => ?_⟩
  by_contra hlt
  exact hne (hgate (not_lt.mp hlt))

/-- C13 (witness): flag 2 and level 10; unchanged at Y = 20, changed at Y = 0. -/
theorem C13_water_level_gate_witness :
    (waterGlobals 2 10).render_lighting_env_water = 2 ∧
    do_water_effect (waterGlobals 2 10) sampleEnv ⟨0, 20, 0⟩ (200, 200, 200) =
      (200, 200, 200) ∧
    do_water_effect (waterGlobals 2 10) sampleEnv ⟨0, 0, 0⟩ (200, 200, 200) ≠
      (200, 200, 200) ∧
    (⟨0, 0, 0⟩ : VECTOR).y < ((waterGlobals 2 10).render_lighting_env_water_level : ℚ) := by
  have hne : do_water_effect (waterGlobals 2 10) sampleEnv ⟨0, 0, 0⟩ (200, 200, 200) ≠
      (200, 200, 200) := by
    rw [sample_water_applied 2 10 ⟨0, 0, 0⟩ (by norm_num)]
    decide
  exact ⟨rfl,
    (C13_water_level_gate (waterGlobals 2 10) sampleEnv ⟨0, 20, 0⟩ (200, 200, 200) rfl).1
      (by norm_num [waterGlobals, resetGlobals]),
    hne,
    (C13_water_level_gate (waterGlobals 2 10) sampleEnv ⟨0, 0, 0⟩ (200, 200, 200) rfl).2 hne⟩

/-- C14 (counterexample): flag 1, coefficients 1 (blue), 1/2 (green), 1/4 (red),
noise 128 and the three channels at 200.  The code leaves 178, 114 and 82, which
is `200 >> 2 = 50` plus the noise term; original plus noise term, clamped, would
be 255, 255 and 232. -/
theorem C14_counterexample :
    do_water_effect (waterGlobals 1 0) sampleEnv ⟨0, 0, 0⟩ (200, 200, 200) = (178, 114, 82) ∧
    min 255 ((200 : ℚ) + noiseValue sampleEnv ⟨0, 0, 0⟩ *
      (waterGlobals 1 0).render_lighting_env_water_blue) = 255 ∧
    min 255 ((200 : ℚ) + noiseValue sampleEnv ⟨0, 0, 0⟩ *
      (waterGlobals 1 0).render_lighting_env_water_green) = 255 ∧
    min 255 ((200 : ℚ) + noiseValue sampleEnv ⟨0, 0, 0⟩ *
      (waterGlobals 1 0).render_lighting_env_water_red) = 232 := by
  refine ⟨sample_water_applied 1 0 ⟨0, 0, 0⟩ (fun h => absurd h.1 (by decide)), ?_, ?_, ?_⟩ <;>
    rw [sample_noise] <;> norm_num [waterGlobals, resetGlobals]

/-- C14 (amended): when the water effect applies, each of `color[0]` (blue),
`color[1]` (green) and `color[2]` (red) becomes
`min(255, (previous value >> 2) + coefficient * noise)`, the sum converted to an
unsigned integer: the noise term is added to a quarter of the previous value.
The conversion is the floor whenever the sum lies in `[0, 2^32)`. -/
theorem C14_water_adds_to_quartered_channel (gl : Globals) (env : Env) (pos : VECTOR)
    (color : ℕ × ℕ × ℕ)
    (happ : ¬ (gl.render_lighting_env_water = 2 ∧
      pos.y ≥ (gl.render_lighting_env_water_level : ℚ))) :
    do_water_effect gl env pos color =
      (min 255 (f2u32 (((color.1 >>> 2 : ℕ) : ℚ) +
          gl.render_lighting_env_water_blue * noiseValue env pos)),
        min 255 (f2u32 (((color.2.1 >>> 2 : ℕ) : ℚ) +
          gl.render_lighting_env_water_green * noiseValue env pos)),
        min 255 (f2u32 (((color.2.2 >>> 2 : ℕ) : ℚ) +
          gl.render_lighting_env_water_red * noiseValue env pos))) ∧
    (∀ (c : ℕ) (k : ℚ), 0 ≤ ((c >>> 2 : ℕ) : ℚ) + k * noiseValue env pos →
      ((c >>> 2 : ℕ) : ℚ) + k * noiseValue env pos < 4294967296 →
      ((f2u32 (((c >>> 2 : ℕ) : ℚ) + k * noiseValue env pos) : ℕ) : ℤ) =
        ⌊(((c / 4 : ℕ) : ℚ) + k * noiseValue env pos)⌋) := by
  refine ⟨do_water_effect_applied gl env pos color happ, ?_⟩
  intro c k h0 h1
  rw [f2u32_of_range _ h0 h1]
  have h4 : c >>> 2 = c / 4 := by
    rw [Nat.shiftRight_eq_div_pow]
  rw [h4]

/-- C14 (witness): flag 1 and the three channels at 200. -/
theorem C14_water_adds_to_quartered_channel_witness :
    ¬ ((waterGlobals 1 0).render_lighting_env_water = 2 ∧
      (⟨0, 0, 0⟩ : VECTOR).y ≥ ((waterGlobals 1 0).render_lighting_env_water_level : ℚ)) ∧
    do_water_effect (waterGlobals 1 0) sampleEnv ⟨0, 0, 0⟩ (200, 200, 200) =
      (min 255 (f2u32 (((200 >>> 2 : ℕ) : ℚ) +
          (waterGlobals 1 0).render_lighting_env_water_blue * noiseValue sampleEnv ⟨0, 0, 0⟩)),
        min 255 (f2u32 (((200 >>> 2 : ℕ) : ℚ) +
          (waterGlobals 1 0).render_lighting_env_water_green * noiseValue sampleEnv ⟨0, 0, 0⟩)),
        min 255 (f2u32 (((200 >>> 2 : ℕ) : ℚ) +
          (waterGlobals 1 0).render_lighting_env_water_red * noiseValue sampleEnv ⟨0, 0, 0⟩))) :=
  have hne : ¬ ((waterGlobals 1 0).render_lighting_env_water = 2 ∧
      (⟨0, 0, 0⟩ : VECTOR).y ≥ ((waterGlobals 1 0).render_lighting_env_water_level : ℚ)) :=
    fun h => absurd h.1 (by decide)
  ⟨hne, (C14_water_adds_to_quartered_channel (waterGlobals 1 0) sampleEnv ⟨0, 0, 0⟩
    (200, 200, 200) hne).1⟩

/-! ## The whiteout effect and the choice of effect: claims C15, C16 -/

theorem whiteoutIntensity_le (gl : Globals) (env : Env) (pos : VECTOR) :
    whiteoutIntensity gl env pos ≤ 255 := by
  unfold whiteoutIntensity
  simp only []
  split_ifs <;> omega

/-- The word left by `do_whiteout_effect` for a non-negative intensity: the low
16 bits of the colour, and the intensity in each of the two high bytes. -/
theorem do_whiteout_effect_eq (gl : Globals) (env : Env) (pos : VECTOR) (color : ℕ)
    (h0 : 0 ≤ whiteoutIntensity gl env pos) :
    do_whiteout_effect gl env pos color =
      color % 65536 + 65536 * ((whiteoutIntensity gl env pos).toNat * 257) := by
  have h255 := whiteoutIntensity_le gl env pos
  unfold do_whiteout_effect
  simp only []
  have hhigh : Int.toNat ((whiteoutIntensity gl env pos * 16777216 +
      whiteoutIntensity gl env pos * 65536) % 4294967296) =
      2 ^ 16 * ((whiteoutIntensity gl env pos).toNat * 257) := by
    omega
  have hlow : color &&& 0xffff = color % 2 ^ 16 :=
    Nat.and_pow_two_sub_one_eq_mod color 16
  rw [hhigh, hlow, Nat.lor_comm,
    ← Nat.mul_add_lt_is_or (Nat.mod_lt color (by decide)) _]
  norm_num
  omega

theorem sample_whiteoutIntensity (pos : VECTOR) :
    whiteoutIntensity whiteoutGlobals sampleEnv pos = 138 := by
  have h128 : f2i (128 : ℚ) = 128 :=
    f2i_eq_of_bounds (by norm_num) (by norm_num) (by norm_num)
  unfold whiteoutIntensity
  rw [sample_noise, h128]
  simp [whiteoutGlobals, resetGlobals]

/-- C15 (counterexample): boost 10, noise 128, colour `0x11223344` (blue `0x44`,
green `0x33`, red `0x22`, alpha `0x11`).  The intensity is 138; the blue byte
stays `0x44 = 68` and the alpha byte becomes 138. -/
theorem C15_counterexample :
    whiteoutIntensity whiteoutGlobals sampleEnv ⟨0, 0, 0⟩ = 138 ∧
    byteOf 0x11223344 0 = 68 ∧ byteOf 0x11223344 3 = 17 ∧
    byteOf (do_whiteout_effect whiteoutGlobals sampleEnv ⟨0, 0, 0⟩ 0x11223344) 0 = 68 ∧
    byteOf (do_whiteout_effect whiteoutGlobals sampleEnv ⟨0, 0, 0⟩ 0x11223344) 3 = 138 := by
  have hi := sample_whiteoutIntensity ⟨0, 0, 0⟩
  have hres : do_whiteout_effect whiteoutGlobals sampleEnv ⟨0, 0, 0⟩ 0x11223344 =
      0x8a8a3344 := by
    rw [do_whiteout_effect_eq _ _ _ _ (by rw [hi]; decide), hi]
    decide
  rw [hres]
  exact ⟨hi, by decide, by decide, by decide, by decide⟩

/-- C15 (amended): with the colour laid out as bytes (blue, green, red, alpha),
`do_whiteout_effect` overwrites the red and the alpha byte (bytes 2 and 3) with
the clamped intensity and leaves the blue and the green byte (bytes 0 and 1)
untouched, for every input colour, when the intensity is not negative. -/
theorem C15_whiteout_overwrites_red_and_alpha (gl : Globals) (env : Env) (pos : VECTOR)
    (color : ℕ) (h0 : 0 ≤ whiteoutIntensity gl env pos) :
    ((byteOf (do_whiteout_effect gl env pos color) 2 : ℕ) : ℤ) =
      whiteoutIntensity gl env pos ∧
    ((byteOf (do_whiteout_effect gl env pos color) 3 : ℕ) : ℤ) =
      whiteoutIntensity gl env pos ∧
    byteOf (do_whiteout_effect gl env pos color) 0 = byteOf color 0 ∧
    byteOf (do_whiteout_effect gl env pos color) 1 = byteOf color 1 := by
  have h255 := whiteoutIntensity_le gl env pos
  obtain ⟨n, hn⟩ := Int.eq_ofNat_of_zero_le h0
  have hn255 : n ≤ 255 := by omega
  have p0 : (256 : ℕ) ^ 0 = 1 := by norm_num
  have p1 : (256 : ℕ) ^ 1 = 256 := by norm_num
  have p2 : (256 : ℕ) ^ 2 = 65536 := by norm_num
  have p3 : (256 : ℕ) ^ 3 = 16777216 := by norm_num
  have hlo : color % 65536 < 65536 := Nat.mod_lt color (by decide)
  have h3 : (color % 65536 + 65536 * (n * 257)) / 16777216 = n := by
    have hsplit : color % 65536 + 65536 * (n * 257) =
        (color % 65536 + 65536 * n) + 16777216 * n := by omega
    rw [hsplit, Nat.add_mul_div_left _ _ (by decide : 0 < 16777216),
      Nat.div_eq_of_lt (by omega), Nat.zero_add]
  rw [do_whiteout_effect_eq gl env pos color h0, hn, Int.toNat_ofNat]
  unfold byteOf
  rw [p0, p1, p2, p3, h3]
  refine ⟨?_, ?_, ?_, ?_⟩ <;> omega

/-- C15 (witness): boost 10, noise 128 and the colour `0x11223344`. -/
theorem C15_whiteout_overwrites_red_and_alpha_witness :
    0 ≤ whiteoutIntensity whiteoutGlobals sampleEnv ⟨0, 0, 0⟩ ∧
    ((byteOf (do_whiteout_effect whiteoutGlobals sampleEnv ⟨0, 0, 0⟩ 0x11223344) 2 : ℕ) : ℤ) =
      whiteoutIntensity whiteoutGlobals sampleEnv ⟨0, 0, 0⟩ ∧
    ((byteOf (do_whiteout_effect whiteoutGlobals sampleEnv ⟨0, 0, 0⟩ 0x11223344) 3 : ℕ) : ℤ) =
      whiteoutIntensity whiteoutGlobals sampleEnv ⟨0, 0, 0⟩ ∧
    byteOf (do_whiteout_effect whiteoutGlobals sampleEnv ⟨0, 0, 0⟩ 0x11223344) 0 =
      byteOf 0x11223344 0 ∧
    byteOf (do_whiteout_effect whiteoutGlobals sampleEnv ⟨0, 0, 0⟩ 0x11223344) 1 =
      byteOf 0x11223344 1 :=
  have h0 : 0 ≤ whiteoutIntensity whiteoutGlobals sampleEnv ⟨0, 0, 0⟩ := by
    rw [sample_whiteoutIntensity]
    decide
  ⟨h0, C15_whiteout_overwrites_red_and_alpha whiteoutGlobals sampleEnv ⟨0, 0, 0⟩ 0x11223344 h0⟩

theorem light_vert_eq_map (gl : Globals) (env : Env) (lights : List XLIGHT) (vert : LVERTEX)
    (adj : ℕ × ℕ) (color : ℕ) :
    light_vert gl env lights vert adj color =
      (lightAt gl env lights (env.MxV_world ⟨vert.x, vert.y, vert.z⟩)).map
        (applyPolicy gl (envStage gl env (env.MxV_world ⟨vert.x, vert.y, vert.z⟩) adj color)) := by
  cases h : lightAt gl env lights (env.MxV_world ⟨vert.x, vert.y, vert.z⟩) with
  | none => simp only [light_vert, h, Option.map_none']
  | some l => simp only [light_vert, h, Option.map_some']

/-- The accumulator reads three of the global variables only. -/
theorem walkLights_congr (gl gl2 : Globals) (env : Env) (Pos : VECTOR)
    (hp : gl2.render_lighting_point_lights_only = gl.render_lighting_point_lights_only)
    (lights : List XLIGHT) : ∀ acc : RGBA,
    walkLights gl2 env Pos acc lights = walkLights gl env Pos acc lights := by
  induction lights with
  | nil => intro acc; rfl
  | cons L rest ih =>
    intro acc
    have hstep : lightStep gl2 env Pos acc L = lightStep gl env Pos acc L := by
      unfold lightStep lightIntensity
      rw [hp]
    unfold walkLights
    rw [hstep]
    cases lightStep gl env Pos acc L with
    | none => rfl
    | some acc1 => exact ih acc1

theorem lightAt_congr (gl gl2 : Globals) (env : Env) (lights : List XLIGHT) (world : VECTOR)
    (hp : gl2.render_lighting_point_lights_only = gl.render_lighting_point_lights_only)
    (ha : gl2.render_light_ambience = gl.render_light_ambience)
    (hal : gl2.render_light_ambience_alpha = gl.render_light_ambience_alpha)
    (hen : gl2.render_lighting_enabled = gl.render_lighting_enabled) :
    lightAt gl2 env lights world = lightAt gl env lights world := by
  unfold lightAt GetRealLightAmbientWorldSpace ambientStart
  rw [walkLights_congr gl gl2 env world hp, ha, hal, hen]

/-- C16: in `light_vert` at most one environmental modifier runs.  With a
non-zero whiteout the colour that enters the policy stage is the one left by
`do_whiteout_effect`, whatever the water flag; with whiteout zero and the water
flag non-zero it is the one left by `do_water_effect`; with both zero it is the
input colour. -/
theorem C16_one_environmental_effect (gl : Globals) (env : Env) (lights : List XLIGHT)
    (vert : LVERTEX) (adj : ℕ × ℕ) (color : ℕ) :
    (gl.render_lighting_env_whiteout ≠ 0 → ∀ flag : ℤ,
      envStage (withWater gl flag) env (env.MxV_world ⟨vert.x, vert.y, vert.z⟩) adj color =
          do_whiteout_effect gl env (env.MxV_world ⟨vert.x, vert.y, vert.z⟩) color ∧
      light_vert (withWater gl flag) env lights vert adj color =
        (lightAt gl env lights (env.MxV_world ⟨vert.x, vert.y, vert.z⟩)).map
          (applyPolicy gl
            (do_whiteout_effect gl env (env.MxV_world ⟨vert.x, vert.y, vert.z⟩) color))) ∧
    (gl.render_lighting_env_whiteout = 0 → gl.render_lighting_env_water ≠ 0 →
      light_vert gl env lights vert adj color =
        (lightAt gl env lights (env.MxV_world ⟨vert.x, vert.y, vert.z⟩)).map
          (applyPolicy gl (do_water_effect gl env (env.MxV_world ⟨vert.x, vert.y, vert.z⟩)
            (color, adj.1, adj.2)).1)) ∧
    (gl.render_lighting_env_whiteout = 0 → gl.render_lighting_env_water = 0 →
      light_vert gl env lights vert adj color =
        (lightAt gl env lights (env.MxV_world ⟨vert.x, vert.y, vert.z⟩)).map
          (applyPolicy gl color)) := by
  refine ⟨?_, ?_, ?_⟩
  · intro hw flag
    have hstage : envStage (withWater gl flag) env
        (env.MxV_world ⟨vert.x, vert.y, vert.z⟩) adj color =
        do_whiteout_effect gl env (env.MxV_world ⟨vert.x, vert.y, vert.z⟩) color := by
      have hw2 : (withWater gl flag).render_lighting_env_whiteout ≠ 0 := hw
      unfold envStage
      rw [if_pos hw2]
      rfl
    refine ⟨hstage, ?_⟩
    rw [light_vert_eq_map, hstage, lightAt_congr gl (withWater gl flag) env lights _ rfl rfl rfl rfl]
    rfl
  · intro hw hwa
    rw [light_vert_eq_map]
    unfold envStage
    rw [if_neg (by simp [hw]), if_pos hwa]
  · intro hw hwa
    rw [light_vert_eq_map, envStage_off gl env _ adj color hw hwa]

/-! ## The light-colour-and-blend policy: claim C17 -/

/-- The four values that `light_vert` combines with the colour are at most 255. -/
theorem lightAt_le (gl : Globals) (env : Env) (lights : List XLIGHT) (world : VECTOR)
    (l : RGBA) (h : lightAt gl env lights world = some l) :
    l.R ≤ 255 ∧ l.G ≤ 255 ∧ l.B ≤ 255 ∧ l.A ≤ 255 := by
  unfold lightAt at h
  split_ifs at h with hen
  · rw [GetReal_eq_closedForm] at h
    unfold closedForm at h
    split_ifs at h with hd
    have hl := Option.some.inj h
    rw [← hl]
    exact ⟨min_le_left _ _, min_le_left _ _, min_le_left _ _, min_le_left _ _⟩
  · have hl := Option.some.inj h
    rw [← hl]
    norm_num

theorem f2u8_of_range (q : ℚ) (h0 : 0 ≤ q) (h1 : q ≤ 255) : ((f2u8 q : ℕ) : ℤ) = ⌊q⌋ := by
  unfold f2u8
  rw [f2i_of_nonneg h0]
  have hf0 : 0 ≤ ⌊q⌋ := Int.floor_nonneg.mpr h0
  have hf1 : ⌊q⌋ < 256 := Int.floor_lt.mpr (by push_cast; linarith)
  rw [Int.emod_eq_of_lt hf0 hf1, Int.toNat_of_nonneg hf0]

theorem ADD_cast (x : ℕ) (t : ℤ) : ((ADD x t : ℕ) : ℤ) = max 0 (min 255 ((x : ℤ) + t)) := by
  unfold ADD MINUS
  rw [clampByte_cast, sub_neg_eq_add]

theorem ADD_lt (x : ℕ) (t : ℤ) : ADD x t < 256 :=
  clampByte_lt _

theorem ADD_floor (q : ℚ) (t : ℤ) (h0 : 0 ≤ q) (h1 : q ≤ 255) :
    ((ADD (f2u8 q) t : ℕ) : ℤ) = ⌊clampQ (q + (t : ℚ))⌋ := by
  rw [ADD_cast, f2u8_of_range q h0 h1, floor_clampQ, Int.floor_add_int]

/-- C17 (counterexample): under the light-colour-and-blend policy with the three
tints at 9.  A point light of size 3/2 and colour 100 seen from distance 29/20
gives the light values `B = G = R = -41/8`; the code stores them as the byte 251
and adds the tint with saturation, so byte 0 is 255, while
`clamp(light B + blend blue, 0, 255)` is `31/8`.  The same happens without any
light when the ambient level is -5: byte 0 is 255, while
`clamp(-5 + 9, 0, 255)` is 4. -/
theorem C17_counterexample :
    dimBlendGlobals.render_lighting_use_only_light_color = 0 ∧
    dimBlendGlobals.render_lighting_use_only_light_color_and_blend ≠ 0 ∧
    lightAt dimBlendGlobals sampleEnv [sampleLight (3 / 2)]
        (sampleEnv.MxV_world ⟨edgeVertex.x, edgeVertex.y, edgeVertex.z⟩) =
      some ⟨-41 / 8, -41 / 8, -41 / 8, 38709 / 160⟩ ∧
    f2u8 (-41 / 8) = 251 ∧
    light_vert dimBlendGlobals sampleEnv [sampleLight (3 / 2)] edgeVertex (0, 0) exampleColor =
      some (packBytes 255 255 255 241) ∧
    byteOf (packBytes 255 255 255 241) 0 = 255 ∧
    clampQ (-41 / 8 + (dimBlendGlobals.render_color_blend_blue : ℚ)) = 31 / 8 ∧
    lightAt darkBlendGlobals sampleEnv []
        (sampleEnv.MxV_world ⟨exampleVertex.x, exampleVertex.y, exampleVertex.z⟩) =
      some ⟨-5, -5, -5, 255⟩ ∧
    light_vert darkBlendGlobals sampleEnv [] exampleVertex (0, 0) exampleColor =
      some (packBytes 255 255 255 255) ∧
    byteOf (packBytes 255 255 255 255) 0 = 255 ∧
    clampQ (-5 + (darkBlendGlobals.render_color_blend_blue : ℚ)) = 4 := by
  refine ⟨rfl, by decide, by decide!, by decide!, by decide!, by decide!, by decide!,
    by decide!, by decide!, by decide!, by decide!⟩

/-- C17 (amended): under the light-colour-and-blend policy bytes 0, 1, 2 of the
result are `clamp(b + blend blue, 0, 255)`, `clamp(g + blend green, 0, 255)` and
`clamp(r + blend red, 0, 255)`, where `b`, `g`, `r` are the bytes the light values
B, G, R are first stored as, and byte 3 is the byte light A is stored as; the
tint is added, and the result is the same for every input colour.  For a light
value that is not negative the stored byte is its whole part, so that the byte
of the result is the whole part of `clamp(light + tint, 0, 255)`, and byte 3 the
whole part of light A. -/
theorem C17_light_colour_and_blend (gl : Globals) (env : Env) (lights : List XLIGHT)
    (vert : LVERTEX) (adj : ℕ × ℕ) (color : ℕ) (l : RGBA)
    (h1 : gl.render_lighting_use_only_light_color = 0)
    (h2 : gl.render_lighting_use_only_light_color_and_blend ≠ 0)
    (hl : lightAt gl env lights (env.MxV_world ⟨vert.x, vert.y, vert.z⟩) = some l) :
    ∃ out : ℕ, light_vert gl env lights vert adj color = some out ∧
      ((byteOf out 0 : ℕ) : ℤ) =
        max 0 (min 255 (((f2u8 l.B : ℕ) : ℤ) + gl.render_color_blend_blue)) ∧
      ((byteOf out 1 : ℕ) : ℤ) =
        max 0 (min 255 (((f2u8 l.G : ℕ) : ℤ) + gl.render_color_blend_green)) ∧
      ((byteOf out 2 : ℕ) : ℤ) =
        max 0 (min 255 (((f2u8 l.R : ℕ) : ℤ) + gl.render_color_blend_red)) ∧
      byteOf out 3 = f2u8 l.A ∧
      (∀ (color2 : ℕ) (adj2 : ℕ × ℕ),
        light_vert gl env lights vert adj2 color2 = some out) ∧
      (0 ≤ l.B → ((byteOf out 0 : ℕ) : ℤ) =
        ⌊clampQ (l.B + (gl.render_color_blend_blue : ℚ))⌋) ∧
      (0 ≤ l.G → ((byteOf out 1 : ℕ) : ℤ) =
        ⌊clampQ (l.G + (gl.render_color_blend_green : ℚ))⌋) ∧
      (0 ≤ l.R → ((byteOf out 2 : ℕ) : ℤ) =
        ⌊clampQ (l.R + (gl.render_color_blend_red : ℚ))⌋) ∧
      (0 ≤ l.A → ((byteOf out 3 : ℕ) : ℤ) = ⌊l.A⌋) := by
  obtain ⟨hR, hG, hB, hA⟩ := lightAt_le gl env lights _ l hl
  have hpol : ∀ c : ℕ, applyPolicy gl c l =
      packBytes (ADD (f2u8 l.B) gl.render_color_blend_blue)
        (ADD (f2u8 l.G) gl.render_color_blend_green)
        (ADD (f2u8 l.R) gl.render_color_blend_red) (f2u8 l.A) := by
    intro c
    unfold applyPolicy
    rw [if_neg (by simp [h1]), if_pos h2]
  have hout : ∀ (color2 : ℕ) (adj2 : ℕ × ℕ), light_vert gl env lights vert adj2 color2 =
      some (packBytes (ADD (f2u8 l.B) gl.render_color_blend_blue)
        (ADD (f2u8 l.G) gl.render_color_blend_green)
        (ADD (f2u8 l.R) gl.render_color_blend_red) (f2u8 l.A)) := by
    intro color2 adj2
    rw [light_vert_eq_map, hl, Option.map_some', hpol]
  refine ⟨_, hout color adj, ?_, ?_, ?_, ?_, hout, ?_, ?_, ?_, ?_⟩
  · rw [byteOf_packBytes_0, Nat.mod_eq_of_lt (ADD_lt _ _), ADD_cast]
  · rw [byteOf_packBytes_1, Nat.mod_eq_of_lt (ADD_lt _ _), ADD_cast]
  · rw [byteOf_packBytes_2, Nat.mod_eq_of_lt (ADD_lt _ _), ADD_cast]
  · rw [byteOf_packBytes_3, Nat.mod_eq_of_lt (f2u8_lt _)]
  · intro h0
    rw [byteOf_packBytes_0, Nat.mod_eq_of_lt (ADD_lt _ _), ADD_floor _ _ h0 hB]
  · intro h0
    rw [byteOf_packBytes_1, Nat.mod_eq_of_lt (ADD_lt _ _), ADD_floor _ _ h0 hG]
  · intro h0
    rw [byteOf_packBytes_2, Nat.mod_eq_of_lt (ADD_lt _ _), ADD_floor _ _ h0 hR]
  · intro h0
    rw [byteOf_packBytes_3, Nat.mod_eq_of_lt (f2u8_lt _), f2u8_of_range _ h0 hA]

/-- C17 (witness): ambient level 40, no light in the list, tints 10, 20, 250. -/
theorem C17_light_colour_and_blend_witness :
    blendGlobals.render_lighting_use_only_light_color = 0 ∧
    blendGlobals.render_lighting_use_only_light_color_and_blend ≠ 0 ∧
    lightAt blendGlobals sampleEnv []
        (sampleEnv.MxV_world ⟨exampleVertex.x, exampleVertex.y, exampleVertex.z⟩) =
      some ⟨40, 40, 40, 255⟩ ∧
    ∃ out : ℕ, light_vert blendGlobals sampleEnv [] exampleVertex (0, 0) exampleColor = some out ∧
      ((byteOf out 0 : ℕ) : ℤ) =
        max 0 (min 255 (((f2u8 40 : ℕ) : ℤ) + blendGlobals.render_color_blend_blue)) ∧
      ((byteOf out 1 : ℕ) : ℤ) =
        max 0 (min 255 (((f2u8 40 : ℕ) : ℤ) + blendGlobals.render_color_blend_green)) ∧
      ((byteOf out 2 : ℕ) : ℤ) =
        max 0 (min 255 (((f2u8 40 : ℕ) : ℤ) + blendGlobals.render_color_blend_red)) ∧
      byteOf out 3 = f2u8 255 ∧
      (∀ (color2 : ℕ) (adj2 : ℕ × ℕ),
        light_vert blendGlobals sampleEnv [] exampleVertex adj2 color2 = some out) ∧
      ((0 : ℚ) ≤ 40 → ((byteOf out 0 : ℕ) : ℤ) =
        ⌊clampQ (40 + (blendGlobals.render_color_blend_blue : ℚ))⌋) ∧
      ((0 : ℚ) ≤ 40 → ((byteOf out 1 : ℕ) : ℤ) =
        ⌊clampQ (40 + (blendGlobals.render_color_blend_green : ℚ))⌋) ∧
      ((0 : ℚ) ≤ 40 → ((byteOf out 2 : ℕ) : ℤ) =
        ⌊clampQ (40 + (blendGlobals.render_color_blend_red : ℚ))⌋) ∧
      ((0 : ℚ) ≤ 255 → ((byteOf out 3 : ℕ) : ℤ) = ⌊(255 : ℚ)⌋) := by
  have hl : lightAt blendGlobals sampleEnv []
      (sampleEnv.MxV_world ⟨exampleVertex.x, exampleVertex.y, exampleVertex.z⟩) =
      some ⟨40, 40, 40, 255⟩ := by
    rw [lightAt_nil_enabled _ _ _ (by decide)]
    norm_num [blendGlobals, resetGlobals]
  exact ⟨rfl, by decide, hl,
    C17_light_colour_and_blend blendGlobals sampleEnv [] exampleVertex (0, 0) exampleColor
      ⟨40, 40, 40, 255⟩ rfl (by decide) hl⟩

/-! ## The period of the noise: claim C18 -/

theorem noiseValueRounded_id (env : Env) (pos : VECTOR) :
    noiseValueRounded (fun q => q) env pos = noiseValue env pos := rfl

/-- The C remainder by 360 in terms of the Euclidean one. -/
theorem tmod_360 (n : ℤ) :
    Int.tmod n 360 = if 0 ≤ n then n % 360 else -((-n) % 360) := by
  by_cases h : 0 ≤ n
  · rw [if_pos h, Int.tmod_eq_emod h (by decide)]
  · rw [if_neg h]
    obtain ⟨m, hm⟩ := Int.eq_negSucc_of_lt_zero (not_le.mp h)
    subst hm
    show -((((m + 1) % 360 : ℕ) : ℤ)) = _
    rw [Int.neg_negSucc]
    push_cast
    rfl

/-- A shift by 360 that stays on one side of zero keeps the C remainder. -/
theorem tmod_same_side (n n2 : ℤ) (h : shifted360 n n2) (hs : sameSide n n2) :
    Int.tmod n2 360 = Int.tmod n 360 := by
  unfold shifted360 at h
  unfold sameSide at hs
  rw [tmod_360, tmod_360]
  split_ifs <;> omega

/-- A shift by 360 across zero moves the C remainder. -/
theorem tmod_opposite_side (n n2 : ℤ) (h : shifted360 n n2) (hs : ¬ sameSide n n2) :
    Int.tmod n2 360 ≠ Int.tmod n 360 := by
  unfold shifted360 at h
  unfold sameSide at hs
  rw [tmod_360, tmod_360]
  split_ifs <;> omega

/-- A shift by 360 moves the C remainder by 0, 360 or -360. -/
theorem tmod_shifted (n n2 : ℤ) (h : shifted360 n n2) :
    Int.tmod n2 360 = Int.tmod n 360 ∨ Int.tmod n2 360 = Int.tmod n 360 + 360 ∨
      Int.tmod n2 360 = Int.tmod n 360 - 360 := by
  unfold shifted360 at h
  rw [tmod_360, tmod_360]
  split_ifs <;> omega

theorem sin_term_shifted (env : Env) (hper : ∀ a : ℚ, env.sinD2R (a + 360) = env.sinD2R a)
    (n n2 : ℤ) (h : shifted360 n n2) (t : ℚ) :
    env.sinD2R ((Int.tmod n2 360 : ℚ) + t) = env.sinD2R ((Int.tmod n 360 : ℚ) + t) := by
  rcases tmod_shifted n n2 h with h1 | h1 | h1
  · rw [h1]
  · rw [h1]
    push_cast
    rw [show (Int.tmod n 360 : ℚ) + 360 + t = ((Int.tmod n 360 : ℚ) + t) + 360 by ring, hper]
  · rw [h1]
    push_cast
    have h2 := hper ((Int.tmod n 360 : ℚ) - 360 + t)
    rw [show (Int.tmod n 360 : ℚ) - 360 + t + 360 = (Int.tmod n 360 : ℚ) + t by ring] at h2
    exact h2.symm

/-- The exact noise depends on the position through the three remainders only. -/
theorem noiseValue_congr (env : Env) (pos pos2 : VECTOR)
    (hx : env.sinD2R ((axisTerm pos2.x : ℚ) + secondsOf env * 71) =
      env.sinD2R ((axisTerm pos.x : ℚ) + secondsOf env * 71))
    (hy : env.sinD2R ((axisTerm pos2.y : ℚ) + secondsOf env * 71) =
      env.sinD2R ((axisTerm pos.y : ℚ) + secondsOf env * 71))
    (hz : env.sinD2R ((axisTerm pos2.z : ℚ) + secondsOf env * 71) =
      env.sinD2R ((axisTerm pos.z : ℚ) + secondsOf env * 71)) :
    noiseValue env pos2 = noiseValue env pos := by
  unfold noiseValue
  rw [hx, hy, hz]

theorem degreesMod360_add (a : ℚ) : degreesMod360 (a + 360) = degreesMod360 a := by
  unfold degreesMod360
  have h : ⌊(a + 360) / 360⌋ = ⌊a / 360⌋ + 1 := by
    rw [add_div, div_self (by norm_num : (360 : ℚ) ≠ 0)]
    exact Int.floor_add_one _
  rw [h]
  push_cast
  ring

theorem tickEnv_periodic : ∀ a : ℚ, tickEnv.sinD2R (a + 360) = tickEnv.sinD2R a := by
  intro a
  show sineDegrees (a + 360) = sineDegrees a
  unfold sineDegrees
  rw [degreesMod360_add]

/-- C18 (counterexample): the clock at 100 ms, the positions `(-30, 0, 0)` and
`(1001, 0, 0)`, whose x axis terms are `n = -10` and `n + 360 = 350`, and the sine
`sineDegrees`, of period 360.  In binary32 `seconds * speed` is 7.0999999..., the sum
`-10 + 7.0999999...` is exact and `350 + 7.0999999...` is rounded to a multiple
of `2^-15`: the two floats handed to the sine are `360 + 13 / 2097152` apart,
not 360, and the noise values differ. -/
theorem C18_counterexample :
    axisIntRounded round32 (-30) = -10 ∧ axisIntRounded round32 1001 = -10 + 360 ∧
    axisTermRounded round32 (-30) = -10 ∧ axisTermRounded round32 1001 = 350 ∧
    (∀ a : ℚ, tickEnv.sinD2R (a + 360) = tickEnv.sinD2R a) ∧
    sineArgRounded round32 tickEnv 350 - sineArgRounded round32 tickEnv (-10) =
      360 + 13 / 2097152 ∧
    noiseValueRounded round32 tickEnv ⟨1001, 0, 0⟩ ≠
      noiseValueRounded round32 tickEnv ⟨-30, 0, 0⟩ := by
  refine ⟨by decide!, by decide!, by decide!, by decide!, tickEnv_periodic, by decide!,
    by decide!⟩

/-- C18 (amended): the noise depends on each axis through the C remainder
`n % 360` of its axis term `n = (int)(pos.axis * 0.35f)` only.  Replacing `n` by
`n + 360` or `n - 360` changes the remainder by a multiple of 360; the remainder
is unchanged when both terms lie on the same side of zero and changed when they
do not.  With unchanged remainders the noise is unchanged at every time,
whatever the rounding of the float operations and whatever the sine.  In exact
arithmetic the noise and both effects are unchanged as well when the
remainders move and the sine has period 360 degrees (the water effect for a
position with the same `y`, which it also compares with the water level). -/
theorem C18_noise_shift_by_360 :
    (∀ n n2 : ℤ, shifted360 n n2 →
      (360 : ℤ) ∣ Int.tmod n2 360 - Int.tmod n 360 ∧
      (sameSide n n2 → Int.tmod n2 360 = Int.tmod n 360) ∧
      (¬ sameSide n n2 → Int.tmod n2 360 ≠ Int.tmod n 360)) ∧
    (∀ (rnd : ℚ → ℚ) (env : Env) (pos pos2 : VECTOR),
      shifted360 (axisIntRounded rnd pos.x) (axisIntRounded rnd pos2.x) →
      sameSide (axisIntRounded rnd pos.x) (axisIntRounded rnd pos2.x) →
      shifted360 (axisIntRounded rnd pos.y) (axisIntRounded rnd pos2.y) →
      sameSide (axisIntRounded rnd pos.y) (axisIntRounded rnd pos2.y) →
      shifted360 (axisIntRounded rnd pos.z) (axisIntRounded rnd pos2.z) →
      sameSide (axisIntRounded rnd pos.z) (axisIntRounded rnd pos2.z) →
      noiseValueRounded rnd env pos2 = noiseValueRounded rnd env pos) ∧
    (∀ (env : Env) (pos : VECTOR),
      noiseValueRounded (fun q => q) env pos = noiseValue env pos) ∧
    (∀ (gl : Globals) (env : Env) (pos pos2 : VECTOR) (color : ℕ) (words : ℕ × ℕ × ℕ),
      shifted360 (f2i (pos.x * (35 / 100))) (f2i (pos2.x * (35 / 100))) →
      shifted360 (f2i (pos.y * (35 / 100))) (f2i (pos2.y * (35 / 100))) →
      shifted360 (f2i (pos.z * (35 / 100))) (f2i (pos2.z * (35 / 100))) →
      ((sameSide (f2i (pos.x * (35 / 100))) (f2i (pos2.x * (35 / 100))) ∧
          sameSide (f2i (pos.y * (35 / 100))) (f2i (pos2.y * (35 / 100))) ∧
          sameSide (f2i (pos.z * (35 / 100))) (f2i (pos2.z * (35 / 100)))) ∨
        (∀ a : ℚ, env.sinD2R (a + 360) = env.sinD2R a)) →
      noiseValue env pos2 = noiseValue env pos ∧
      do_whiteout_effect gl env pos2 color = do_whiteout_effect gl env pos color ∧
      (pos2.y = pos.y →
        do_water_effect gl env pos2 words = do_water_effect gl env pos words)) := by
  refine ⟨?_, ?_, noiseValueRounded_id, ?_⟩
  · intro n n2 h
    refine ⟨?_, tmod_same_side n n2 h, tmod_opposite_side n n2 h⟩
    rcases tmod_shifted n n2 h with h1 | h1 | h1 <;> rw [h1] <;> omega
  · intro rnd env pos pos2 hx sx hy sy hz sz
    have ex : axisTermRounded rnd pos2.x = axisTermRounded rnd pos.x := tmod_same_side _ _ hx sx
    have ey : axisTermRounded rnd pos2.y = axisTermRounded rnd pos.y := tmod_same_side _ _ hy sy
    have ez : axisTermRounded rnd pos2.z = axisTermRounded rnd pos.z := tmod_same_side _ _ hz sz
    unfold noiseValueRounded
    rw [ex, ey, ez]
  · intro gl env pos pos2 color words hx hy hz hcase
    have hnoise : noiseValue env pos2 = noiseValue env pos := by
      rcases hcase with ⟨sx, sy, sz⟩ | hper
      · have ex : axisTerm pos2.x = axisTerm pos.x := tmod_same_side _ _ hx sx
        have ey : axisTerm pos2.y = axisTerm pos.y := tmod_same_side _ _ hy sy
        have ez : axisTerm pos2.z = axisTerm pos.z := tmod_same_side _ _ hz sz
        exact noiseValue_congr env pos pos2 (by rw [ex]) (by rw [ey]) (by rw [ez])
      · exact noiseValue_congr env pos pos2 (sin_term_shifted env hper _ _ hx _)
          (sin_term_shifted env hper _ _ hy _) (sin_term_shifted env hper _ _ hz _)
    refine ⟨hnoise, ?_, ?_⟩
    · unfold do_whiteout_effect whiteoutIntensity
      rw [hnoise]
    · intro hsame
      unfold do_water_effect
      rw [hnoise, hsame]

/-- C18 (witness): in binary32 the x axis terms 10 and 370 of the positions
`(30, 0, 0)` and `(1058, 0, 0)` have the same remainder and the same noise; in
exact arithmetic the terms -10 and 350 of `(-30, 0, 0)` and `(1001, 0, 0)` have
the remainders -10 and 350 and, the sine having period 360, the same noise. -/
theorem C18_noise_shift_by_360_witness :
    axisIntRounded round32 30 = 10 ∧ axisIntRounded round32 1058 = 370 ∧
    noiseValueRounded round32 tickEnv ⟨1058, 0, 0⟩ = noiseValueRounded round32 tickEnv ⟨30, 0, 0⟩ ∧
    f2i ((-30 : ℚ) * (35 / 100)) = -10 ∧ f2i ((1001 : ℚ) * (35 / 100)) = 350 ∧
    Int.tmod 350 360 ≠ Int.tmod (-10) 360 ∧
    noiseValue tickEnv ⟨1001, 0, 0⟩ = noiseValue tickEnv ⟨-30, 0, 0⟩ ∧
    do_whiteout_effect whiteoutGlobals tickEnv ⟨1001, 0, 0⟩ exampleColor =
      do_whiteout_effect whiteoutGlobals tickEnv ⟨-30, 0, 0⟩ exampleColor := by
  have h10 : axisIntRounded round32 30 = 10 := by decide!
  have h370 : axisIntRounded round32 1058 = 370 := by decide!
  have h0 : axisIntRounded round32 0 = 0 := by decide!
  have hm10 : f2i ((-30 : ℚ) * (35 / 100)) = -10 := by decide!
  have h350 : f2i ((1001 : ℚ) * (35 / 100)) = 350 := by decide!
  have hz0 : f2i ((0 : ℚ) * (35 / 100)) = 0 := by decide!
  have hexact := C18_noise_shift_by_360.2.2.2 whiteoutGlobals tickEnv ⟨-30, 0, 0⟩ ⟨1001, 0, 0⟩
    exampleColor (0, 0, 0)
    (by rw [hm10, h350]; exact Or.inr (Or.inl (by decide)))
    (by rw [hz0]; exact Or.inl rfl) (by rw [hz0]; exact Or.inl rfl)
    (Or.inr tickEnv_periodic)
  exact ⟨h10, h370,
    C18_noise_shift_by_360.2.1 round32 tickEnv ⟨30, 0, 0⟩ ⟨1058, 0, 0⟩
      (by rw [h10, h370]; exact Or.inr (Or.inl (by decide)))
      (by rw [h10, h370]; exact Or.inl ⟨by decide, by decide⟩)
      (by rw [h0]; exact Or.inl rfl) (by rw [h0]; exact Or.inl ⟨le_refl _, le_refl _⟩)
      (by rw [h0]; exact Or.inl rfl) (by rw [h0]; exact Or.inl ⟨le_refl _, le_refl _⟩),
    hm10, h350,
    (C18_noise_shift_by_360.1 (-10) 350 (Or.inr (Or.inl (by decide)))).2.2 (by unfold sameSide; omega),
    hexact.1, hexact.2.1⟩

/-! ## The reset and the drawing of a vertex: claims C19, C20 -/

theorem resetGlobals_eq_programStart : resetGlobals = programStartGlobals := rfl

/-- C19: from any prior state `render_reset_lighting_variables` leaves every
global lighting variable at its program-start value (tints 0, lighting disabled,
point-lights-only 1, both colour-policy flags 0, ambience 0, ambience alpha 255,
water flag, level and coefficients 0, whiteout 0), and applying it twice is the
same as applying it once. -/
theorem C19_reset_restores_initial (gl : Globals) :
    render_reset_lighting_variables gl = programStartGlobals ∧
    render_reset_lighting_variables (render_reset_lighting_variables gl) =
      render_reset_lighting_variables gl ∧
    (render_reset_lighting_variables gl).render_color_blend_red = 0 ∧
    (render_reset_lighting_variables gl).render_color_blend_green = 0 ∧
    (render_reset_lighting_variables gl).render_color_blend_blue = 0 ∧
    (render_reset_lighting_variables gl).render_lighting_enabled = 0 ∧
    (render_reset_lighting_variables gl).render_lighting_point_lights_only = 1 ∧
    (render_reset_lighting_variables gl).render_lighting_use_only_light_color = 0 ∧
    (render_reset_lighting_variables gl).render_lighting_use_only_light_color_and_blend = 0 ∧
    (render_reset_lighting_variables gl).render_light_ambience = 0 ∧
    (render_reset_lighting_variables gl).render_light_ambience_alpha = 255 ∧
    (render_reset_lighting_variables gl).render_lighting_env_water = 0 ∧
    (render_reset_lighting_variables gl).render_lighting_env_water_level = 0 ∧
    (render_reset_lighting_variables gl).render_lighting_env_water_red = 0 ∧
    (render_reset_lighting_variables gl).render_lighting_env_water_green = 0 ∧
    (render_reset_lighting_variables gl).render_lighting_env_water_blue = 0 ∧
    (render_reset_lighting_variables gl).render_lighting_env_whiteout = 0 :=
  ⟨rfl, rfl, rfl, rfl, rfl, rfl, rfl, rfl, rfl, rfl, rfl, rfl, rfl, rfl, rfl, rfl, rfl⟩

theorem example_light_vert :
    light_vert exampleGlobals sampleEnv [] exampleVertex (0, 0) exampleVertex.color =
      some (packBytes 100 100 5 0) := by
  have hl : lightAt exampleGlobals sampleEnv []
      (sampleEnv.MxV_world ⟨exampleVertex.x, exampleVertex.y, exampleVertex.z⟩) =
      some ⟨100, 100, 100, 255⟩ := by
    rw [lightAt_nil_enabled _ _ _ (by decide)]
    norm_num [exampleGlobals, resetGlobals]
  have hmix : ∀ (x : ℕ) (t n : ℤ), (n : ℚ) ≤ mixTwoStep x 100 t →
      mixTwoStep x 100 t < (n : ℚ) + 1 → 0 ≤ n → MIX_COLOR_BLEND_LIGHT x t 100 = n.toNat := by
    intro x t n h1 h2 h3
    have h := MIX_eq_mixTwoStep x t 100
    rw [f2i_eq_of_bounds (le_trans (by exact_mod_cast h3) h1) h1 h2] at h
    omega
  rw [light_vert_eq_map, hl, Option.map_some', envStage_off _ _ _ _ _ rfl rfl]
  have hc : exampleVertex.color = packBytes 0 0 200 0 := rfl
  rw [hc]
  unfold applyPolicy
  rw [if_neg (by decide), if_neg (by decide), byteOf_packBytes_0, byteOf_packBytes_1,
    byteOf_packBytes_2, byteOf_packBytes_3]
  have hb : MIX_COLOR_BLEND_LIGHT (0 % 256) exampleGlobals.render_color_blend_blue 100 = 100 :=
    hmix _ _ 100 (by norm_num [mixTwoStep, clampQ, exampleGlobals, resetGlobals])
      (by norm_num [mixTwoStep, clampQ, exampleGlobals, resetGlobals]) (by decide)
  have hg : MIX_COLOR_BLEND_LIGHT (0 % 256) exampleGlobals.render_color_blend_green 100 = 100 :=
    hmix _ _ 100 (by norm_num [mixTwoStep, clampQ, exampleGlobals, resetGlobals])
      (by norm_num [mixTwoStep, clampQ, exampleGlobals, resetGlobals]) (by decide)
  have hr : MIX_COLOR_BLEND_LIGHT (200 % 256) exampleGlobals.render_color_blend_red 100 = 5 :=
    hmix _ _ 5 (by norm_num [mixTwoStep, clampQ, exampleGlobals, resetGlobals])
      (by norm_num [mixTwoStep, clampQ, exampleGlobals, resetGlobals]) (by decide)
  simp only [hb, hg, hr]

/-- C20 (counterexample): a build with `NEW_LIGHTING`, lighting enabled, ambient
level 100, red tint 250 and a vertex whose colour has red 200.  `light_vert`
computes the colour with bytes (100, 100, 5, 0); after `draw_vert` the vertex
record still holds its original colour, which is a different word. -/
theorem C20_counterexample :
    light_vert exampleGlobals sampleEnv [] exampleVertex (0, 0) exampleVertex.color =
      some (packBytes 100 100 5 0) ∧
    (∃ calls : List GLCall,
      draw_vert exampleGlobals sampleEnv [] true (0, 0) exampleVertex exampleTLVertex false =
        some (exampleVertex, calls)) ∧
    exampleVertex.color = packBytes 0 0 200 0 ∧
    packBytes 0 0 200 0 ≠ packBytes 100 100 5 0 := by
  refine ⟨example_light_vert,
    ⟨set_color (packBytes 100 100 5 0) ++
      [GLCall.glTexCoord2f exampleVertex.tu exampleVertex.tv,
        GLCall.glVertex3f exampleVertex.x exampleVertex.y exampleVertex.z], ?_⟩,
    rfl, by decide⟩
  simp only [draw_vert, example_light_vert]
  rfl

/-- C20 (amended): the lighting pass works on a copy of the colour.  When
`draw_vert` lights a non-orthographic vertex, the vertex record is left as it
was, and the lit colour computed by `light_vert` from the record's colour is
what `set_color` passes to `glColor4ubv`, red and blue swapped, followed by the
texture coordinates and the position. -/
theorem C20_draw_vert_lights_a_copy (gl : Globals) (env : Env) (lights : List XLIGHT)
    (adj : ℕ × ℕ) (vert : LVERTEX) (tlvert : TLVERTEX) (lit : ℕ)
    (hlit : light_vert gl env lights vert adj vert.color = some lit) :
    draw_vert gl env lights true adj vert tlvert false =
      some (vert, [GLCall.glColor4ubv (swapRedBlue lit), GLCall.glTexCoord2f vert.tu vert.tv,
        GLCall.glVertex3f vert.x vert.y vert.z]) := by
  simp only [draw_vert, hlit]
  rfl

/-- C20 (witness): the vertex and the state of the default-policy example. -/
theorem C20_draw_vert_lights_a_copy_witness :
    light_vert exampleGlobals sampleEnv [] exampleVertex (0, 0) exampleVertex.color =
      some (packBytes 100 100 5 0) ∧
    draw_vert exampleGlobals sampleEnv [] true (0, 0) exampleVertex exampleTLVertex false =
      some (exampleVertex, [GLCall.glColor4ubv (swapRedBlue (packBytes 100 100 5 0)),
        GLCall.glTexCoord2f exampleVertex.tu exampleVertex.tv,
        GLCall.glVertex3f exampleVertex.x exampleVertex.y exampleVertex.z]) :=
  ⟨example_light_vert,
    C20_draw_vert_lights_a_copy exampleGlobals sampleEnv [] (0, 0) exampleVertex exampleTLVertex
      (packBytes 100 100 5 0) example_light_vert⟩

/-! ## The reset state and the precedence of the policies: claims C28, C29 -/

theorem f2i_natCast (n : ℕ) : f2i (n : ℚ) = (n : ℤ) := by
  rw [f2i_of_nonneg (Nat.cast_nonneg n)]
  exact_mod_cast Int.floor_intCast (n : ℤ)

theorem byteOf_lt (c i : ℕ) : byteOf c i < 256 :=
  Nat.mod_lt _ (by decide)

/-- With no light and no tint the default policy returns the byte it was given. -/
theorem MIX_zero (x : ℕ) (hx : x < 256) : MIX_COLOR_BLEND_LIGHT x 0 0 = x := by
  have h : ((MIX_COLOR_BLEND_LIGHT x 0 0 : ℕ) : ℤ) = (x : ℤ) := by
    unfold MIX_COLOR_BLEND_LIGHT MINUS ADDf MINUSf
    rw [clampByte_cast, clampByte_cast, neg_zero, sub_zero, sub_zero, f2i_natCast]
    omega
  exact_mod_cast h

theorem packBytes_byteOf (c : ℕ) :
    packBytes (byteOf c 0) (byteOf c 1) (byteOf c 2) (byteOf c 3) = c % 4294967296 := by
  have p0 : (256 : ℕ) ^ 0 = 1 := by norm_num
  have p1 : (256 : ℕ) ^ 1 = 256 := by norm_num
  have p2 : (256 : ℕ) ^ 2 = 65536 := by norm_num
  have p3 : (256 : ℕ) ^ 3 = 16777216 := by norm_num
  unfold packBytes byteOf
  rw [p0, p1, p2, p3]
  omega

/-- C28: with the configuration produced by `render_reset_lighting_variables`
and `LIGHT_EVERYTHING` undefined, `light_vert` leaves all four bytes of the
colour unchanged, for every vertex, every colour and every visible-light list;
a 32-bit colour word is returned as it was. -/
theorem C28_reset_state_leaves_colour (gl : Globals) (env : Env) (lights : List XLIGHT)
    (vert : LVERTEX) (adj : ℕ × ℕ) (color : ℕ) (hLE : env.LIGHT_EVERYTHING = false) :
    ∃ out : ℕ,
      light_vert (render_reset_lighting_variables gl) env lights vert adj color = some out ∧
      byteOf out 0 = byteOf color 0 ∧ byteOf out 1 = byteOf color 1 ∧
      byteOf out 2 = byteOf color 2 ∧ byteOf out 3 = byteOf color 3 ∧
      (color < 4294967296 → out = color) := by
  have hl : lightAt (render_reset_lighting_variables gl) env lights
      (env.MxV_world ⟨vert.x, vert.y, vert.z⟩) = some ⟨0, 0, 0, 0⟩ := by
    unfold lightAt
    rw [if_neg]
    rw [hLE]
    simp [render_reset_lighting_variables]
  have hout : light_vert (render_reset_lighting_variables gl) env lights vert adj color =
      some (packBytes (byteOf color 0) (byteOf color 1) (byteOf color 2) (byteOf color 3)) := by
    rw [light_vert_eq_map, hl, Option.map_some', envStage_off _ _ _ _ _ rfl rfl]
    unfold applyPolicy
    rw [if_neg (by simp [render_reset_lighting_variables]),
      if_neg (by simp [render_reset_lighting_variables])]
    have hb : (render_reset_lighting_variables gl).render_color_blend_blue = 0 := rfl
    have hg : (render_reset_lighting_variables gl).render_color_blend_green = 0 := rfl
    have hr : (render_reset_lighting_variables gl).render_color_blend_red = 0 := rfl
    rw [hb, hg, hr]
    simp only [MIX_zero _ (byteOf_lt _ _)]
  refine ⟨_, hout, ?_, ?_, ?_, ?_, ?_⟩
  · rw [byteOf_packBytes_0, Nat.mod_eq_of_lt (byteOf_lt _ _)]
  · rw [byteOf_packBytes_1, Nat.mod_eq_of_lt (byteOf_lt _ _)]
  · rw [byteOf_packBytes_2, Nat.mod_eq_of_lt (byteOf_lt _ _)]
  · rw [byteOf_packBytes_3, Nat.mod_eq_of_lt (byteOf_lt _ _)]
  · intro hc
    rw [packBytes_byteOf, Nat.mod_eq_of_lt hc]

/-- C28 (witness): the reset of the example state, a light in the list and the
example colour. -/
theorem C28_reset_state_leaves_colour_witness :
    sampleEnv.LIGHT_EVERYTHING = false ∧
    ∃ out : ℕ,
      light_vert (render_reset_lighting_variables exampleGlobals) sampleEnv [sampleLight 3]
        exampleVertex (0, 0) exampleColor = some out ∧
      byteOf out 0 = byteOf exampleColor 0 ∧ byteOf out 1 = byteOf exampleColor 1 ∧
      byteOf out 2 = byteOf exampleColor 2 ∧ byteOf out 3 = byteOf exampleColor 3 ∧
      (exampleColor < 4294967296 → out = exampleColor) :=
  ⟨rfl, C28_reset_state_leaves_colour exampleGlobals sampleEnv [sampleLight 3] exampleVertex
    (0, 0) exampleColor rfl⟩

/-- C29: the policy flags are tested in order.  When
`render_lighting_use_only_light_color` is set, and so when both flags are set,
the result has the bytes (light B, light G, light R, light A) and is the same
for every blend tint; the light-colour-and-blend policy is used when only the
second flag is set, and the default mixed policy when both flags are clear. -/
theorem C29_policy_precedence (gl : Globals) (env : Env) (lights : List XLIGHT)
    (vert : LVERTEX) (adj : ℕ × ℕ) (color : ℕ) (l : RGBA)
    (hl : lightAt gl env lights (env.MxV_world ⟨vert.x, vert.y, vert.z⟩) = some l) :
    (gl.render_lighting_use_only_light_color ≠ 0 →
      ∀ tr tg tb : ℤ, light_vert (withBlend gl tr tg tb) env lights vert adj color =
        some (packBytes (f2u8 l.B) (f2u8 l.G) (f2u8 l.R) (f2u8 l.A))) ∧
    (gl.render_lighting_use_only_light_color = 0 →
      gl.render_lighting_use_only_light_color_and_blend ≠ 0 →
      light_vert gl env lights vert adj color =
        some (packBytes (ADD (f2u8 l.B) gl.render_color_blend_blue)
          (ADD (f2u8 l.G) gl.render_color_blend_green)
          (ADD (f2u8 l.R) gl.render_color_blend_red) (f2u8 l.A))) ∧
    (gl.render_lighting_use_only_light_color = 0 →
      gl.render_lighting_use_only_light_color_and_blend = 0 →
      light_vert gl env lights vert adj color =
        some (packBytes
          (MIX_COLOR_BLEND_LIGHT
            (byteOf (envStage gl env (env.MxV_world ⟨vert.x, vert.y, vert.z⟩) adj color) 0)
            gl.render_color_blend_blue l.B)
          (MIX_COLOR_BLEND_LIGHT
            (byteOf (envStage gl env (env.MxV_world ⟨vert.x, vert.y, vert.z⟩) adj color) 1)
            gl.render_color_blend_green l.G)
          (MIX_COLOR_BLEND_LIGHT
            (byteOf (envStage gl env (env.MxV_world ⟨vert.x, vert.y, vert.z⟩) adj color) 2)
            gl.render_color_blend_red l.R)
          (byteOf (envStage gl env (env.MxV_world ⟨vert.x, vert.y, vert.z⟩) adj color) 3))) := by
  refine ⟨?_, ?_, ?_⟩
  · intro h1 tr tg tb
    have h1b : (withBlend gl tr tg tb).render_lighting_use_only_light_color ≠ 0 := h1
    rw [light_vert_eq_map, lightAt_blend, hl, Option.map_some']
    unfold applyPolicy
    rw [if_pos h1b]
  · intro h1 h2
    rw [light_vert_eq_map, hl, Option.map_some']
    unfold applyPolicy
    rw [if_neg (by simp [h1]), if_pos h2]
  · intro h1 h2
    rw [light_vert_eq_map, hl, Option.map_some']
    unfold applyPolicy
    rw [if_neg (by simp [h1]), if_neg (by simp [h2])]

/-- C29 (witness): both flags set, ambient level 40, tints 10, 20, 250. -/
theorem C29_policy_precedence_witness :
    bothFlagsGlobals.render_lighting_use_only_light_color ≠ 0 ∧
    bothFlagsGlobals.render_lighting_use_only_light_color_and_blend ≠ 0 ∧
    lightAt bothFlagsGlobals sampleEnv []
        (sampleEnv.MxV_world ⟨exampleVertex.x, exampleVertex.y, exampleVertex.z⟩) =
      some ⟨40, 40, 40, 255⟩ ∧
    ∀ tr tg tb : ℤ,
      light_vert (withBlend bothFlagsGlobals tr tg tb) sampleEnv [] exampleVertex (0, 0)
        exampleColor = some (packBytes (f2u8 40) (f2u8 40) (f2u8 40) (f2u8 255)) := by
  have hl : lightAt bothFlagsGlobals sampleEnv []
      (sampleEnv.MxV_world ⟨exampleVertex.x, exampleVertex.y, exampleVertex.z⟩) =
      some ⟨40, 40, 40, 255⟩ := by
    rw [lightAt_nil_enabled _ _ _ (by decide)]
    norm_num [bothFlagsGlobals, resetGlobals]
  exact ⟨by decide, by decide, hl,
    (C29_policy_precedence bothFlagsGlobals sampleEnv [] exampleVertex (0, 0) exampleColor
      ⟨40, 40, 40, 255⟩ hl).1 (by decide)⟩

/-! ## Range of the noise and the bit packing: claims C24, C25, C26 -/

theorem and_concat (k a b a2 b2 : ℕ) (hb : b < 2 ^ k) (hb2 : b2 < 2 ^ k) :
    (2 ^ k * a + b) &&& (2 ^ k * a2 + b2) = 2 ^ k * (a &&& a2) + (b &&& b2) := by
  have hand : b &&& b2 < 2 ^ k := Nat.and_lt_two_pow _ hb2
  apply Nat.eq_of_testBit_eq
  intro j
  rw [Nat.testBit_and, Nat.testBit_mul_pow_two_add _ hb, Nat.testBit_mul_pow_two_add _ hb2,
    Nat.testBit_mul_pow_two_add _ hand]
  split_ifs <;> simp [Nat.testBit_and]

theorem or_concat (k a b a2 b2 : ℕ) (hb : b < 2 ^ k) (hb2 : b2 < 2 ^ k) :
    (2 ^ k * a + b) ||| (2 ^ k * a2 + b2) = 2 ^ k * (a ||| a2) + (b ||| b2) := by
  have hor : b ||| b2 < 2 ^ k := Nat.or_lt_two_pow hb hb2
  apply Nat.eq_of_testBit_eq
  intro j
  rw [Nat.testBit_or, Nat.testBit_mul_pow_two_add _ hb, Nat.testBit_mul_pow_two_add _ hb2,
    Nat.testBit_mul_pow_two_add _ hor]
  split_ifs <;> simp [Nat.testBit_or]

theorem and_word4 (a0 a1 a2 a3 m0 m1 m2 m3 : ℕ) (h0 : a0 < 2 ^ 8) (h1 : a1 < 2 ^ 8)
    (h2 : a2 < 2 ^ 8) (g0 : m0 < 2 ^ 8) (g1 : m1 < 2 ^ 8) (g2 : m2 < 2 ^ 8) :
    (2 ^ 8 * (2 ^ 8 * (2 ^ 8 * a3 + a2) + a1) + a0) &&&
        (2 ^ 8 * (2 ^ 8 * (2 ^ 8 * m3 + m2) + m1) + m0) =
      2 ^ 8 * (2 ^ 8 * (2 ^ 8 * (a3 &&& m3) + (a2 &&& m2)) + (a1 &&& m1)) + (a0 &&& m0) := by
  rw [and_concat 8 _ _ _ _ h0 g0, and_concat 8 _ _ _ _ h1 g1, and_concat 8 _ _ _ _ h2 g2]

theorem or_word4 (a0 a1 a2 a3 m0 m1 m2 m3 : ℕ) (h0 : a0 < 2 ^ 8) (h1 : a1 < 2 ^ 8)
    (h2 : a2 < 2 ^ 8) (g0 : m0 < 2 ^ 8) (g1 : m1 < 2 ^ 8) (g2 : m2 < 2 ^ 8) :
    (2 ^ 8 * (2 ^ 8 * (2 ^ 8 * a3 + a2) + a1) + a0) |||
        (2 ^ 8 * (2 ^ 8 * (2 ^ 8 * m3 + m2) + m1) + m0) =
      2 ^ 8 * (2 ^ 8 * (2 ^ 8 * (a3 ||| m3) + (a2 ||| m2)) + (a1 ||| m1)) + (a0 ||| m0) := by
  rw [or_concat 8 _ _ _ _ h0 g0, or_concat 8 _ _ _ _ h1 g1, or_concat 8 _ _ _ _ h2 g2]

theorem and_255 (x : ℕ) (h : x < 2 ^ 8) : x &&& 255 = x :=
  Nat.and_pow_two_sub_one_of_lt_two_pow h

theorem swapRedBlue_word4 (b0 b1 b2 b3 : ℕ) (h0 : b0 < 2 ^ 8) (h1 : b1 < 2 ^ 8)
    (h2 : b2 < 2 ^ 8) (h3 : b3 < 2 ^ 8) :
    swapRedBlue (2 ^ 8 * (2 ^ 8 * (2 ^ 8 * b3 + b2) + b1) + b0) =
      2 ^ 8 * (2 ^ 8 * (2 ^ 8 * b3 + b0) + b1) + b2 := by
  have z : (0 : ℕ) < 2 ^ 8 := by norm_num
  have f : (255 : ℕ) < 2 ^ 8 := by norm_num
  have a1 : (2 ^ 8 * (2 ^ 8 * (2 ^ 8 * b3 + b2) + b1) + b0) &&& 0xff00ff00 =
      2 ^ 8 * (2 ^ 8 * (2 ^ 8 * b3 + 0) + b1) + 0 := by
    have m : (0xff00ff00 : ℕ) = 2 ^ 8 * (2 ^ 8 * (2 ^ 8 * 255 + 0) + 255) + 0 := by norm_num
    rw [m, and_word4 _ _ _ _ _ _ _ _ h0 h1 h2 z f z]
    simp only [Nat.and_zero, and_255 _ h1, and_255 _ h3]
  have a2 : (2 ^ 8 * (2 ^ 8 * (2 ^ 8 * b3 + b2) + b1) + b0) &&& 0x00ff0000 =
      2 ^ 8 * (2 ^ 8 * (2 ^ 8 * 0 + b2) + 0) + 0 := by
    have m : (0x00ff0000 : ℕ) = 2 ^ 8 * (2 ^ 8 * (2 ^ 8 * 0 + 255) + 0) + 0 := by norm_num
    rw [m, and_word4 _ _ _ _ _ _ _ _ h0 h1 h2 z z f]
    simp only [Nat.and_zero, and_255 _ h2]
  have a3 : (2 ^ 8 * (2 ^ 8 * (2 ^ 8 * b3 + b2) + b1) + b0) &&& 0x000000ff =
      2 ^ 8 * (2 ^ 8 * (2 ^ 8 * 0 + 0) + 0) + b0 := by
    have m : (0x000000ff : ℕ) = 2 ^ 8 * (2 ^ 8 * (2 ^ 8 * 0 + 0) + 0) + 255 := by norm_num
    rw [m, and_word4 _ _ _ _ _ _ _ _ h0 h1 h2 f z z]
    simp only [Nat.and_zero, and_255 _ h0]
  have e2 : (2 ^ 8 * (2 ^ 8 * (2 ^ 8 * 0 + b2) + 0) + 0) >>> 16 =
      2 ^ 8 * (2 ^ 8 * (2 ^ 8 * 0 + 0) + 0) + b2 := by
    rw [Nat.shiftRight_eq_div_pow]
    omega
  have e3 : (2 ^ 8 * (2 ^ 8 * (2 ^ 8 * 0 + 0) + 0) + b0) <<< 16 =
      2 ^ 8 * (2 ^ 8 * (2 ^ 8 * 0 + b0) + 0) + 0 := by
    rw [Nat.shiftLeft_eq]
    omega
  unfold swapRedBlue
  rw [a1, a2, a3, e2, e3, or_word4 _ _ _ _ _ _ _ _ z h1 z h2 z z]
  simp only [Nat.or_zero, Nat.zero_or]
  rw [or_word4 _ _ _ _ _ _ _ _ h2 h1 z z z h0]
  simp only [Nat.or_zero, Nat.zero_or]

theorem byteOf_0 (c : ℕ) : byteOf c 0 = c % 256 := by
  unfold byteOf
  norm_num

theorem byteOf_1 (c : ℕ) : byteOf c 1 = c / 256 % 256 := by
  unfold byteOf
  norm_num

theorem byteOf_2 (c : ℕ) : byteOf c 2 = c / 65536 % 256 := by
  unfold byteOf
  norm_num

theorem byteOf_3 (c : ℕ) : byteOf c 3 = c / 16777216 % 256 := by
  unfold byteOf
  norm_num

theorem swapRedBlue_eq (c : ℕ) (hc : c < 4294967296) :
    swapRedBlue c = packBytes (byteOf c 2) (byteOf c 1) (byteOf c 0) (byteOf c 3) := by
  have hcw : c = 2 ^ 8 * (2 ^ 8 * (2 ^ 8 * (c / 16777216 % 256) + c / 65536 % 256) +
      c / 256 % 256) + c % 256 := by
    omega
  have h := swapRedBlue_word4 (c % 256) (c / 256 % 256) (c / 65536 % 256) (c / 16777216 % 256)
    (Nat.mod_lt _ (by norm_num)) (Nat.mod_lt _ (by norm_num)) (Nat.mod_lt _ (by norm_num))
    (Nat.mod_lt _ (by norm_num))
  rw [← hcw] at h
  rw [h, byteOf_0, byteOf_1, byteOf_2, byteOf_3]
  have q0 : c % 256 < 256 := Nat.mod_lt _ (by norm_num)
  have q1 : c / 256 % 256 < 256 := Nat.mod_lt _ (by norm_num)
  have q2 : c / 65536 % 256 < 256 := Nat.mod_lt _ (by norm_num)
  have q3 : c / 16777216 % 256 < 256 := Nat.mod_lt _ (by norm_num)
  generalize c % 256 = b0 at q0 ⊢
  generalize c / 256 % 256 = b1 at q1 ⊢
  generalize c / 65536 % 256 = b2 at q2 ⊢
  generalize c / 16777216 % 256 = b3 at q3 ⊢
  unfold packBytes
  omega

/-- C24: when every sine value lies in `[-1, 1]`, the noise
`(s1 + s2 + s3) * 127 * 0.3333333 + 128` lies within `[1, 255]`, so within
`[0, 255]`, for every position and time, and its conversion to `int`, the
whiteout intensity before the boost, is a value from 0 to 255. -/
theorem C24_noise_range (env : Env) (pos : VECTOR)
    (hsin : ∀ a : ℚ, -1 ≤ env.sinD2R a ∧ env.sinD2R a ≤ 1) :
    1 ≤ noiseValue env pos ∧ noiseValue env pos ≤ 255 ∧
    0 ≤ f2i (noiseValue env pos) ∧ f2i (noiseValue env pos) ≤ 255 := by
  have hx := hsin ((axisTerm pos.x : ℚ) + secondsOf env * 71)
  have hy := hsin ((axisTerm pos.y : ℚ) + secondsOf env * 71)
  have hz := hsin ((axisTerm pos.z : ℚ) + secondsOf env * 71)
  have hlo : 1 ≤ noiseValue env pos := by
    unfold noiseValue
    linarith [hx.1, hy.1, hz.1]
  have hhi : noiseValue env pos ≤ 255 := by
    unfold noiseValue
    linarith [hx.2, hy.2, hz.2]
  have h0 : (0 : ℚ) ≤ noiseValue env pos := le_trans zero_le_one hlo
  refine ⟨hlo, hhi, ?_, ?_⟩
  · rw [f2i_of_nonneg h0]
    exact Int.floor_nonneg.mpr h0
  · rw [f2i_of_nonneg h0]
    have h : ⌊noiseValue env pos⌋ ≤ ⌊(255 : ℚ)⌋ := Int.floor_mono hhi
    have h255 : ⌊(255 : ℚ)⌋ = 255 := by exact_mod_cast Int.floor_intCast (255 : ℤ)
    rw [h255] at h
    exact h

theorem waveEnv_bounded : ∀ a : ℚ, -1 ≤ waveEnv.sinD2R a ∧ waveEnv.sinD2R a ≤ 1 := by
  intro a
  show -1 ≤ (((⌊a⌋ % 360 : ℤ) : ℚ) - 180) / 180 ∧ (((⌊a⌋ % 360 : ℤ) : ℚ) - 180) / 180 ≤ 1
  have h1 : (0 : ℤ) ≤ ⌊a⌋ % 360 := Int.emod_nonneg _ (by decide)
  have h2 : ⌊a⌋ % 360 < 360 := Int.emod_lt_of_pos _ (by decide)
  have h1q : (0 : ℚ) ≤ ((⌊a⌋ % 360 : ℤ) : ℚ) := by exact_mod_cast h1
  have h2q : ((⌊a⌋ % 360 : ℤ) : ℚ) < 360 := by exact_mod_cast h2
  constructor
  · rw [le_div_iff₀ (by norm_num)]
    linarith
  · rw [div_le_iff₀ (by norm_num)]
    linarith

/-- C24 (witness): the sawtooth sine, with values in `[-1, 1)`, at the position
`(100, -50, 7)`. -/
theorem C24_noise_range_witness :
    (∀ a : ℚ, -1 ≤ waveEnv.sinD2R a ∧ waveEnv.sinD2R a ≤ 1) ∧
    1 ≤ noiseValue waveEnv ⟨100, -50, 7⟩ ∧ noiseValue waveEnv ⟨100, -50, 7⟩ ≤ 255 ∧
    0 ≤ f2i (noiseValue waveEnv ⟨100, -50, 7⟩) ∧ f2i (noiseValue waveEnv ⟨100, -50, 7⟩) ≤ 255 :=
  ⟨waveEnv_bounded, C24_noise_range waveEnv ⟨100, -50, 7⟩ waveEnv_bounded⟩

/-- C25: for every colour `c` and every clamped intensity `i` with
`0 <= i <= 255`, `do_whiteout_effect` yields `(c & 0xffff) | (i << 24) | (i << 16)`:
the low 16 bits of the colour are unchanged and each of the two high bytes
equals `i`. -/
theorem C25_whiteout_bit_packing (gl : Globals) (env : Env) (pos : VECTOR) (c : ℕ)
    (h0 : 0 ≤ whiteoutIntensity gl env pos) :
    whiteoutIntensity gl env pos ≤ 255 ∧
    do_whiteout_effect gl env pos c =
      ((c &&& 0xffff) ||| ((whiteoutIntensity gl env pos).toNat <<< 24)) |||
        ((whiteoutIntensity gl env pos).toNat <<< 16) ∧
    do_whiteout_effect gl env pos c % 65536 = c % 65536 ∧
    ((byteOf (do_whiteout_effect gl env pos c) 2 : ℕ) : ℤ) = whiteoutIntensity gl env pos ∧
    ((byteOf (do_whiteout_effect gl env pos c) 3 : ℕ) : ℤ) = whiteoutIntensity gl env pos := by
  have h255 := whiteoutIntensity_le gl env pos
  obtain ⟨n, hn⟩ := Int.eq_ofNat_of_zero_le h0
  have hn255 : n ≤ 255 := by omega
  have hlo : c % 65536 < 65536 := Nat.mod_lt c (by decide)
  have hres := do_whiteout_effect_eq gl env pos c h0
  rw [hn, Int.toNat_ofNat] at hres
  have h3 : (c % 65536 + 65536 * (n * 257)) / 16777216 = n := by
    have hsplit : c % 65536 + 65536 * (n * 257) =
        (c % 65536 + 65536 * n) + 16777216 * n := by omega
    rw [hsplit, Nat.add_mul_div_left _ _ (by decide : 0 < 16777216),
      Nat.div_eq_of_lt (by omega), Nat.zero_add]
  have hbits : ((c &&& 0xffff) ||| (n <<< 24)) ||| (n <<< 16) =
      c % 65536 + 65536 * (n * 257) := by
    have hlow : c &&& 0xffff = c % 2 ^ 16 := Nat.and_pow_two_sub_one_eq_mod c 16
    have hhigh : (n <<< 24) ||| (n <<< 16) = 2 ^ 16 * (n * 257) := by
      rw [Nat.shiftLeft_eq, Nat.shiftLeft_eq, Nat.mul_comm n (2 ^ 24),
        ← Nat.mul_add_lt_is_or (by omega : n * 2 ^ 16 < 2 ^ 24) n]
      omega
    rw [Nat.or_assoc, hhigh, hlow, Nat.or_comm,
      ← Nat.mul_add_lt_is_or (Nat.mod_lt c (by decide)) _]
    omega
  rw [hn, Int.toNat_ofNat, hbits, hres, byteOf_2, byteOf_3, h3]
  refine ⟨by omega, rfl, ?_, ?_, ?_⟩ <;> omega

/-- C25 (witness): boost 10, noise 128 and the colour `0x11223344`. -/
theorem C25_whiteout_bit_packing_witness :
    0 ≤ whiteoutIntensity whiteoutGlobals sampleEnv ⟨0, 0, 0⟩ ∧
    do_whiteout_effect whiteoutGlobals sampleEnv ⟨0, 0, 0⟩ 0x11223344 =
      ((0x11223344 &&& 0xffff) |||
          ((whiteoutIntensity whiteoutGlobals sampleEnv ⟨0, 0, 0⟩).toNat <<< 24)) |||
        ((whiteoutIntensity whiteoutGlobals sampleEnv ⟨0, 0, 0⟩).toNat <<< 16) ∧
    do_whiteout_effect whiteoutGlobals sampleEnv ⟨0, 0, 0⟩ 0x11223344 % 65536 =
      0x11223344 % 65536 :=
  have h0 : 0 ≤ whiteoutIntensity whiteoutGlobals sampleEnv ⟨0, 0, 0⟩ := by
    rw [sample_whiteoutIntensity]
    decide
  ⟨h0, (C25_whiteout_bit_packing whiteoutGlobals sampleEnv ⟨0, 0, 0⟩ 0x11223344 h0).2.1,
    (C25_whiteout_bit_packing whiteoutGlobals sampleEnv ⟨0, 0, 0⟩ 0x11223344 h0).2.2.1⟩

theorem swapRedBlue_lt (c : ℕ) (hc : c < 4294967296) : swapRedBlue c < 4294967296 := by
  rw [swapRedBlue_eq c hc]
  unfold packBytes
  omega

/-- C26: for every 32-bit colour the swizzle of `set_color` exchanges byte 0
(blue) with byte 2 (red), leaves bytes 1 and 3 unchanged, and applied twice
returns the original colour. -/
theorem C26_set_color_swaps_red_and_blue (c : ℕ) (hc : c < 4294967296) :
    set_color c = [GLCall.glColor4ubv (swapRedBlue c)] ∧
    byteOf (swapRedBlue c) 0 = byteOf c 2 ∧ byteOf (swapRedBlue c) 2 = byteOf c 0 ∧
    byteOf (swapRedBlue c) 1 = byteOf c 1 ∧ byteOf (swapRedBlue c) 3 = byteOf c 3 ∧
    swapRedBlue (swapRedBlue c) = c := by
  have hb0 : byteOf (swapRedBlue c) 0 = byteOf c 2 := by
    rw [swapRedBlue_eq c hc, byteOf_packBytes_0, Nat.mod_eq_of_lt (byteOf_lt _ _)]
  have hb1 : byteOf (swapRedBlue c) 1 = byteOf c 1 := by
    rw [swapRedBlue_eq c hc, byteOf_packBytes_1, Nat.mod_eq_of_lt (byteOf_lt _ _)]
  have hb2 : byteOf (swapRedBlue c) 2 = byteOf c 0 := by
    rw [swapRedBlue_eq c hc, byteOf_packBytes_2, Nat.mod_eq_of_lt (byteOf_lt _ _)]
  have hb3 : byteOf (swapRedBlue c) 3 = byteOf c 3 := by
    rw [swapRedBlue_eq c hc, byteOf_packBytes_3, Nat.mod_eq_of_lt (byteOf_lt _ _)]
  refine ⟨rfl, hb0, hb2, hb1, hb3, ?_⟩
  rw [swapRedBlue_eq (swapRedBlue c) (swapRedBlue_lt c hc), hb0, hb1, hb2, hb3,
    packBytes_byteOf, Nat.mod_eq_of_lt hc]

/-- C26 (witness): the colour `0x11223344` becomes `0x11443322`. -/
theorem C26_set_color_swaps_red_and_blue_witness :
    (0x11223344 : ℕ) < 4294967296 ∧
    swapRedBlue 0x11223344 = 0x11443322 ∧
    swapRedBlue (swapRedBlue 0x11223344) = 0x11223344 := by
  have h := C26_set_color_swaps_red_and_blue 0x11223344 (by decide)
  exact ⟨by decide, by decide, h.2.2.2.2.2⟩

/-! ## The spot-light regimes: claims C21, C22, C27 -/

theorem rlen2Of_nonneg (ray : VECTOR) : 0 ≤ rlen2Of ray :=
  add_nonneg (add_nonneg (mul_self_nonneg _) (mul_self_nonneg _)) (mul_self_nonneg _)

theorem fdiv_of_ne_zero (a b : ℚ) (h : b ≠ 0) : fdiv a b = some (a / b) := by
  unfold fdiv
  rw [if_neg h]

/-- When the length is not zero the normalisation succeeds, and the dot product
of its result with the direction is `spotCosa`. -/
theorem normalizeRay_eq (env : Env) (Pos : VECTOR) (L : XLIGHT)
    (hs : rlen2Of (rayTo Pos L) > 0 → env.sqrt (rlen2Of (rayTo Pos L)) ≠ 0) :
    ∃ ray1 : VECTOR, normalizeRay env (rayTo Pos L) (rlen2Of (rayTo Pos L)) = some ray1 ∧
      cosaOf ray1 L = spotCosa env Pos L := by
  unfold normalizeRay spotCosa
  by_cases hpos : rlen2Of (rayTo Pos L) > 0
  · rw [if_pos hpos, if_pos hpos, fdiv_of_ne_zero _ _ (hs hpos), fdiv_of_ne_zero _ _ (hs hpos),
      fdiv_of_ne_zero _ _ (hs hpos)]
    exact ⟨_, rfl, rfl⟩
  · rw [if_neg hpos, if_neg hpos]
    exact ⟨_, rfl, rfl⟩

/-- A true spot light in range is evaluated by the spot branch. -/
theorem lightIntensity_spot (gl : Globals) (env : Env) (Pos : VECTOR) (L : XLIGHT)
    (hflag : gl.render_lighting_point_lights_only = 0)
    (hnp : L.Type_ ≠ env.POINT_LIGHT) (hsp : L.Type_ = env.SPOT_LIGHT)
    (hin : rlen2Of (rayTo Pos L) < lsize2Of L) :
    lightIntensity gl env Pos L =
      spotIntensity env L (rayTo Pos L) (rlen2Of (rayTo Pos L)) (lsize2Of L) := by
  unfold lightIntensity
  simp only [if_pos hin]
  rw [if_neg (by simp [hflag, hnp]), if_pos hsp]

theorem spotFar_of_gt (L : XLIGHT) (rlen2 lsize2 cosa : ℚ) (hc : cosa > L.CosArc)
    (h1 : 3 / 4 * lsize2 ≠ 0) (h2 : 1 - L.CosArc ≠ 0) :
    spotFar L rlen2 lsize2 cosa = Falloff.lit (farFormula lsize2 L.CosArc cosa rlen2) := by
  unfold spotFar farFormula
  rw [if_pos hc, fdiv_of_ne_zero _ _ h1, fdiv_of_ne_zero _ _ h2]

theorem spotFar_of_le (L : XLIGHT) (rlen2 lsize2 cosa : ℚ) (hc : cosa ≤ L.CosArc) :
    spotFar L rlen2 lsize2 cosa = Falloff.next := by
  unfold spotFar
  rw [if_neg (not_lt.mpr hc)]

theorem spotFar_ne_next_of_gt (L : XLIGHT) (rlen2 lsize2 cosa : ℚ) (hc : cosa > L.CosArc) :
    spotFar L rlen2 lsize2 cosa ≠ Falloff.next := by
  unfold spotFar
  rw [if_pos hc]
  cases fdiv (lsize2 - rlen2) (3 / 4 * lsize2) <;>
    cases fdiv (cosa - L.CosArc) (1 - L.CosArc) <;>
    exact fun h => Falloff.noConfusion h

/-- In the far regime a true spot light is evaluated by `spotFar` at `spotCosa`. -/
theorem lightIntensity_far_eq (gl : Globals) (env : Env) (Pos : VECTOR) (L : XLIGHT)
    (hflag : gl.render_lighting_point_lights_only = 0)
    (hnp : L.Type_ ≠ env.POINT_LIGHT) (hsp : L.Type_ = env.SPOT_LIGHT)
    (hfar : lsize2Of L * (1 / 2) < rlen2Of (rayTo Pos L))
    (hin : rlen2Of (rayTo Pos L) < lsize2Of L)
    (hs : rlen2Of (rayTo Pos L) > 0 → env.sqrt (rlen2Of (rayTo Pos L)) ≠ 0) :
    lightIntensity gl env Pos L =
      spotFar L (rlen2Of (rayTo Pos L)) (lsize2Of L) (spotCosa env Pos L) := by
  obtain ⟨ray1, hn, hcos⟩ := normalizeRay_eq env Pos L hs
  rw [lightIntensity_spot gl env Pos L hflag hnp hsp hin]
  unfold spotIntensity
  rw [hn]
  simp only [hcos, if_pos hfar]

/-- In the near regime the intensity of a true spot light is `nearFormula` at
`spotCosa`. -/
theorem lightIntensity_near_eq (gl : Globals) (env : Env) (Pos : VECTOR) (L : XLIGHT)
    (hflag : gl.render_lighting_point_lights_only = 0)
    (hnp : L.Type_ ≠ env.POINT_LIGHT) (hsp : L.Type_ = env.SPOT_LIGHT)
    (hhalf : rlen2Of (rayTo Pos L) ≤ lsize2Of L * (1 / 2))
    (hmin : rlen2Of (rayTo Pos L) ≤ env.MIN_LIGHT_SIZE)
    (hin : rlen2Of (rayTo Pos L) < lsize2Of L)
    (hs : rlen2Of (rayTo Pos L) > 0 → env.sqrt (rlen2Of (rayTo Pos L)) ≠ 0) :
    lightIntensity gl env Pos L = Falloff.lit (nearFormula (spotCosa env Pos L)) := by
  obtain ⟨ray1, hn, hcos⟩ := normalizeRay_eq env Pos L hs
  rw [lightIntensity_spot gl env Pos L hflag hnp hsp hin]
  unfold spotIntensity nearFormula
  rw [hn]
  simp only [hcos, if_neg (not_lt.mpr hhalf), if_neg (not_lt.mpr hmin)]

/-- C21: for a true spot light and a position with
`Size²/2 < rlen2 < Size²`, the light is skipped exactly when `cosa <= CosArc`,
and otherwise the intensity is
`((Size² - rlen2) / (0.75 * Size²)) * ((cosa - CosArc) / (1 - CosArc))`, `cosa`
being the dot product of the normalised ray with the light direction. -/
theorem C21_spot_far_regime (gl : Globals) (env : Env) (Pos : VECTOR) (L : XLIGHT)
    (hflag : gl.render_lighting_point_lights_only = 0)
    (hnp : L.Type_ ≠ env.POINT_LIGHT) (hsp : L.Type_ = env.SPOT_LIGHT)
    (hfar : lsize2Of L * (1 / 2) < rlen2Of (rayTo Pos L))
    (hin : rlen2Of (rayTo Pos L) < lsize2Of L)
    (hs : env.sqrt (rlen2Of (rayTo Pos L)) ≠ 0) :
    (lightIntensity gl env Pos L = Falloff.next ↔ spotCosa env Pos L ≤ L.CosArc) ∧
    (L.CosArc < spotCosa env Pos L → 1 - L.CosArc ≠ 0 →
      lightIntensity gl env Pos L =
        Falloff.lit (((lsize2Of L - rlen2Of (rayTo Pos L)) / (3 / 4 * lsize2Of L)) *
          ((spotCosa env Pos L - L.CosArc) / (1 - L.CosArc)))) := by
  have hl : 0 < lsize2Of L := by
    have h0 := rlen2Of_nonneg (rayTo Pos L)
    linarith
  rw [lightIntensity_far_eq gl env Pos L hflag hnp hsp hfar hin (fun _ => hs)]
  constructor
  · constructor
    · intro hnext
      by_contra hgt
      exact spotFar_ne_next_of_gt L _ _ _ (not_le.mp hgt) hnext
    · exact spotFar_of_le L _ _ _
  · intro hgt hne
    rw [spotFar_of_gt L _ _ _ hgt (ne_of_gt (by linarith)) hne]
    rfl

theorem sampleEnv_sqrt_sq (n : ℕ) : sampleEnv.sqrt ((n : ℚ) * (n : ℚ)) = (n : ℚ) := by
  show ((Nat.sqrt (Int.toNat ⌊(n : ℚ) * (n : ℚ)⌋) : ℕ) : ℚ) = (n : ℚ)
  have h : ⌊(n : ℚ) * (n : ℚ)⌋ = ((n * n : ℕ) : ℤ) := by
    have hc : (n : ℚ) * (n : ℚ) = (((n * n : ℕ) : ℤ) : ℚ) := by push_cast; ring
    rw [hc, Int.floor_intCast]
  rw [h, Int.toNat_ofNat, Nat.sqrt_eq]

theorem sample_spot_rlen2 (size z : ℚ) :
    rlen2Of (rayTo ⟨0, 0, z⟩ (spotLight size)) = z * z := by
  simp [rlen2Of, rayTo, spotLight, sampleLight]

theorem sample_spot_cosa (size : ℚ) (n : ℕ) (hn : 0 < n) :
    spotCosa sampleEnv ⟨0, 0, (n : ℚ)⟩ (spotLight size) = 1 := by
  have hq : (0 : ℚ) < (n : ℚ) := by exact_mod_cast hn
  unfold spotCosa
  rw [sample_spot_rlen2, if_pos (mul_pos hq hq), sampleEnv_sqrt_sq]
  simp only [cosaOf, rayTo, spotLight, sampleLight]
  field_simp

/-- C21 (witness): a spot light of size 100 at the origin, pointing along z with
`CosArc = 1/2`, seen from `(0, 0, 81)`: `rlen2 = 6561`, `cosa = 1` and the
intensity is `(3439 / 7500) * 1`. -/
theorem C21_spot_far_regime_witness :
    spotGlobals.render_lighting_point_lights_only = 0 ∧
    (spotLight 100).Type_ ≠ sampleEnv.POINT_LIGHT ∧
    (spotLight 100).Type_ = sampleEnv.SPOT_LIGHT ∧
    lsize2Of (spotLight 100) * (1 / 2) < rlen2Of (rayTo ⟨0, 0, 81⟩ (spotLight 100)) ∧
    rlen2Of (rayTo ⟨0, 0, 81⟩ (spotLight 100)) < lsize2Of (spotLight 100) ∧
    sampleEnv.sqrt (rlen2Of (rayTo ⟨0, 0, 81⟩ (spotLight 100))) ≠ 0 ∧
    spotCosa sampleEnv ⟨0, 0, 81⟩ (spotLight 100) = 1 ∧
    lightIntensity spotGlobals sampleEnv ⟨0, 0, 81⟩ (spotLight 100) =
      Falloff.lit (((lsize2Of (spotLight 100) - rlen2Of (rayTo ⟨0, 0, 81⟩ (spotLight 100))) /
          (3 / 4 * lsize2Of (spotLight 100))) *
        ((spotCosa sampleEnv ⟨0, 0, 81⟩ (spotLight 100) - (spotLight 100).CosArc) /
          (1 - (spotLight 100).CosArc))) := by
  have hr : rlen2Of (rayTo ⟨0, 0, 81⟩ (spotLight 100)) = ((81 : ℕ) : ℚ) * ((81 : ℕ) : ℚ) := by
    rw [sample_spot_rlen2]
    norm_num
  have hl : lsize2Of (spotLight 100) = 10000 := by
    norm_num [lsize2Of, spotLight, sampleLight]
  have hfar : lsize2Of (spotLight 100) * (1 / 2) <
      rlen2Of (rayTo ⟨0, 0, 81⟩ (spotLight 100)) := by
    rw [hr, hl]
    norm_num
  have hin : rlen2Of (rayTo ⟨0, 0, 81⟩ (spotLight 100)) < lsize2Of (spotLight 100) := by
    rw [hr, hl]
    norm_num
  have hs : sampleEnv.sqrt (rlen2Of (rayTo ⟨0, 0, 81⟩ (spotLight 100))) ≠ 0 := by
    rw [hr, sampleEnv_sqrt_sq]
    norm_num
  have hcos : spotCosa sampleEnv ⟨0, 0, 81⟩ (spotLight 100) = 1 := by
    have h := sample_spot_cosa 100 81 (by decide)
    norm_num at h
    exact h
  have hca : (spotLight 100).CosArc = 1 / 2 := rfl
  refine ⟨rfl, by decide, rfl, hfar, hin, hs, hcos, ?_⟩
  exact (C21_spot_far_regime spotGlobals sampleEnv ⟨0, 0, 81⟩ (spotLight 100) rfl (by decide) rfl
    hfar hin hs).2 (by rw [hcos, hca]; norm_num) (by rw [hca]; norm_num)

/-- C22 (counterexample): a true spot light of size 10 (`Size² = 100`) seen from
`(0, 0, 9)`, with `MIN_LIGHT_SIZE = 384`.  Then `rlen2 = 81` is at most
`MIN_LIGHT_SIZE` and below `Size²`, and `cosa = 1 > 0`, yet the intensity is
19/75 and not 1: since `rlen2 > Size²/2` the far regime applies. -/
theorem C22_counterexample :
    spotGlobals.render_lighting_point_lights_only = 0 ∧
    (spotLight 10).Type_ ≠ sampleEnv.POINT_LIGHT ∧
    (spotLight 10).Type_ = sampleEnv.SPOT_LIGHT ∧
    rlen2Of (rayTo ⟨0, 0, 9⟩ (spotLight 10)) ≤ sampleEnv.MIN_LIGHT_SIZE ∧
    rlen2Of (rayTo ⟨0, 0, 9⟩ (spotLight 10)) < lsize2Of (spotLight 10) ∧
    spotCosa sampleEnv ⟨0, 0, 9⟩ (spotLight 10) = 1 ∧
    lightIntensity spotGlobals sampleEnv ⟨0, 0, 9⟩ (spotLight 10) = Falloff.lit (19 / 75) ∧
    lightIntensity spotGlobals sampleEnv ⟨0, 0, 9⟩ (spotLight 10) ≠ Falloff.lit 1 := by
  have hr : rlen2Of (rayTo ⟨0, 0, 9⟩ (spotLight 10)) = ((9 : ℕ) : ℚ) * ((9 : ℕ) : ℚ) := by
    rw [sample_spot_rlen2]
    norm_num
  have hl : lsize2Of (spotLight 10) = 100 := by
    norm_num [lsize2Of, spotLight, sampleLight]
  have hmin : sampleEnv.MIN_LIGHT_SIZE = 384 := rfl
  have hca : (spotLight 10).CosArc = 1 / 2 := rfl
  have hcos : spotCosa sampleEnv ⟨0, 0, 9⟩ (spotLight 10) = 1 := by
    have h := sample_spot_cosa 10 9 (by decide)
    norm_num at h
    exact h
  have hI : lightIntensity spotGlobals sampleEnv ⟨0, 0, 9⟩ (spotLight 10) =
      Falloff.lit (19 / 75) := by
    rw [lightIntensity_far_eq spotGlobals sampleEnv ⟨0, 0, 9⟩ (spotLight 10) rfl (by decide) rfl
      (by rw [hr, hl]; norm_num) (by rw [hr, hl]; norm_num)
      (fun _ => by rw [hr, sampleEnv_sqrt_sq]; norm_num),
      spotFar_of_gt _ _ _ _ (by rw [hcos, hca]; norm_num) (by rw [hl]; norm_num)
        (by rw [hca]; norm_num)]
    unfold farFormula
    rw [hcos, hca, hl, hr]
    norm_num
  refine ⟨rfl, by decide, rfl, by rw [hr, hmin]; norm_num, by rw [hr, hl]; norm_num, hcos,
    hI, ?_⟩
  rw [hI]
  intro h
  have := Falloff.lit.inj h
  norm_num at this

/-- C22 (amended): for a true spot light and a position with
`rlen2 <= MIN_LIGHT_SIZE` and `rlen2 <= Size²/2` (and `rlen2 < Size²`), the
intensity depends on the dot product only: it is 1 when `cosa > 0` and
`1 + cosa` otherwise; with `rlen2 = 0` the ray is not normalised, `cosa = 0` and
the intensity is 1. -/
theorem C22_spot_near_regime (gl : Globals) (env : Env) (Pos : VECTOR) (L : XLIGHT)
    (hflag : gl.render_lighting_point_lights_only = 0)
    (hnp : L.Type_ ≠ env.POINT_LIGHT) (hsp : L.Type_ = env.SPOT_LIGHT)
    (hhalf : rlen2Of (rayTo Pos L) ≤ lsize2Of L * (1 / 2))
    (hmin : rlen2Of (rayTo Pos L) ≤ env.MIN_LIGHT_SIZE)
    (hin : rlen2Of (rayTo Pos L) < lsize2Of L)
    (hs : rlen2Of (rayTo Pos L) > 0 → env.sqrt (rlen2Of (rayTo Pos L)) ≠ 0) :
    lightIntensity gl env Pos L =
      Falloff.lit (if spotCosa env Pos L > 0 then 1 else 1 + spotCosa env Pos L) ∧
    (rlen2Of (rayTo Pos L) = 0 →
      spotCosa env Pos L = 0 ∧ lightIntensity gl env Pos L = Falloff.lit 1) := by
  have hI := lightIntensity_near_eq gl env Pos L hflag hnp hsp hhalf hmin hin hs
  unfold nearFormula at hI
  refine ⟨hI, fun h0 => ?_⟩
  have hx := mul_self_nonneg (rayTo Pos L).x
  have hy := mul_self_nonneg (rayTo Pos L).y
  have hz := mul_self_nonneg (rayTo Pos L).z
  have hsum : (rayTo Pos L).x * (rayTo Pos L).x + (rayTo Pos L).y * (rayTo Pos L).y +
      (rayTo Pos L).z * (rayTo Pos L).z = 0 := h0
  have hx0 : (rayTo Pos L).x = 0 := mul_self_eq_zero.mp (by linarith)
  have hy0 : (rayTo Pos L).y = 0 := mul_self_eq_zero.mp (by linarith)
  have hz0 : (rayTo Pos L).z = 0 := mul_self_eq_zero.mp (by linarith)
  have hc : spotCosa env Pos L = 0 := by
    unfold spotCosa
    rw [if_neg (by rw [h0]; exact lt_irrefl 0)]
    unfold cosaOf
    rw [hx0, hy0, hz0]
    ring
  refine ⟨hc, ?_⟩
  rw [hI, hc]
  norm_num

/-- C22 (witness): a true spot light of size 100 seen from its own position,
and from `(0, 0, 16)`. -/
theorem C22_spot_near_regime_witness :
    rlen2Of (rayTo ⟨0, 0, 0⟩ (spotLight 100)) = 0 ∧
    rlen2Of (rayTo ⟨0, 0, 0⟩ (spotLight 100)) ≤ sampleEnv.MIN_LIGHT_SIZE ∧
    rlen2Of (rayTo ⟨0, 0, 0⟩ (spotLight 100)) ≤ lsize2Of (spotLight 100) * (1 / 2) ∧
    spotCosa sampleEnv ⟨0, 0, 0⟩ (spotLight 100) = 0 ∧
    lightIntensity spotGlobals sampleEnv ⟨0, 0, 0⟩ (spotLight 100) = Falloff.lit 1 ∧
    lightIntensity spotGlobals sampleEnv ⟨0, 0, 16⟩ (spotLight 100) =
      Falloff.lit (if spotCosa sampleEnv ⟨0, 0, 16⟩ (spotLight 100) > 0 then 1
        else 1 + spotCosa sampleEnv ⟨0, 0, 16⟩ (spotLight 100)) := by
  have hr0 : rlen2Of (rayTo ⟨0, 0, 0⟩ (spotLight 100)) = 0 := by
    rw [sample_spot_rlen2]
    norm_num
  have hr : rlen2Of (rayTo ⟨0, 0, 16⟩ (spotLight 100)) = ((16 : ℕ) : ℚ) * ((16 : ℕ) : ℚ) := by
    rw [sample_spot_rlen2]
    norm_num
  have hl : lsize2Of (spotLight 100) = 10000 := by
    norm_num [lsize2Of, spotLight, sampleLight]
  have hmin : sampleEnv.MIN_LIGHT_SIZE = 384 := rfl
  have h0 := C22_spot_near_regime spotGlobals sampleEnv ⟨0, 0, 0⟩ (spotLight 100) rfl
    (by decide) rfl (by rw [hr0, hl]; norm_num) (by rw [hr0, hmin]; norm_num)
    (by rw [hr0, hl]; norm_num) (fun h => absurd h (by rw [hr0]; exact lt_irrefl 0))
  have h16 := C22_spot_near_regime spotGlobals sampleEnv ⟨0, 0, 16⟩ (spotLight 100) rfl
    (by decide) rfl (by rw [hr, hl]; norm_num) (by rw [hr, hmin]; norm_num)
    (by rw [hr, hl]; norm_num) (fun _ => by rw [hr, sampleEnv_sqrt_sq]; norm_num)
  exact ⟨hr0, by rw [hr0, hmin]; norm_num, by rw [hr0, hl]; norm_num, (h0.2 hr0).1,
    (h0.2 hr0).2, h16.1⟩

theorem spotMid_of_gt (env : Env) (L : XLIGHT) (rlen2 lsize2 cosa : ℚ)
    (h0 : lsize2 * (1 / 2) - env.MIN_LIGHT_SIZE ≠ 0)
    (hc : cosa > midCosarc2 env.MIN_LIGHT_SIZE lsize2 L.CosArc rlen2)
    (h1 : lsize2 - env.MIN_LIGHT_SIZE ≠ 0)
    (h2 : 1 - midCosarc2 env.MIN_LIGHT_SIZE lsize2 L.CosArc rlen2 ≠ 0) :
    spotMid env L rlen2 lsize2 cosa =
      Falloff.lit (midFormula env.MIN_LIGHT_SIZE lsize2 L.CosArc cosa rlen2) := by
  unfold spotMid midFormula
  rw [fdiv_of_ne_zero _ _ h0]
  simp only []
  unfold midCosarc2 at hc h2 ⊢
  rw [if_pos hc, fdiv_of_ne_zero _ _ h1, fdiv_of_ne_zero _ _ h2]

theorem farFormula_tendsto (lsize2 CosArc cosa a : ℚ) :
    Filter.Tendsto (fun r => farFormula lsize2 CosArc cosa r) (nhdsWithin a (Set.Ioi a))
      (nhds (farFormula lsize2 CosArc cosa a)) := by
  have hc : Continuous (fun r : ℚ => farFormula lsize2 CosArc cosa r) := by
    unfold farFormula
    fun_prop
  exact (hc.continuousAt.tendsto).mono_left nhdsWithin_le_nhds

theorem midCosarc2_continuous (minSize lsize2 CosArc : ℚ) :
    Continuous (fun r : ℚ => midCosarc2 minSize lsize2 CosArc r) := by
  unfold midCosarc2
  fun_prop

theorem midFormula_tendsto (minSize lsize2 CosArc cosa a : ℚ)
    (h : 1 - midCosarc2 minSize lsize2 CosArc a ≠ 0) :
    Filter.Tendsto (fun r => midFormula minSize lsize2 CosArc cosa r) (nhdsWithin a (Set.Ioi a))
      (nhds (midFormula minSize lsize2 CosArc cosa a)) := by
  have hc : ContinuousAt (fun r : ℚ => midFormula minSize lsize2 CosArc cosa r) a := by
    unfold midFormula
    have h1 := midCosarc2_continuous minSize lsize2 CosArc
    apply ContinuousAt.mul
    · fun_prop
    · apply ContinuousAt.div
      · exact (continuous_const.sub h1).continuousAt
      · exact (continuous_const.sub h1).continuousAt
      · exact h
  exact hc.tendsto.mono_left nhdsWithin_le_nhds

theorem farFormula_at_half (lsize2 CosArc cosa : ℚ) (hl : lsize2 ≠ 0) :
    farFormula lsize2 CosArc cosa (lsize2 * (1 / 2)) =
      2 / 3 * ((cosa - CosArc) / (1 - CosArc)) := by
  unfold farFormula
  have h : (lsize2 - lsize2 * (1 / 2)) / (3 / 4 * lsize2) = 2 / 3 := by
    field_simp
    ring
  rw [h]

theorem midCosarc2_at_half (minSize lsize2 CosArc : ℚ) :
    midCosarc2 minSize lsize2 CosArc (lsize2 * (1 / 2)) = CosArc := by
  unfold midCosarc2
  rw [sub_self, zero_div, sub_zero, mul_one]

theorem midFormula_at_half (minSize lsize2 CosArc cosa : ℚ) :
    midFormula minSize lsize2 CosArc cosa (lsize2 * (1 / 2)) =
      (lsize2 * (1 / 2) / (lsize2 - minSize)) * ((cosa - CosArc) / (1 - CosArc)) := by
  unfold midFormula
  rw [midCosarc2_at_half]
  have h : lsize2 - lsize2 * (1 / 2) = lsize2 * (1 / 2) := by ring
  rw [h]

theorem midCosarc2_at_min (minSize lsize2 CosArc : ℚ) (h1 : lsize2 * (1 / 2) - minSize ≠ 0) :
    midCosarc2 minSize lsize2 CosArc minSize = 0 := by
  unfold midCosarc2
  rw [div_self h1, sub_self, mul_zero]

theorem midFormula_at_min (minSize lsize2 CosArc cosa : ℚ)
    (h1 : lsize2 * (1 / 2) - minSize ≠ 0) (h2 : lsize2 - minSize ≠ 0) :
    midFormula minSize lsize2 CosArc cosa minSize = cosa := by
  unfold midFormula
  rw [midCosarc2_at_min _ _ _ h1, div_self h2, sub_zero, sub_zero, div_one, one_mul]

/-- C23 (counterexample): a spot light with `Size² = 1600` and `CosArc = 1/2`,
`MIN_LIGHT_SIZE = 384` and `cosa = 3/4`.  As `rlen2` decreases to `Size²/2 = 800`
the far-regime formula tends to 1/3, not to the 25/76 that the middle-regime
formula gives at 800; as `rlen2` decreases to 384 the middle-regime formula
tends to 3/4, not to the 1 of the near regime. -/
theorem C23_counterexample :
    lsize2Of (spotLight 40) = 1600 ∧ (spotLight 40).CosArc = 1 / 2 ∧
    sampleEnv.MIN_LIGHT_SIZE = 384 ∧
    ¬ Filter.Tendsto
      (fun r => farFormula (lsize2Of (spotLight 40)) (spotLight 40).CosArc (3 / 4) r)
      (nhdsWithin (lsize2Of (spotLight 40) * (1 / 2))
        (Set.Ioi (lsize2Of (spotLight 40) * (1 / 2))))
      (nhds (midFormula sampleEnv.MIN_LIGHT_SIZE (lsize2Of (spotLight 40))
        (spotLight 40).CosArc (3 / 4) (lsize2Of (spotLight 40) * (1 / 2)))) ∧
    ¬ Filter.Tendsto
      (fun r => midFormula sampleEnv.MIN_LIGHT_SIZE (lsize2Of (spotLight 40))
        (spotLight 40).CosArc (3 / 4) r)
      (nhdsWithin sampleEnv.MIN_LIGHT_SIZE (Set.Ioi sampleEnv.MIN_LIGHT_SIZE))
      (nhds (nearFormula (3 / 4))) := by
  have hl : lsize2Of (spotLight 40) = 1600 := by
    norm_num [lsize2Of, spotLight, sampleLight]
  have hca : (spotLight 40).CosArc = 1 / 2 := rfl
  have hmin : sampleEnv.MIN_LIGHT_SIZE = 384 := rfl
  refine ⟨hl, hca, hmin, ?_, ?_⟩
  · intro h
    have hlim := farFormula_tendsto (lsize2Of (spotLight 40)) (spotLight 40).CosArc (3 / 4)
      (lsize2Of (spotLight 40) * (1 / 2))
    have heq := tendsto_nhds_unique h hlim
    rw [midFormula_at_half, farFormula_at_half _ _ _ (by rw [hl]; norm_num), hl, hca, hmin]
      at heq
    norm_num at heq
  · intro h
    have hlim := midFormula_tendsto sampleEnv.MIN_LIGHT_SIZE (lsize2Of (spotLight 40))
      (spotLight 40).CosArc (3 / 4) sampleEnv.MIN_LIGHT_SIZE
      (by rw [midCosarc2_at_min _ _ _ (by rw [hl, hmin]; norm_num)]; norm_num)
    have heq := tendsto_nhds_unique h hlim
    rw [midFormula_at_min _ _ _ _ (by rw [hl, hmin]; norm_num) (by rw [hl, hmin]; norm_num)]
      at heq
    norm_num [nearFormula] at heq

/-- C23 (amended): each regime formula is continuous in the distance, but the
regimes do not join in general.  As `rlen2` decreases to `Size²/2` the far-regime
formula tends to `(2/3) * (cosa - CosArc) / (1 - CosArc)`, while the
middle-regime formula at `Size²/2` is
`((Size²/2) / (Size² - MIN_LIGHT_SIZE)) * (cosa - CosArc) / (1 - CosArc)`; the
two agree when `MIN_LIGHT_SIZE = Size²/4`.  As `rlen2` decreases to
`MIN_LIGHT_SIZE` the middle-regime formula tends to `cosa`, while the
near-regime formula gives 1 for `cosa > 0`; the two agree when `cosa = 1`. -/
theorem C23_regime_boundaries (env : Env) (L : XLIGHT) (cosa : ℚ)
    (hl : 0 < lsize2Of L)
    (h1 : lsize2Of L * (1 / 2) - env.MIN_LIGHT_SIZE ≠ 0)
    (h2 : lsize2Of L - env.MIN_LIGHT_SIZE ≠ 0) :
    Filter.Tendsto (fun r => farFormula (lsize2Of L) L.CosArc cosa r)
      (nhdsWithin (lsize2Of L * (1 / 2)) (Set.Ioi (lsize2Of L * (1 / 2))))
      (nhds (2 / 3 * ((cosa - L.CosArc) / (1 - L.CosArc)))) ∧
    midFormula env.MIN_LIGHT_SIZE (lsize2Of L) L.CosArc cosa (lsize2Of L * (1 / 2)) =
      (lsize2Of L * (1 / 2) / (lsize2Of L - env.MIN_LIGHT_SIZE)) *
        ((cosa - L.CosArc) / (1 - L.CosArc)) ∧
    (env.MIN_LIGHT_SIZE = lsize2Of L * (1 / 4) →
      midFormula env.MIN_LIGHT_SIZE (lsize2Of L) L.CosArc cosa (lsize2Of L * (1 / 2)) =
        2 / 3 * ((cosa - L.CosArc) / (1 - L.CosArc))) ∧
    Filter.Tendsto (fun r => midFormula env.MIN_LIGHT_SIZE (lsize2Of L) L.CosArc cosa r)
      (nhdsWithin env.MIN_LIGHT_SIZE (Set.Ioi env.MIN_LIGHT_SIZE)) (nhds cosa) ∧
    (0 < cosa → nearFormula cosa = 1) ∧
    (∀ r : ℚ, cosa > L.CosArc → 1 - L.CosArc ≠ 0 →
      spotFar L r (lsize2Of L) cosa =
        Falloff.lit (farFormula (lsize2Of L) L.CosArc cosa r)) ∧
    (∀ r : ℚ, cosa > midCosarc2 env.MIN_LIGHT_SIZE (lsize2Of L) L.CosArc r →
      1 - midCosarc2 env.MIN_LIGHT_SIZE (lsize2Of L) L.CosArc r ≠ 0 →
      spotMid env L r (lsize2Of L) cosa =
        Falloff.lit (midFormula env.MIN_LIGHT_SIZE (lsize2Of L) L.CosArc cosa r)) := by
  refine ⟨?_, midFormula_at_half _ _ _ _, ?_, ?_, ?_, ?_, ?_⟩
  · have h := farFormula_tendsto (lsize2Of L) L.CosArc cosa (lsize2Of L * (1 / 2))
    rw [farFormula_at_half _ _ _ (ne_of_gt hl)] at h
    exact h
  · intro hq
    rw [midFormula_at_half, hq]
    have h : lsize2Of L * (1 / 2) / (lsize2Of L - lsize2Of L * (1 / 4)) = 2 / 3 := by
      have hne : lsize2Of L ≠ 0 := ne_of_gt hl
      have h34 : lsize2Of L - lsize2Of L * (1 / 4) = lsize2Of L * (3 / 4) := by ring
      rw [h34, div_eq_iff (mul_ne_zero hne (by norm_num))]
      ring
    rw [h]
  · have h := midFormula_tendsto env.MIN_LIGHT_SIZE (lsize2Of L) L.CosArc cosa
      env.MIN_LIGHT_SIZE (by rw [midCosarc2_at_min _ _ _ h1]; norm_num)
    rw [midFormula_at_min _ _ _ _ h1 h2] at h
    exact h
  · intro hc
    unfold nearFormula
    rw [if_pos hc]
  · intro r hc hne
    exact spotFar_of_gt L r (lsize2Of L) cosa hc (ne_of_gt (by linarith)) hne
  · intro r hc hne
    exact spotMid_of_gt env L r (lsize2Of L) cosa h1 hc h2 hne

/-- C23 (witness): the spot light with `Size² = 1600`, `MIN_LIGHT_SIZE = 384`
and `cosa = 3/4`. -/
theorem C23_regime_boundaries_witness :
    0 < lsize2Of (spotLight 40) ∧
    lsize2Of (spotLight 40) * (1 / 2) - sampleEnv.MIN_LIGHT_SIZE ≠ 0 ∧
    lsize2Of (spotLight 40) - sampleEnv.MIN_LIGHT_SIZE ≠ 0 ∧
    Filter.Tendsto
      (fun r => farFormula (lsize2Of (spotLight 40)) (spotLight 40).CosArc (3 / 4) r)
      (nhdsWithin (lsize2Of (spotLight 40) * (1 / 2))
        (Set.Ioi (lsize2Of (spotLight 40) * (1 / 2))))
      (nhds (2 / 3 * ((3 / 4 - (spotLight 40).CosArc) / (1 - (spotLight 40).CosArc)))) ∧
    Filter.Tendsto
      (fun r => midFormula sampleEnv.MIN_LIGHT_SIZE (lsize2Of (spotLight 40))
        (spotLight 40).CosArc (3 / 4) r)
      (nhdsWithin sampleEnv.MIN_LIGHT_SIZE (Set.Ioi sampleEnv.MIN_LIGHT_SIZE))
      (nhds (3 / 4)) := by
  have hl : lsize2Of (spotLight 40) = 1600 := by
    norm_num [lsize2Of, spotLight, sampleLight]
  have hmin : sampleEnv.MIN_LIGHT_SIZE = 384 := rfl
  have h0 : 0 < lsize2Of (spotLight 40) := by rw [hl]; norm_num
  have h1 : lsize2Of (spotLight 40) * (1 / 2) - sampleEnv.MIN_LIGHT_SIZE ≠ 0 := by
    rw [hl, hmin]; norm_num
  have h2 : lsize2Of (spotLight 40) - sampleEnv.MIN_LIGHT_SIZE ≠ 0 := by
    rw [hl, hmin]; norm_num
  have h := C23_regime_boundaries sampleEnv (spotLight 40) (3 / 4) h0 h1 h2
  exact ⟨h0, h1, h2, h.1, h.2.2.2.1⟩

/-! ## The vertices submitted by `draw_render_object`: claim C30 -/

theorem vertexLoop_eq (numVerts : ℤ) : ∀ (n : ℕ) (i : ℤ), (numVerts - i).toNat = n →
    vertexLoop numVerts i = (List.range n).map (fun k : ℕ => i + (k : ℤ)) := by
  intro n
  induction n with
  | zero =>
    intro i hn
    rw [vertexLoop, dif_neg (by omega)]
    rfl
  | succ n ih =>
    intro i hn
    rw [vertexLoop, dif_pos (by omega), ih (i + 1) (by omega), List.range_succ_eq_map,
      List.map_cons, List.map_map]
    simp only [Nat.cast_zero, add_zero, List.cons.injEq, true_and]
    apply List.map_congr_left
    intro k _
    simp only [Function.comp, Nat.cast_succ]
    ring

theorem indexLoop_eq (indices : List ℕ) (startVert startIndex numIndices : ℤ)
    (hb : ∀ j : ℤ, 0 ≤ j → j < numIndices →
      0 ≤ startIndex + j ∧ startIndex + j < (indices.length : ℤ)) :
    ∀ (n : ℕ) (i : ℤ), 0 ≤ i → (numIndices - i).toNat = n →
      indexLoop indices startVert startIndex numIndices i =
        some ((List.range n).map (fun k : ℕ =>
          startVert + ((indices.getD (startIndex + i + (k : ℤ)).toNat 0 : ℕ) : ℤ))) := by
  intro n
  induction n with
  | zero =>
    intro i _ hn
    rw [indexLoop, dif_neg (by omega)]
    rfl
  | succ n ih =>
    intro i hi hn
    have hlt : i < numIndices := by omega
    obtain ⟨hb0, hb1⟩ := hb i hi hlt
    have hget : indexAt indices (startIndex + i) =
        some (indices.getD (startIndex + i).toNat 0) := by
      unfold indexAt
      rw [if_pos hb0]
      have hlen : (startIndex + i).toNat < indices.length := by omega
      rw [List.getElem?_eq_getElem hlen, List.getD_eq_getElem _ _ hlen]
    rw [indexLoop, dif_pos hlt, hget]
    simp only []
    rw [ih (i + 1) (by omega) (by omega), List.range_succ_eq_map, List.map_cons, List.map_map]
    simp only [Nat.cast_zero, add_zero, Option.some.injEq, List.cons.injEq, true_and]
    apply List.map_congr_left
    intro k _
    simp only [Function.comp, Nat.cast_succ]
    have he : startIndex + (i + 1) + (k : ℤ) = startIndex + i + ((k : ℤ) + 1) := by ring
    rw [he]

theorem drawGroups_eq_map (renderObject : RENDEROBJECT) (f : TextureGroup → List ℤ)
    (groups : List TextureGroup)
    (h : ∀ g ∈ groups, drawGroup renderObject g = some (f g)) :
    drawGroups renderObject groups = some (groups.map f) := by
  induction groups with
  | nil => rfl
  | cons g rest ih =>
    unfold drawGroups
    rw [h g (List.mem_cons_self _ _), ih (fun g2 hg2 => h g2 (List.mem_cons_of_mem _ hg2))]
    rfl

/-- The vertices of one group drawn from the vertex list alone. -/
theorem drawGroup_plain (renderObject : RENDEROBJECT) (g : TextureGroup)
    (hnone : renderObject.lpIndexBuffer = none) :
    drawGroup renderObject g =
      some ((List.range (g.numVerts - g.startVert).toNat).map
        (fun k : ℕ => g.startVert + (k : ℤ))) := by
  unfold drawGroup
  rw [hnone]
  simp only []
  rw [vertexLoop_eq g.numVerts _ g.startVert rfl]

/-- The vertices of one group drawn through the index buffer. -/
theorem drawGroup_indexed (renderObject : RENDEROBJECT) (g : TextureGroup) (indices : List ℕ)
    (hsome : renderObject.lpIndexBuffer = some indices)
    (hb : ∀ j : ℤ, 0 ≤ j → j < g.numTriangles * 3 →
      0 ≤ g.startIndex + j ∧ g.startIndex + j < (indices.length : ℤ)) :
    drawGroup renderObject g =
      some ((List.range (g.numTriangles * 3).toNat).map (fun k : ℕ =>
        g.startVert + ((indices.getD (g.startIndex + (k : ℤ)).toNat 0 : ℕ) : ℤ))) := by
  unfold drawGroup
  rw [hsome]
  simp only []
  rw [indexLoop_eq indices g.startVert g.startIndex (g.numTriangles * 3) hb _ 0 (le_refl 0)
    (by rw [sub_zero])]
  simp only [add_zero]

/-- C30: without an index buffer `draw_render_object` submits, for each texture
group, exactly the vertices with index `i` such that `startVert <= i < numVerts`,
in increasing order (`numVerts - startVert` of them, none when
`startVert >= numVerts`); with an index buffer it submits, for
`i = 0 .. numTriangles*3 - 1` in order, the vertex at index
`startVert + indices[startIndex + i]`. -/
theorem C30_vertices_submitted (renderObject : RENDEROBJECT) :
    (renderObject.lpIndexBuffer = none →
      draw_render_object renderObject =
        some (renderObject.textureGroups.map (fun g =>
          (List.range (g.numVerts - g.startVert).toNat).map
            (fun k : ℕ => g.startVert + (k : ℤ)))) ∧
      ∀ g : TextureGroup, ∃ vs : List ℤ, drawGroup renderObject g = some vs ∧
        (∀ i : ℤ, i ∈ vs ↔ g.startVert ≤ i ∧ i < g.numVerts) ∧
        vs.Pairwise (fun a b => a < b) ∧
        (vs.length : ℤ) = max 0 (g.numVerts - g.startVert) ∧
        (g.numVerts ≤ g.startVert → vs = [])) ∧
    (∀ indices : List ℕ, renderObject.lpIndexBuffer = some indices →
      (∀ g ∈ renderObject.textureGroups, ∀ j : ℤ, 0 ≤ j → j < g.numTriangles * 3 →
        0 ≤ g.startIndex + j ∧ g.startIndex + j < (indices.length : ℤ)) →
      draw_render_object renderObject =
        some (renderObject.textureGroups.map (fun g =>
          (List.range (g.numTriangles * 3).toNat).map (fun k : ℕ =>
            g.startVert + ((indices.getD (g.startIndex + (k : ℤ)).toNat 0 : ℕ) : ℤ))))) := by
  constructor
  · intro hnone
    refine ⟨drawGroups_eq_map renderObject _ _
      (fun g _ => drawGroup_plain renderObject g hnone), fun g => ?_⟩
    refine ⟨_, drawGroup_plain renderObject g hnone, ?_, ?_, ?_, ?_⟩
    · intro i
      simp only [List.mem_map, List.mem_range]
      constructor
      · rintro ⟨k, hk, rfl⟩
        omega
      · intro hi
        exact ⟨(i - g.startVert).toNat, by omega, by omega⟩
    · rw [List.pairwise_map]
      exact (List.pairwise_lt_range _).imp (fun hab => by omega)
    · rw [List.length_map, List.length_range]
      omega
    · intro hle
      have h0 : (g.numVerts - g.startVert).toNat = 0 := by omega
      rw [h0]
      rfl
  · intro indices hsome hb
    exact drawGroups_eq_map renderObject _ _
      (fun g hg => drawGroup_indexed renderObject g indices hsome (hb g hg))

/-- C30 (witness): an object without index buffer whose groups draw the vertices
2, 3, 4 and nothing, and an object whose group draws, through the index buffer,
the vertices 12, 11, 13. -/
theorem C30_vertices_submitted_witness :
    draw_render_object plainObject = some [[2, 3, 4], []] ∧
    draw_render_object indexedObject = some [[12, 11, 13]] := by
  constructor
  · rw [(C30_vertices_submitted plainObject).1 rfl |>.1]
    rfl
  · rw [(C30_vertices_submitted indexedObject).2 [0, 1, 2, 2, 1, 3] rfl]
    · rfl
    · intro g hg j hj0 hj1
      simp only [indexedObject, List.mem_singleton] at hg
      subst hg
      have hj2 : j < 1 * 3 := hj1
      have hlen : (([0, 1, 2, 2, 1, 3] : List ℕ).length : ℤ) = 6 := rfl
      rw [hlen]
      show 0 ≤ (3 : ℤ) + j ∧ (3 : ℤ) + j < 6
      constructor <;> omega

end Forsaken
